import Mathlib

/-!
# Persistence layer of the safety record-keeping application

A shallow embedding of `src/server/database/init.js`: the module state (`db`,
`initialized`), the backing file, and the functions `initDatabase`,
`saveDatabase`, `createTables`, `query`, `run`, `get` and `all`.

The module drives the sql.js build of SQLite.  The engine is not part of the
repository, so the part of it the module relies on is modelled here from the
SQLite and sql.js documentation: a connection holds the persistent content
(tables, rows, AUTOINCREMENT counters, indexes) together with the
connection-scoped values `PRAGMA foreign_keys`, `last_insert_rowid()` and
`changes()`.  Statements are taken after parsing (`Stmt`), values carry their
storage class and no type affinity is applied, and rows come back in storage
order.  The loading of the sql.js library (`initSqlJs`) and the creation of the
data directory when the module is loaded are left out.
-/

namespace RiskSafety

/-! ## Values, rows and result objects -/

/-- A value stored in a column or bound to a `?` placeholder. -/
inductive Value where
  | null
  | int (n : Int)
  | text (s : String)
  deriving DecidableEq, Repr

/-- A JavaScript object with string keys, in key insertion order. -/
abbrev JsObject := List (String × Value)

/-- Property read `obj[key]`; `none` stands for `undefined`. -/
def JsObject.get (o : JsObject) (key : String) : Option Value :=
  match o with
  | [] => none
  | (k, v) :: rest => if k = key then some v else JsObject.get rest key

/-- Property write `obj[key] = v`: an existing key keeps its position. -/
def JsObject.set (o : JsObject) (key : String) (v : Value) : JsObject :=
  match o with
  | [] => [(key, v)]
  | (k, w) :: rest => if k = key then (k, v) :: rest else (k, w) :: JsObject.set rest key v

/-- A stored row: one value per column of the table, keyed by column name. -/
abbrev Row := List (String × Value)

/-- The value a stored row holds in a column (NULL when the column is absent). -/
def Row.col (r : Row) (c : String) : Value :=
  (JsObject.get r c).getD Value.null

/-- The rowid of a stored row, the value of its `id` column. -/
def Row.id (r : Row) : Value := Row.col r "id"

/-! ## Schema declarations -/

/-- The `ON DELETE` action of a foreign key (none written is `NO ACTION`). -/
inductive FkAction where
  | noAction
  | cascade
  | setNull
  deriving DecidableEq, Repr

/-- A clause `FOREIGN KEY (column) REFERENCES refTable(id) [ON DELETE ...]`. -/
structure ForeignKey where
  column : String
  refTable : String
  onDelete : FkAction
  deriving DecidableEq, Repr

/-- The `DEFAULT` clause of a column. -/
inductive ColDefault where
  | none
  | lit (v : Value)
  | now
  deriving DecidableEq, Repr

/-- A column declaration; `check` holds the list of `CHECK (col IN (...))`. -/
structure Column where
  name : String
  notNull : Bool
  unique : Bool
  dflt : ColDefault
  check : Option (List String)
  deriving DecidableEq, Repr

/-- A `CREATE TABLE` declaration. Every table of the module starts with
`id INTEGER PRIMARY KEY AUTOINCREMENT`, which is kept apart from `columns`. -/
structure TableDef where
  name : String
  columns : List Column
  foreignKeys : List ForeignKey
  uniques : List (List String)
  deriving DecidableEq, Repr

/-- A `CREATE INDEX name ON table(column)` declaration. -/
structure IndexDef where
  name : String
  table : String
  column : String
  deriving DecidableEq, Repr

/-- A plain nullable column without default. -/
def col (name : String) : Column :=
  { name := name, notNull := false, unique := false, dflt := ColDefault.none, check := none }

/-- A `NOT NULL` column without default. -/
def colNN (name : String) : Column :=
  { name := name, notNull := true, unique := false, dflt := ColDefault.none, check := none }

/-- A column `TEXT DEFAULT (datetime(''now''))`. -/
def colNow (name : String) : Column :=
  { name := name, notNull := false, unique := false, dflt := ColDefault.now, check := none }

/-- A nullable column with a literal default. -/
def colDflt (name : String) (v : Value) : Column :=
  { name := name, notNull := false, unique := false, dflt := ColDefault.lit v, check := none }

/-! ## Engine state -/

/-- A stored table: its declaration, its rows in storage order and the
AUTOINCREMENT high-water mark kept in `sqlite_sequence`. -/
structure Table where
  defn : TableDef
  rows : List Row
  seq : Int
  deriving DecidableEq, Repr

/-- The content of a database file, which `export` serializes: the tables and
indexes of a database image, or bytes that are not a database image
(`garbage`). SQLite opens a file without reading it, so the engine meets such
bytes only at the first statement that reads the file. -/
inductive Data where
  | stored (tables : List Table) (indexes : List IndexDef)
  | garbage
  deriving DecidableEq, Repr

/-- The tables of a database image (none in other bytes). -/
def Data.tables : Data → List Table
  | Data.stored ts _ => ts
  | Data.garbage => []

/-- The indexes of a database image (none in other bytes). -/
def Data.indexes : Data → List IndexDef
  | Data.stored _ is => is
  | Data.garbage => []

/-- Whether the bytes are not a database image. -/
def Data.isGarbage : Data → Bool
  | Data.stored _ _ => false
  | Data.garbage => true

/-- The database image with other tables. -/
def Data.withTables (d : Data) (ts : List Table) : Data :=
  match d with
  | Data.stored _ is => Data.stored ts is
  | Data.garbage => Data.garbage

/-- The database image with other indexes. -/
def Data.withIndexes (d : Data) (is : List IndexDef) : Data :=
  match d with
  | Data.stored ts _ => Data.stored ts is
  | Data.garbage => Data.garbage

/-- A database connection: the content and the connection-scoped values. -/
structure Conn where
  data : Data
  foreignKeys : Bool
  lastInsertRowid : Int
  changes : Int
  deriving DecidableEq, Repr

/-- The bytes of a file, as `readFileSync` returns them and `writeFileSync`
takes them: the serialization of some content. -/
inductive Bytes where
  | image (d : Data)
  deriving DecidableEq, Repr

/-- Bytes that are not a database image. -/
def Bytes.garbage : Bytes := Bytes.image Data.garbage

/-- An expression of a `SET` clause or of a `VALUES` list: a bound parameter or
literal, a column of the row, `datetime(''now'')`, `COALESCE(first, second)`,
`CASE WHEN left >= right THEN .. ELSE .. END` and
`CASE WHEN left = right THEN .. ELSE .. END`. -/
inductive Expr where
  | val (v : Value)
  | col (name : String)
  | now
  | coalesce (first second : Expr)
  | caseGe (left right thenE elseE : Expr)
  | caseEq (left right thenE elseE : Expr)
  deriving DecidableEq, Repr

/-- A statement together with its bound parameters, as the engine sees it
after parsing: identifiers are in the lower-case spelling of the schema. The
conditions of `update` and `selectWhere` are the conjunction `col = value AND ..`
of a `WHERE` clause; `bindFailure` is a statement one of whose parameters the
sql.js binding refuses (its text tells the value). -/
inductive Stmt where
  | pragmaForeignKeys (enable : Bool)
  | createTable (d : TableDef)
  | createIndex (i : IndexDef)
  | insert (table : String) (cols : List String) (vals : List Value)
  | delete (table : String) (whereCol : String) (v : Value)
  | select (table : String) (whereCol : String) (v : Value)
  | selectAll (table : String)
  | selectLastInsertRowid
  | selectChanges
  | malformed (text : String)
  | insertExprs (table : String) (cols : List String) (exprs : List Expr)
  | update (table : String) (sets : List (String × Expr)) (conds : List (String × Value))
  | selectWhere (table : String) (cols : List String) (conds : List (String × Value))
  | bindFailure (text : String)
  | dropIndex (name : String)
  deriving DecidableEq, Repr

/-- The empty database of `new SQL.Database()`. -/
def Data.empty : Data := Data.stored [] []

/-- A freshly opened connection on some content: foreign keys are off and
no insert or change has happened on it. -/
def Conn.onData (d : Data) : Conn :=
  { data := d, foreignKeys := false, lastInsertRowid := 0, changes := 0 }

/-- Looks a table up by name. -/
def Data.findTable (d : Data) (name : String) : Option Table :=
  d.tables.find? (fun t => t.defn.name = name)

/-- Replaces the table of the given name. -/
def Data.setTable (d : Data) (t : Table) : Data :=
  d.withTables (d.tables.map (fun u => if u.defn.name = t.defn.name then t else u))

/-- Whether an index of that name exists. -/
def Data.hasIndex (d : Data) (name : String) : Bool :=
  d.indexes.any (fun i => i.name = name)

/-! ## Engine: constraint checks -/

/-- An error raised by the engine; sql.js throws it as `Error(message)`. -/
structure EngineError where
  message : String
  deriving DecidableEq, Repr

/-- The comparison `a = b` of a `WHERE` clause: true only for equal non-NULL values. -/
def Value.sqlEq (a b : Value) : Bool :=
  match a, b with
  | Value.null, _ => false
  | _, Value.null => false
  | x, y => decide (x = y)

/-- The value an INSERT gives a column: the value listed for it (the first
occurrence of the column in the list), else the column default. -/
def insertValue (cols : List String) (vals : List Value) (now : String) (c : Column) : Value :=
  match JsObject.get (cols.zip vals) c.name with
  | some v => v
  | none =>
    match c.dflt with
    | ColDefault.none => Value.null
    | ColDefault.lit v => v
    | ColDefault.now => Value.text now

/-- A `CHECK (col IN (...))` constraint: it fails only when the expression is
false, so NULL passes and a value outside the list does not. -/
def checkPasses (allowed : Option (List String)) (v : Value) : Bool :=
  match allowed, v with
  | none, _ => true
  | some _, Value.null => true
  | some l, Value.text s => decide (s ∈ l)
  | some _, Value.int _ => false

/-- The `NOT NULL` and `CHECK` constraints of one column. -/
def Column.admits (c : Column) (v : Value) : Bool :=
  !(c.notNull && decide (v = Value.null)) && checkPasses c.check v

/-- The column sets declared unique: column-level `UNIQUE` and table-level `UNIQUE(...)`. -/
def TableDef.uniqueSets (d : TableDef) : List (List String) :=
  (d.columns.filter (fun c => c.unique)).map (fun c => [c.name]) ++ d.uniques

/-- Two rows collide on a unique column set when they agree, with non-NULL
values, on each of its columns. -/
def rowsCollide (keys : List String) (r1 r2 : Row) : Bool :=
  keys.all (fun k => Value.sqlEq (Row.col r1 k) (Row.col r2 k))

/-- Whether a new row breaks a uniqueness constraint of the table. -/
def Table.violatesUnique (t : Table) (row : Row) : Bool :=
  t.defn.uniqueSets.any (fun keys => t.rows.any (fun r => rowsCollide keys r row))

/-- The largest integer rowid among the rows (0 for none). -/
def maxRowid (rows : List Row) : Int :=
  rows.foldl (fun m r => match Row.id r with | Value.int n => max m n | _ => m) 0

/-- The rowid of a new row: the listed `id` when it is an integer not in use,
else (omitted or NULL) one more than the largest id ever used (AUTOINCREMENT). -/
def chooseRowid (t : Table) (cols : List String) (vals : List Value) : Except EngineError Int :=
  match JsObject.get (cols.zip vals) "id" with
  | none => Except.ok (max t.seq (maxRowid t.rows) + 1)
  | some Value.null => Except.ok (max t.seq (maxRowid t.rows) + 1)
  | some (Value.int n) =>
    if t.rows.any (fun r => decide (Row.id r = Value.int n)) then
      Except.error ⟨"UNIQUE constraint failed: " ++ t.defn.name ++ ".id"⟩
    else Except.ok n
  | some (Value.text _) => Except.error ⟨"datatype mismatch"⟩

/-- With foreign keys on, every non-NULL foreign key of a new row must be the
id of a row of the referenced table. -/
def fkParentsExist (d : Data) (td : TableDef) (row : Row) : Bool :=
  td.foreignKeys.all (fun fk =>
    match Row.col row fk.column with
    | Value.null => true
    | v =>
      match d.findTable fk.refTable with
      | none => false
      | some p => p.rows.any (fun r => decide (Row.id r = v)))

/-- Whether the table has a column of that name (`id` included). -/
def TableDef.hasColumn (d : TableDef) (c : String) : Bool :=
  decide (c = "id") || d.columns.any (fun cd => decide (cd.name = c))

/-- The row an INSERT stores: the id, then one value per declared column. -/
def buildRow (td : TableDef) (id : Int) (cols : List String) (vals : List Value)
    (now : String) : Row :=
  ("id", Value.int id) :: td.columns.map (fun cd => (cd.name, insertValue cols vals now cd))

/-! ## Engine: statements -/

/-- Stores a built row when it meets the constraints of the table: `NOT NULL`
and `CHECK` of every column, uniqueness, and, with foreign keys on, the
existence of the referenced rows. -/
def Conn.storeRow (c : Conn) (t : Table) (id : Int) (row : Row) : Except EngineError Conn :=
  if !(t.defn.columns.all (fun cd => cd.admits (Row.col row cd.name))) then
    Except.error ⟨"NOT NULL or CHECK constraint failed: " ++ t.defn.name⟩
  else if t.violatesUnique row then
    Except.error ⟨"UNIQUE constraint failed: " ++ t.defn.name⟩
  else if c.foreignKeys && !(fkParentsExist c.data t.defn row) then
    Except.error ⟨"FOREIGN KEY constraint failed"⟩
  else
    Except.ok
      { data := c.data.setTable { t with rows := t.rows ++ [row], seq := max t.seq id }
        foreignKeys := c.foreignKeys
        lastInsertRowid := id
        changes := 1 }

/-- The statement `INSERT INTO table (cols) VALUES (vals)`. -/
def Conn.insert (c : Conn) (now : String) (table : String) (cols : List String)
    (vals : List Value) : Except EngineError Conn :=
  match c.data.findTable table with
  | none => Except.error ⟨"no such table: " ++ table⟩
  | some t =>
    if cols.length ≠ vals.length then
      Except.error ⟨"values for columns: count mismatch"⟩
    else if !(cols.all (fun k => t.defn.hasColumn k)) then
      Except.error ⟨"table " ++ table ++ " has no column of that name"⟩
    else
      match chooseRowid t cols vals with
      | Except.error e => Except.error e
      | Except.ok id => c.storeRow t id (buildRow t.defn id cols vals now)

/-- Overwrites one column of a stored row. -/
def Row.setCol (r : Row) (c : String) (v : Value) : Row :=
  r.map (fun kv => if kv.1 = c then (kv.1, v) else kv)

/-- The foreign keys that reference a table, each with the table declaring it. -/
def Data.referencesTo (d : Data) (parent : String) : List (String × ForeignKey) :=
  d.tables.foldr (fun t acc =>
    (t.defn.foreignKeys.filter (fun fk => decide (fk.refTable = parent))).map
      (fun fk => (t.defn.name, fk)) ++ acc) []

/-- Whether a column of the table is declared `NOT NULL`. -/
def TableDef.isNotNull (d : TableDef) (c : String) : Bool :=
  d.columns.any (fun cd => decide (cd.name = c) && cd.notNull)

/-- Deletes the rows with the given ids while foreign keys are enforced: each
foreign key referencing the table applies its `ON DELETE` action to the rows
that point at a deleted id. `fuel` bounds the nesting of cascades, as SQLite
bounds it by its trigger depth limit. -/
def Data.deleteIds : Nat → Data → String → List Value → Except EngineError Data
  | 0, _, _, _ => Except.error ⟨"too many levels of trigger recursion"⟩
  | fuel + 1, d, table, ids =>
    match d.findTable table with
    | none => Except.error ⟨"no such table: " ++ table⟩
    | some t =>
      let d1 := d.setTable { t with rows := t.rows.filter (fun r => !(ids.contains (Row.id r))) }
      (d1.referencesTo table).foldlM (fun (acc : Data) (ref : String × ForeignKey) =>
        match acc.findTable ref.1 with
        | none => Except.ok acc
        | some ct =>
          let hit := ct.rows.filter (fun r => ids.contains (Row.col r ref.2.column))
          if hit.isEmpty then Except.ok acc
          else
            match ref.2.onDelete with
            | FkAction.noAction => Except.error ⟨"FOREIGN KEY constraint failed"⟩
            | FkAction.cascade => Data.deleteIds fuel acc ref.1 (hit.map Row.id)
            | FkAction.setNull =>
              if ct.defn.isNotNull ref.2.column then
                Except.error ⟨"NOT NULL constraint failed: " ++ ref.1⟩
              else
                Except.ok (acc.setTable { ct with rows := ct.rows.map (fun r =>
                  if ids.contains (Row.col r ref.2.column) then Row.setCol r ref.2.column Value.null
                  else r) })) d1

/-- The nesting limit of cascades (`SQLITE_MAX_TRIGGER_DEPTH`). -/
def maxTriggerDepth : Nat := 1000

/-- The statement `DELETE FROM table WHERE whereCol = v`. With foreign keys off
only the rows of the table itself are touched. -/
def Conn.delete (c : Conn) (table whereCol : String) (v : Value) : Except EngineError Conn :=
  match c.data.findTable table with
  | none => Except.error ⟨"no such table: " ++ table⟩
  | some t =>
    if !(t.defn.hasColumn whereCol) then
      Except.error ⟨"no such column: " ++ whereCol⟩
    else
      let hit := t.rows.filter (fun r => Value.sqlEq (Row.col r whereCol) v)
      if c.foreignKeys then
        match Data.deleteIds maxTriggerDepth c.data table (hit.map Row.id) with
        | Except.error e => Except.error e
        | Except.ok d => Except.ok { c with data := d, changes := hit.length }
      else
        Except.ok
          { c with
            data := c.data.setTable
              { t with rows := t.rows.filter (fun r => !(Value.sqlEq (Row.col r whereCol) v)) }
            changes := hit.length }

/-- The rows a statement produces: the column names and one value list per row. -/
structure ResultSet where
  columns : List String
  rows : List (List Value)
  deriving DecidableEq, Repr

/-- A statement that produces no row. -/
def ResultSet.none : ResultSet := { columns := [], rows := [] }

/-- The column names of `SELECT *` on a table. -/
def TableDef.columnNames (d : TableDef) : List String :=
  "id" :: d.columns.map (fun cd => cd.name)

/-- The statement `SELECT * FROM table [WHERE whereCol = v]`, rows in storage order. -/
def Conn.select (c : Conn) (table : String) (filter : Option (String × Value)) :
    Except EngineError ResultSet :=
  match c.data.findTable table with
  | none => Except.error ⟨"no such table: " ++ table⟩
  | some t =>
    match filter with
    | none =>
      Except.ok { columns := t.defn.columnNames
                  rows := t.rows.map (fun r => t.defn.columnNames.map (Row.col r)) }
    | some (whereCol, v) =>
      if !(t.defn.hasColumn whereCol) then
        Except.error ⟨"no such column: " ++ whereCol⟩
      else
        Except.ok { columns := t.defn.columnNames
                    rows := (t.rows.filter (fun r => Value.sqlEq (Row.col r whereCol) v)).map
                      (fun r => t.defn.columnNames.map (Row.col r)) }

/-- The comparison `a >= b` between values that carry no affinity: NULL compares
to nothing, numbers are ordered by value, texts by their characters, and a
number is below any text. -/
def Value.sqlGe (a b : Value) : Bool :=
  match a, b with
  | Value.null, _ => false
  | _, Value.null => false
  | Value.int x, Value.int y => decide (y ≤ x)
  | Value.int _, Value.text _ => false
  | Value.text _, Value.int _ => true
  | Value.text x, Value.text y => decide (¬ x < y)

/-- The value of an expression on a row; `clock` is the value of `datetime(''now'')`. -/
def Expr.eval (clock : String) (row : Row) : Expr → Value
  | Expr.val v => v
  | Expr.col c => Row.col row c
  | Expr.now => Value.text clock
  | Expr.coalesce a b =>
    match Expr.eval clock row a with
    | Value.null => Expr.eval clock row b
    | v => v
  | Expr.caseGe l r t e =>
    if Value.sqlGe (Expr.eval clock row l) (Expr.eval clock row r) then Expr.eval clock row t
    else Expr.eval clock row e
  | Expr.caseEq l r t e =>
    if Value.sqlEq (Expr.eval clock row l) (Expr.eval clock row r) then Expr.eval clock row t
    else Expr.eval clock row e

/-- The columns an expression reads. -/
def Expr.columns : Expr → List String
  | Expr.val _ => []
  | Expr.col c => [c]
  | Expr.now => []
  | Expr.coalesce a b => Expr.columns a ++ Expr.columns b
  | Expr.caseGe l r t e => Expr.columns l ++ Expr.columns r ++ Expr.columns t ++ Expr.columns e
  | Expr.caseEq l r t e => Expr.columns l ++ Expr.columns r ++ Expr.columns t ++ Expr.columns e

/-- Whether a row meets every condition `col = value` of a `WHERE` clause. -/
def matchesAll (conds : List (String × Value)) (r : Row) : Bool :=
  conds.all (fun kv => Value.sqlEq (Row.col r kv.1) kv.2)

/-- The row an UPDATE makes of a row: every assigned column gets the value of
its expression on the row as it was. -/
def updateRow (clock : String) (sets : List (String × Expr)) (r : Row) : Row :=
  (sets.map (fun kv => (kv.1, Expr.eval clock r kv.2))).foldl
    (fun o kv => JsObject.set o kv.1 kv.2) r

/-- The rows of a table after an UPDATE. -/
def Table.updatedRows (t : Table) (clock : String) (sets : List (String × Expr))
    (conds : List (String × Value)) : List Row :=
  t.rows.map (fun r => if matchesAll conds r then updateRow clock sets r else r)

/-- The new versions of the rows an UPDATE changes. -/
def Table.changedRows (t : Table) (clock : String) (sets : List (String × Expr))
    (conds : List (String × Value)) : List Row :=
  (t.rows.filter (fun r => matchesAll conds r)).map (updateRow clock sets)

/-- Whether a column is assigned by a `SET` clause. -/
def assigns (sets : List (String × Expr)) (c : String) : Bool :=
  sets.any (fun kv => decide (kv.1 = c))

/-- The constraints an UPDATE checks on the rows it changes: `NOT NULL` and
`CHECK` of the assigned columns, the uniqueness constraints that involve an
assigned column (checked on the resulting rows), and, with foreign keys on, the
existence of the rows referenced by assigned foreign keys. -/
def Conn.storeUpdate (c : Conn) (t : Table) (clock : String) (sets : List (String × Expr))
    (conds : List (String × Value)) : Except EngineError Conn :=
  if !((t.changedRows clock sets conds).all (fun r =>
      (t.defn.columns.filter (fun cd => assigns sets cd.name)).all
        (fun cd => cd.admits (Row.col r cd.name)))) then
    Except.error ⟨"NOT NULL or CHECK constraint failed: " ++ t.defn.name⟩
  else if (t.defn.uniqueSets.filter (fun keys => keys.any (fun k => assigns sets k))).any
      (fun keys => (t.changedRows clock sets conds).any (fun r =>
        (t.updatedRows clock sets conds).any (fun q =>
          !(decide (Row.id q = Row.id r)) && rowsCollide keys q r))) then
    Except.error ⟨"UNIQUE constraint failed: " ++ t.defn.name⟩
  else if c.foreignKeys && !((t.changedRows clock sets conds).all (fun r =>
      fkParentsExist c.data
        { t.defn with
          foreignKeys := t.defn.foreignKeys.filter (fun fk => assigns sets fk.column) } r)) then
    Except.error ⟨"FOREIGN KEY constraint failed"⟩
  else
    Except.ok
      { c with
        data := c.data.setTable { t with rows := t.updatedRows clock sets conds }
        changes := (t.changedRows clock sets conds).length }

/-- The statement `UPDATE table SET col = expr, .. WHERE col = value AND ..`.
Assignments to `id` are outside the model and rejected. -/
def Conn.update (c : Conn) (clock : String) (table : String) (sets : List (String × Expr))
    (conds : List (String × Value)) : Except EngineError Conn :=
  match c.data.findTable table with
  | none => Except.error ⟨"no such table: " ++ table⟩
  | some t =>
    if !(sets.all (fun kv => t.defn.columns.any (fun cd => decide (cd.name = kv.1)))) then
      Except.error ⟨"no such column in SET"⟩
    else if !(sets.all (fun kv => (Expr.columns kv.2).all (fun k => t.defn.hasColumn k))) then
      Except.error ⟨"no such column in expression"⟩
    else if !(conds.all (fun kv => t.defn.hasColumn kv.1)) then
      Except.error ⟨"no such column in WHERE"⟩
    else c.storeUpdate t clock sets conds

/-- The statement `SELECT cols FROM table WHERE col = value AND ..`, rows in
storage order. -/
def Conn.selectWhere (c : Conn) (table : String) (cols : List String)
    (conds : List (String × Value)) : Except EngineError ResultSet :=
  match c.data.findTable table with
  | none => Except.error ⟨"no such table: " ++ table⟩
  | some t =>
    if !(cols.all (fun k => t.defn.hasColumn k)) then
      Except.error ⟨"no such column in SELECT"⟩
    else if !(conds.all (fun kv => t.defn.hasColumn kv.1)) then
      Except.error ⟨"no such column in WHERE"⟩
    else
      Except.ok { columns := cols
                  rows := (t.rows.filter (fun r => matchesAll conds r)).map
                    (fun r => cols.map (Row.col r)) }

/-- The statement `INSERT INTO table (cols) VALUES (exprs)`; the expressions
cannot read a column. -/
def Conn.insertExprs (c : Conn) (clock : String) (table : String) (cols : List String)
    (exprs : List Expr) : Except EngineError Conn :=
  if !(exprs.all (fun e => (Expr.columns e).isEmpty)) then
    Except.error ⟨"no such column in VALUES"⟩
  else c.insert clock table cols (exprs.map (Expr.eval clock []))

/-- Whether a declaration can be created: column names are distinct and none is `id`. -/
def TableDef.wellFormed (d : TableDef) : Bool :=
  decide (d.columnNames.Nodup)

/-- The statement `CREATE TABLE IF NOT EXISTS`: nothing happens when a table of
that name exists. -/
def Conn.createTable (c : Conn) (d : TableDef) : Except EngineError Conn :=
  match c.data.findTable d.name with
  | some _ => Except.ok c
  | none =>
    if !d.wellFormed then Except.error ⟨"duplicate column name"⟩
    else
      Except.ok { c with
        data := c.data.withTables (c.data.tables ++ [{ defn := d, rows := [], seq := 0 }]) }

/-- The statement `CREATE INDEX IF NOT EXISTS`: nothing happens when an index
of that name exists. -/
def Conn.createIndex (c : Conn) (i : IndexDef) : Except EngineError Conn :=
  if c.data.hasIndex i.name then Except.ok c
  else
    match c.data.findTable i.table with
    | none => Except.error ⟨"no such table: " ++ i.table⟩
    | some t =>
      if !(t.defn.hasColumn i.column) then Except.error ⟨"no such column: " ++ i.column⟩
      else Except.ok { c with data := c.data.withIndexes (c.data.indexes ++ [i]) }

/-- The statement `DROP INDEX name`. -/
def Conn.dropIndex (c : Conn) (name : String) : Except EngineError Conn :=
  if c.data.hasIndex name then
    Except.ok
      { c with data := c.data.withIndexes (c.data.indexes.filter (fun i => !(decide (i.name = name)))) }
  else Except.error ⟨"no such index: " ++ name⟩

/-- The statements whose preparation or execution reads the database file: all
but the pragma, the two reads of connection counters, and a text that does not
parse. The parameters of a statement are bound after it has been prepared. -/
def Stmt.readsFile : Stmt → Bool
  | Stmt.pragmaForeignKeys _ => false
  | Stmt.selectLastInsertRowid => false
  | Stmt.selectChanges => false
  | Stmt.malformed _ => false
  | _ => true

/-- What a statement does on a database image: the rows it produces and the
connection afterwards. `now` is the value of `datetime(''now'')`. -/
def Conn.apply (c : Conn) (now : String) : Stmt → Except EngineError (ResultSet × Conn)
  | Stmt.pragmaForeignKeys b => Except.ok (ResultSet.none, { c with foreignKeys := b })
  | Stmt.createTable d => (c.createTable d).map (fun c1 => (ResultSet.none, c1))
  | Stmt.createIndex i => (c.createIndex i).map (fun c1 => (ResultSet.none, c1))
  | Stmt.insert t cols vals => (c.insert now t cols vals).map (fun c1 => (ResultSet.none, c1))
  | Stmt.delete t w v => (c.delete t w v).map (fun c1 => (ResultSet.none, c1))
  | Stmt.select t w v => (c.select t (some (w, v))).map (fun rs => (rs, c))
  | Stmt.selectAll t => (c.select t none).map (fun rs => (rs, c))
  | Stmt.selectLastInsertRowid =>
    Except.ok ({ columns := ["id"], rows := [[Value.int c.lastInsertRowid]] }, c)
  | Stmt.selectChanges =>
    Except.ok ({ columns := ["changes"], rows := [[Value.int c.changes]] }, c)
  | Stmt.malformed text => Except.error ⟨"syntax error: " ++ text⟩
  | Stmt.insertExprs t cols exprs =>
    (c.insertExprs now t cols exprs).map (fun c1 => (ResultSet.none, c1))
  | Stmt.update t sets conds => (c.update now t sets conds).map (fun c1 => (ResultSet.none, c1))
  | Stmt.selectWhere t cols conds => (c.selectWhere t cols conds).map (fun rs => (rs, c))
  | Stmt.bindFailure text =>
    Except.error ⟨"Wrong API use : tried to bind a value of an unknown type (" ++ text ++ ")."⟩
  | Stmt.dropIndex name => (c.dropIndex name).map (fun c1 => (ResultSet.none, c1))

/-- Executes one statement to completion. On a file that is not a database
image every statement that reads the file raises `file is not a database`. -/
def Conn.exec (c : Conn) (now : String) (sql : Stmt) : Except EngineError (ResultSet × Conn) :=
  if sql.readsFile && c.data.isGarbage then Except.error ⟨"file is not a database"⟩
  else c.apply now sql

/-- The sql.js call `db.export()`: returns the serialized content. As sql.js
documents it, the operation closes and reopens the database (`sqlite3_close_v2`
then `sqlite3_open` on the same file), which sets every pragma back to its
default; the values `last_insert_rowid()` and `changes()`, kept per
connection, restart at 0 with the new connection. -/
def Conn.export (c : Conn) : Bytes × Conn :=
  (Bytes.image c.data, Conn.onData c.data)

/-- The sql.js call `new SQL.Database(buffer)`: it copies the bytes into a file
of its own and opens that file. SQLite reads nothing of a file when it opens
it, so the call returns on any bytes. -/
def Conn.ofBytes : Bytes → Conn
  | Bytes.image d => Conn.onData d

/-! ## The schema of `createTables` -/

/-- The table `users`. -/
def usersDef : TableDef :=
  { name := "users"
    columns :=
      [ { name := "email", notNull := true, unique := true, dflt := ColDefault.none, check := none },
        colNN "password_hash", colNN "first_name", colNN "last_name",
        { name := "role", notNull := false, unique := false
          dflt := ColDefault.lit (Value.text "employee")
          check := some ["admin", "manager", "supervisor", "employee"] },
        col "department", col "phone", col "avatar_url",
        colDflt "is_active" (Value.int 1), col "last_login",
        colNow "created_at", colNow "updated_at" ]
    foreignKeys := []
    uniques := [] }

/-- The table `incidents`. -/
def incidentsDef : TableDef :=
  { name := "incidents"
    columns :=
      [ colNN "title", col "description",
        { name := "type", notNull := true, unique := false, dflt := ColDefault.none
          check := some ["injury", "near-miss", "property", "environmental", "equipment",
            "fire", "chemical", "other"] },
        { name := "severity", notNull := true, unique := false, dflt := ColDefault.none
          check := some ["low", "medium", "high", "critical"] },
        { name := "status", notNull := false, unique := false
          dflt := ColDefault.lit (Value.text "reported")
          check := some ["reported", "investigating", "resolved", "closed"] },
        col "location", col "incident_date", col "reporter_id", col "assigned_to",
        col "witnesses", col "root_cause", col "corrective_actions", col "resolution_notes",
        col "resolved_at", colNow "created_at", colNow "updated_at" ]
    foreignKeys :=
      [ { column := "reporter_id", refTable := "users", onDelete := FkAction.noAction },
        { column := "assigned_to", refTable := "users", onDelete := FkAction.noAction } ]
    uniques := [] }

/-- The table `photos`. -/
def photosDef : TableDef :=
  { name := "photos"
    columns :=
      [ colNN "filename", col "original_name", col "mime_type", col "file_size",
        { name := "phase", notNull := false, unique := false, dflt := ColDefault.none
          check := some ["pre", "during", "post"] },
        col "description", col "location", col "incident_id", col "uploaded_by",
        colNow "created_at" ]
    foreignKeys :=
      [ { column := "incident_id", refTable := "incidents", onDelete := FkAction.setNull },
        { column := "uploaded_by", refTable := "users", onDelete := FkAction.noAction } ]
    uniques := [] }

/-- The table `training_modules`. -/
def trainingModulesDef : TableDef :=
  { name := "training_modules"
    columns :=
      [ colNN "title", col "description", colNN "category", col "duration_minutes",
        col "content_url", col "thumbnail_url",
        { name := "difficulty", notNull := false, unique := false
          dflt := ColDefault.lit (Value.text "beginner")
          check := some ["beginner", "intermediate", "advanced"] },
        colDflt "is_required" (Value.int 0), colDflt "is_active" (Value.int 1),
        col "created_by", colNow "created_at", colNow "updated_at" ]
    foreignKeys :=
      [ { column := "created_by", refTable := "users", onDelete := FkAction.noAction } ]
    uniques := [] }

/-- The table `training_progress`. -/
def trainingProgressDef : TableDef :=
  { name := "training_progress"
    columns :=
      [ colNN "user_id", colNN "module_id",
        { name := "status", notNull := false, unique := false
          dflt := ColDefault.lit (Value.text "not_started")
          check := some ["not_started", "in_progress", "completed"] },
        colDflt "progress" (Value.int 0), col "started_at", col "completed_at",
        col "score", col "certificate_url" ]
    foreignKeys :=
      [ { column := "user_id", refTable := "users", onDelete := FkAction.cascade },
        { column := "module_id", refTable := "training_modules", onDelete := FkAction.cascade } ]
    uniques := [["user_id", "module_id"]] }

/-- The table `documents`. -/
def documentsDef : TableDef :=
  { name := "documents"
    columns :=
      [ colNN "title", col "description",
        { name := "category", notNull := true, unique := false, dflt := ColDefault.none
          check := some ["sds", "procedure", "policy", "permit", "checklist", "manual",
            "other"] },
        colNN "filename", col "original_name", col "mime_type", col "file_size",
        colDflt "version" (Value.text "1.0"), colDflt "is_active" (Value.int 1),
        col "uploaded_by", colNow "created_at", colNow "updated_at" ]
    foreignKeys :=
      [ { column := "uploaded_by", refTable := "users", onDelete := FkAction.noAction } ]
    uniques := [] }

/-- The table `audit_logs`. -/
def auditLogsDef : TableDef :=
  { name := "audit_logs"
    columns :=
      [ col "user_id", colNN "action", colNN "entity_type", col "entity_id",
        col "old_values", col "new_values", col "ip_address", col "user_agent",
        colNow "created_at" ]
    foreignKeys :=
      [ { column := "user_id", refTable := "users", onDelete := FkAction.setNull } ]
    uniques := [] }

/-- The statements `createTables` passes to `db.run`, in source order. -/
def schemaStatements : List Stmt :=
  [ Stmt.createTable usersDef,
    Stmt.createIndex { name := "idx_users_email", table := "users", column := "email" },
    Stmt.createIndex { name := "idx_users_role", table := "users", column := "role" },
    Stmt.createTable incidentsDef,
    Stmt.createIndex { name := "idx_incidents_status", table := "incidents", column := "status" },
    Stmt.createIndex
      { name := "idx_incidents_severity", table := "incidents", column := "severity" },
    Stmt.createIndex { name := "idx_incidents_type", table := "incidents", column := "type" },
    Stmt.createTable photosDef,
    Stmt.createIndex { name := "idx_photos_phase", table := "photos", column := "phase" },
    Stmt.createTable trainingModulesDef,
    Stmt.createIndex
      { name := "idx_training_category", table := "training_modules", column := "category" },
    Stmt.createTable trainingProgressDef,
    Stmt.createIndex
      { name := "idx_progress_user", table := "training_progress", column := "user_id" },
    Stmt.createTable documentsDef,
    Stmt.createIndex
      { name := "idx_documents_category", table := "documents", column := "category" },
    Stmt.createTable auditLogsDef,
    Stmt.createIndex { name := "idx_audit_user", table := "audit_logs", column := "user_id" } ]

/-! ## The module `database/init.js` -/

/-- How a failing `fs.writeFileSync` leaves the file. The call opens the file
with flag `w`, which truncates it, and then writes the bytes: a failure at the
open (permission denied, read-only file system) leaves the file as it was; a
failure after the open (disk full, I/O error) leaves what has been written so
far, an empty file or a part of the bytes. -/
inductive WriteFailure where
  | atOpen
  | afterOpen (left : Bytes)
  deriving DecidableEq, Repr

/-- The file at `DB_PATH`, whether reading or writing it throws, and how a
failing write leaves it. -/
structure FileSystem where
  file : Option Bytes
  readFails : Bool
  writeFails : Bool
  writeFailure : WriteFailure := WriteFailure.atOpen
  deriving DecidableEq, Repr

/-- An effect of the module on its surroundings. -/
inductive Event where
  | fsExists
  | fsRead
  | fsWrite
  | newDatabase
  | dbRun (sql : Stmt)
  | dbPrepare (sql : Stmt)
  | dbExport
  | consoleLog (msg : String)
  | consoleError (msg : String)
  | consoleErrorSql (tag : String) (sql : Stmt) (message : String)
  deriving DecidableEq, Repr

/-- A `SQL.Database` object: its identity and its connection. -/
structure Database where
  handle : Nat
  conn : Conn
  deriving DecidableEq, Repr

/-- The module variables `db` and `initialized`, the backing file, the clock
read by `datetime(''now'')`, and the effects performed so far. -/
structure State where
  db : Option Database
  initialized : Bool
  fs : FileSystem
  now : String
  nextHandle : Nat
  trace : List Event
  deriving DecidableEq, Repr

/-- An exception thrown to the caller of the module. -/
inductive JsError where
  | notInitialized
  | engine (message : String)
  deriving DecidableEq, Repr

/-- The property `error.message` of a thrown error. -/
def JsError.message : JsError → String
  | JsError.notInitialized => "Database not initialized"
  | JsError.engine m => m

/-- Records an effect. -/
def State.emit (s : State) (e : Event) : State :=
  { s with trace := s.trace ++ [e] }

/-- A process that has just loaded the module: `db = null`, `initialized = false`. -/
def State.fresh (fs : FileSystem) (now : String) : State :=
  { db := none, initialized := false, fs := fs, now := now, nextHandle := 0, trace := [] }

/-- The file a failing `fs.writeFileSync` leaves behind. -/
def FileSystem.afterFailedWrite (fs : FileSystem) : Option Bytes :=
  match fs.writeFailure with
  | WriteFailure.atOpen => fs.file
  | WriteFailure.afterOpen left => some left

/-- The call `fs.writeFileSync(DB_PATH, buffer)`: the file system after a call
that returns (`ok`) or throws (`error`). -/
def FileSystem.write (fs : FileSystem) (b : Bytes) : Except FileSystem FileSystem :=
  if fs.writeFails then Except.error { fs with file := fs.afterFailedWrite }
  else Except.ok { fs with file := some b }

/-- The function `saveDatabase`: exports the database and writes the file; an
exception of the write is caught and logged. -/
def saveDatabase (s : State) : State :=
  match s.db with
  | none => s
  | some db =>
    let out := db.conn.export
    let s1 := { s with db := some { db with conn := out.2 } }.emit Event.dbExport
    match s1.fs.write out.1 with
    | Except.ok fs1 => { s1 with fs := fs1 }.emit Event.fsWrite
    | Except.error fs1 => { s1 with fs := fs1 }.emit (Event.consoleError "Error saving database:")

/-- The call `db.run(sql, params)` on the module database. -/
def dbRun (s : State) (db : Database) (sql : Stmt) : Except EngineError State :=
  match db.conn.exec s.now sql with
  | Except.error e => Except.error e
  | Except.ok out => Except.ok { s with db := some { db with conn := out.2 } }

/-- The statements of `createTables`, run one after the other until one throws. -/
def runAll : List Stmt → State → Except JsError Unit × State
  | [], s => (Except.ok (), s)
  | sql :: rest, s =>
    match s.db with
    | none => (Except.error JsError.notInitialized, s)
    | some db =>
      match dbRun (s.emit (Event.dbRun sql)) db sql with
      | Except.error e => (Except.error (JsError.engine e.message), s.emit (Event.dbRun sql))
      | Except.ok s1 => runAll rest s1

/-- The function `createTables`. -/
def createTables (s : State) : Except JsError Unit × State :=
  match runAll schemaStatements s with
  | (Except.error e, s1) => (Except.error e, s1)
  | (Except.ok _, s1) => (Except.ok (), s1.emit (Event.consoleLog "All tables created successfully"))

/-- A new `SQL.Database` object on the given connection. -/
def State.newDatabase (s : State) (c : Conn) : State :=
  { s with db := some { handle := s.nextHandle, conn := c }
           nextHandle := s.nextHandle + 1 }.emit Event.newDatabase

/-- The `try`/`catch` block of `initDatabase`: loads the file when it exists,
else creates an empty database; an exception falls back to an empty database.
Of the calls in the `try` block only `readFileSync` throws: the constructor
returns on any bytes. -/
def loadOrCreate (s : State) : State :=
  let s1 := s.emit Event.fsExists
  match s1.fs.file with
  | some bytes =>
    let s2 := s1.emit Event.fsRead
    if s2.fs.readFails then
      ((s2.emit (Event.consoleError "Database load error:")).newDatabase (Conn.onData Data.empty))
    else
      (s2.newDatabase (Conn.ofBytes bytes)).emit (Event.consoleLog "Loaded existing database")
  | none =>
    (s1.newDatabase (Conn.onData Data.empty)).emit (Event.consoleLog "Created new database")

/-- The function `initDatabase`; the result is the value of `db` it returns. -/
def initDatabase (s : State) : Except JsError (Option Database) × State :=
  match s.initialized, s.db with
  | true, some db => (Except.ok (some db), s)
  | _, _ =>
    match runAll [Stmt.pragmaForeignKeys true] (loadOrCreate s) with
    | (Except.error e, s1) => (Except.error e, s1)
    | (Except.ok _, s1) =>
      match createTables s1 with
      | (Except.error e, s2) => (Except.error e, s2)
      | (Except.ok _, s2) =>
        let s3 := saveDatabase s2
        (Except.ok s3.db, { s3 with initialized := true })

/-- The function `getDatabase`. -/
def getDatabase (s : State) : Option Database := s.db

/-- The call `stmt.getAsObject()`: an object with one property per column. -/
def getAsObject (columns : List String) (vals : List Value) : JsObject :=
  (columns.zip vals).foldl (fun o kv => JsObject.set o kv.1 kv.2) []

/-- The loop `while (stmt.step()) results.push(stmt.getAsObject())` over the
rows the statement still has to produce. -/
def stepLoop (columns : List String) : List (List Value) → List JsObject → List JsObject
  | [], results => results
  | vals :: rest, results => stepLoop columns rest (results ++ [getAsObject columns vals])

/-- The function `query`. -/
def query (sql : Stmt) (s : State) : Except JsError (List JsObject) × State :=
  match s.db with
  | none => (Except.error JsError.notInitialized, s)
  | some db =>
    let s1 := s.emit (Event.dbPrepare sql)
    match db.conn.exec s1.now sql with
    | Except.error e =>
      (Except.error (JsError.engine e.message),
        s1.emit (Event.consoleErrorSql "Query error:" sql e.message))
    | Except.ok out =>
      (Except.ok (stepLoop out.1.columns out.1.rows []),
        { s1 with db := some { db with conn := out.2 } })

/-- The object returned by `run`; `none` stands for `undefined`. -/
structure RunResult where
  lastInsertRowid : Option Value
  changes : Option Value
  deriving DecidableEq, Repr

/-- The expression `rows[0]?.key`. -/
def firstField (rows : List JsObject) (key : String) : Option Value :=
  match rows with
  | [] => none
  | o :: _ => JsObject.get o key

/-- The function `run`. -/
def run (sql : Stmt) (s : State) : Except JsError RunResult × State :=
  match s.db with
  | none => (Except.error JsError.notInitialized, s)
  | some db =>
    let s0 := s.emit (Event.dbRun sql)
    match dbRun s0 db sql with
    | Except.error e =>
      (Except.error (JsError.engine e.message),
        s0.emit (Event.consoleErrorSql "Run error:" sql e.message))
    | Except.ok s1 =>
      let s2 := saveDatabase s1
      match query Stmt.selectLastInsertRowid s2 with
      | (Except.error e, s3) =>
        (Except.error e, s3.emit (Event.consoleErrorSql "Run error:" sql e.message))
      | (Except.ok ids, s3) =>
        match query Stmt.selectChanges s3 with
        | (Except.error e, s4) =>
          (Except.error e, s4.emit (Event.consoleErrorSql "Run error:" sql e.message))
        | (Except.ok chg, s4) =>
          (Except.ok { lastInsertRowid := firstField ids "id"
                       changes := firstField chg "changes" }, s4)

/-- The truth value of an object in `results[0] || null`: an object is truthy. -/
def JsObject.truthy (_ : JsObject) : Bool := true

/-- The function `get`; `none` stands for `null`. -/
def get (sql : Stmt) (s : State) : Except JsError (Option JsObject) × State :=
  match query sql s with
  | (Except.error e, s1) => (Except.error e, s1)
  | (Except.ok results, s1) =>
    match results with
    | [] => (Except.ok none, s1)
    | o :: _ => (Except.ok (if o.truthy then some o else none), s1)

/-- The function `all`. -/
def all (sql : Stmt) (s : State) : Except JsError (List JsObject) × State :=
  query sql s

/-! ## Scenarios -/

instance instDecidableEqExcept {ε α : Type} [DecidableEq ε] [DecidableEq α] :
    DecidableEq (Except ε α) := fun a b =>
  match a, b with
  | Except.ok x, Except.ok y =>
    if h : x = y then isTrue (by rw [h]) else isFalse (fun h2 => h (Except.ok.inj h2))
  | Except.error x, Except.error y =>
    if h : x = y then isTrue (by rw [h]) else isFalse (fun h2 => h (Except.error.inj h2))
  | Except.ok _, Except.error _ => isFalse (fun h => Except.noConfusion h)
  | Except.error _, Except.ok _ => isFalse (fun h => Except.noConfusion h)

/-- A disk without database file on which reads and writes succeed. -/
def emptyDisk : FileSystem := { file := none, readFails := false, writeFails := false }

/-- The state of a process after `initDatabase` on an empty disk. -/
def started : State := (initDatabase (State.fresh emptyDisk "2024-01-01 00:00:00")).2

/-- The statement `INSERT INTO users (email, password_hash, first_name, last_name)
VALUES (?, ?, ?, ?)` for the given email. -/
def insertUser (email : String) : Stmt :=
  Stmt.insert "users" ["email", "password_hash", "first_name", "last_name"]
    [Value.text email, Value.text "hash", Value.text "Alice", Value.text "Doe"]

/-- The statement `INSERT INTO training_modules (title, category) VALUES (?, ?)`. -/
def insertModule : Stmt :=
  Stmt.insert "training_modules" ["title", "category"]
    [Value.text "Ladders", Value.text "safety"]

/-- The statement `INSERT INTO training_progress (user_id, module_id) VALUES (?, ?)`. -/
def insertProgress (user module : Int) : Stmt :=
  Stmt.insert "training_progress" ["user_id", "module_id"] [Value.int user, Value.int module]

/-- The statement `INSERT INTO incidents (title, type, severity, reporter_id)
VALUES (?, ?, ?, ?)`. -/
def insertIncident (type severity : String) (reporter : Int) : Stmt :=
  Stmt.insert "incidents" ["title", "type", "severity", "reporter_id"]
    [Value.text "Fall", Value.text type, Value.text severity, Value.int reporter]

/-- The statement `INSERT INTO photos (filename, incident_id) VALUES (?, ?)`. -/
def insertPhoto (incident : Int) : Stmt :=
  Stmt.insert "photos" ["filename", "incident_id"] [Value.text "a.jpg", Value.int incident]

/-- Runs statements through `run` one after the other, ignoring their results. -/
def runEach : List Stmt → State → State
  | [], s => s
  | sql :: rest, s => runEach rest (run sql s).2

/-- The rows a table holds in the module database (none without database or table). -/
def State.rowsOf (s : State) (table : String) : List Row :=
  match s.db with
  | none => []
  | some db =>
    match db.conn.data.findTable table with
    | none => []
    | some t => t.rows

/-- The state `started` after the open of the backing file for writing has
begun to fail (permission withdrawn, file system read-only). -/
def startedReadOnly : State :=
  { started with fs := { started.fs with writeFails := true } }

/-- The state `started` with a full disk: a write fails after the open has
emptied the file. -/
def startedDiskFull : State :=
  { started with
    fs := { started.fs with
      writeFails := true, writeFailure := WriteFailure.afterOpen (Bytes.image Data.empty) } }

/-- The state `started` on a disk where a write fails after a part of the bytes
has been written. -/
def startedTornWrite : State :=
  { started with
    fs := { started.fs with
      writeFails := true, writeFailure := WriteFailure.afterOpen Bytes.garbage } }

/-- The call `initDatabase` of a new process started on the backing file another
process left behind, the file being readable. -/
def restart (s : State) (now : String) (writeFails : Bool) :
    Except JsError (Option Database) × State :=
  initDatabase (State.fresh { file := s.fs.file, readFails := false, writeFails := writeFails }
    now)

/-- The state with one user, one training module, the user's progress record
on it, one incident and one photo of the incident. -/
def populated : State :=
  runEach [insertUser "alice@example.com", insertModule, insertProgress 1 1,
    insertIncident "injury" "high" 1, insertPhoto 1] started

/-- A call into the module, or a change of its surroundings between two calls
(the clock advances, the disk starts or stops failing, in one way or another). -/
inductive Call where
  | init
  | save
  | query (sql : Stmt)
  | run (sql : Stmt)
  | get (sql : Stmt)
  | all (sql : Stmt)
  | surroundings (readFails writeFails : Bool) (writeFailure : WriteFailure) (now : String)
  deriving DecidableEq, Repr

/-- The state after a call, whether it returned or threw. -/
def Call.apply : Call → State → State
  | Call.init, s => (initDatabase s).2
  | Call.save, s => saveDatabase s
  | Call.query sql, s => (RiskSafety.query sql s).2
  | Call.run sql, s => (RiskSafety.run sql s).2
  | Call.get sql, s => (RiskSafety.get sql s).2
  | Call.all sql, s => (RiskSafety.all sql s).2
  | Call.surroundings r w f now, s =>
    { s with fs := { s.fs with readFails := r, writeFails := w, writeFailure := f }, now := now }

/-- The state after a sequence of calls. -/
def applyCalls : List Call → State → State
  | [], s => s
  | c :: rest, s => applyCalls rest (c.apply s)

/-- The names of the stored tables. -/
def Data.tableNames (d : Data) : List String :=
  d.tables.map (fun t => t.defn.name)

/-- The names of the stored indexes. -/
def Data.indexNames (d : Data) : List String :=
  d.indexes.map (fun i => i.name)

/-- Whether the object a schema statement creates is already stored. -/
def Stmt.present (d : Data) : Stmt → Bool
  | Stmt.createTable td => decide (td.name ∈ d.tableNames)
  | Stmt.createIndex i => decide (i.name ∈ d.indexNames)
  | _ => false

/-- The seven tables and ten indexes of `createTables` are stored. -/
def SchemaPresent (d : Data) : Prop :=
  ∀ sql ∈ schemaStatements, sql.present d = true

/-- The module is initialized on the database object `h`, whose content satisfies `P`. -/
def Ready (P : Data → Prop) (h : Nat) (s : State) : Prop :=
  s.initialized = true ∧ ∃ db, s.db = some db ∧ db.handle = h ∧ P db.conn.data

/-- Whether the engine accepts the statement on the module database. -/
def State.accepts (s : State) (sql : Stmt) : Bool :=
  match s.db with
  | none => false
  | some db =>
    match db.conn.exec s.now sql with
    | Except.ok _ => true
    | Except.error _ => false

/-- The serialization of the module database (none without database). -/
def State.snapshot (s : State) : Option Bytes :=
  s.db.map (fun db => Bytes.image db.conn.data)

/-- Whether a call returned instead of throwing. -/
def returned {α : Type} (r : Except JsError α) : Bool :=
  match r with
  | Except.ok _ => true
  | Except.error _ => false

/-- The rows the engine produces for a statement on the module database
(none without database or when the engine rejects the statement). -/
def State.result (s : State) (sql : Stmt) : Option ResultSet :=
  match s.db with
  | none => none
  | some db =>
    match db.conn.exec s.now sql with
    | Except.ok out => some out.1
    | Except.error _ => none

/-- The declaration under which a table is stored in the module database. -/
def State.tableDef (s : State) (table : String) : Option TableDef :=
  match s.db with
  | none => none
  | some db => (db.conn.data.findTable table).map (fun t => t.defn)

/-- The state `started` after `run` of the insert of the user alice. -/
def withAlice : State := (run (insertUser "alice@example.com") started).2

/-- The row stored for the user alice. -/
def aliceRow : Row :=
  [("id", Value.int 1), ("email", Value.text "alice@example.com"),
    ("password_hash", Value.text "hash"), ("first_name", Value.text "Alice"),
    ("last_name", Value.text "Doe"), ("role", Value.text "employee"),
    ("department", Value.null), ("phone", Value.null), ("avatar_url", Value.null),
    ("is_active", Value.int 1), ("last_login", Value.null),
    ("created_at", Value.text "2024-01-01 00:00:00"),
    ("updated_at", Value.text "2024-01-01 00:00:00")]

/-! ## JavaScript values and their binding

The route handlers pass values of the request to `db.get` and `db.run`. A value
of a JSON body is modelled by `JsValue`; arrays, objects and numbers that are
not integers are outside the model. -/

/-- A value of a request body, `undefined` standing for an absent field. -/
inductive JsValue where
  | undefined
  | null
  | bool (b : Bool)
  | num (n : Int)
  | str (s : String)
  deriving DecidableEq, Repr

/-- The truth value of a JavaScript value in `if (v)`, `!v` and `v || w`. -/
def JsValue.truthy : JsValue → Bool
  | JsValue.undefined => false
  | JsValue.null => false
  | JsValue.bool b => b
  | JsValue.num n => decide (n ≠ 0)
  | JsValue.str s => decide (s ≠ "")

/-- The expression `v || null`. -/
def JsValue.orNull (v : JsValue) : JsValue :=
  if v.truthy then v else JsValue.null

/-- The number a non-empty run of decimal digits spells (none for the empty
run and for a run with another character). -/
def decimalValue (cs : List Char) : Option Nat :=
  if cs.isEmpty || !(cs.all Char.isDigit) then none
  else some (cs.foldl (fun n c => 10 * n + (c.toNat - 48)) 0)

/-- The integer spelled by an optional sign and decimal digits. -/
def signedDecimal (cs : List Char) : Option Int :=
  match cs with
  | [] => none
  | c :: ds =>
    if c = '-' then (decimalValue ds).map (fun n => -(n : Int))
    else if c = '+' then (decimalValue ds).map (fun n => (n : Int))
    else (decimalValue (c :: ds)).map (fun n => (n : Int))

/-- The number `Number(v)` to which `<` and `>` convert an operand; none stands
for NaN. Of the strings only the empty one (0) and the decimal integers are
read; other numeric spellings (blanks, fractions, exponents, hexadecimal) are
outside the model and count as NaN. -/
def JsValue.toNumber : JsValue → Option Int
  | JsValue.undefined => none
  | JsValue.null => some 0
  | JsValue.bool b => some (if b then 1 else 0)
  | JsValue.num n => some n
  | JsValue.str s => if s = "" then some 0 else signedDecimal s.data

/-- The comparison `v < n`; false when `v` converts to NaN. -/
def JsValue.lt (v : JsValue) (n : Int) : Bool :=
  match v.toNumber with
  | none => false
  | some x => decide (x < n)

/-- The comparison `v > n`; false when `v` converts to NaN. -/
def JsValue.gt (v : JsValue) (n : Int) : Bool :=
  match v.toNumber with
  | none => false
  | some x => decide (n < x)

/-- The call `parseInt(text)`: an optional sign and the longest run of decimal
digits that follows; none stands for NaN. Leading blanks and the hexadecimal
prefix are outside the model. -/
def parseInt (text : String) : Option Int :=
  match text.data with
  | [] => none
  | c :: ds =>
    if c = '-' then (decimalValue (ds.takeWhile Char.isDigit)).map (fun n => -(n : Int))
    else if c = '+' then (decimalValue (ds.takeWhile Char.isDigit)).map (fun n => (n : Int))
    else (decimalValue ((c :: ds).takeWhile Char.isDigit)).map (fun n => (n : Int))

/-- The sql.js method `bindValue`: strings are bound as text, numbers and
booleans as numbers, `null` as NULL; `undefined` makes it throw (none). -/
def bindValue : JsValue → Option Value
  | JsValue.undefined => none
  | JsValue.null => some Value.null
  | JsValue.bool b => some (Value.int (if b then 1 else 0))
  | JsValue.num n => some (Value.int n)
  | JsValue.str s => some (Value.text s)

/-- Binds the parameters of a statement in order; none when one cannot be bound. -/
def bindAll : List JsValue → Option (List Value)
  | [] => some []
  | v :: rest =>
    match bindValue v, bindAll rest with
    | some x, some xs => some (x :: xs)
    | _, _ => none

/-- The INTEGER affinity of a column, which SQLite applies to a value stored in
the column or compared with it: a text that spells a decimal integer becomes
that integer. The other spellings SQLite converts (a number between blanks, with
a fraction or an exponent, such as `1.0` and `1e1`) are outside the model and
stay text. -/
def Value.asInteger : Value → Value
  | Value.text s =>
    match signedDecimal s.data with
    | some n => Value.int n
    | none => Value.text s
  | v => v

/-- The TEXT affinity of a column: a number becomes its decimal text. -/
def Value.asText : Value → Value
  | Value.int n => Value.text (toString n)
  | v => v

/-- The route parameter `req.params.id`, a string, bound to a placeholder that
is compared with or stored in an INTEGER column. -/
def idParam (id : String) : Value := (Value.text id).asInteger

/-! ## Route handlers -/

/-- The authenticated user `req.user`, a row of `users` read by `authenticate`. -/
structure User where
  id : Int
  role : Value
  deriving DecidableEq, Repr

/-- The response of a handler: the status code and the `message` or `error` text. -/
structure Response where
  status : Nat
  text : String
  deriving DecidableEq, Repr

/-- The call `roles.includes(role)` on an array of strings. -/
def rolesInclude (roles : List String) (role : Value) : Bool :=
  match role with
  | Value.text r => decide (r ∈ roles)
  | _ => false

/-- What a middleware does: it responds, or it calls `next()`. -/
inductive Outcome where
  | respond (r : Response)
  | next
  deriving DecidableEq, Repr

/-- The middleware `requireRole(roles)` of `middleware/auth.js`; `user` is
`req.user`, none when no user is attached to the request. -/
def requireRole (roles : List String) (user : Option User) : Outcome :=
  match user with
  | none => Outcome.respond ⟨401, "Unauthorized"⟩
  | some u =>
    if !(rolesInclude roles u.role) then Outcome.respond ⟨403, "Forbidden"⟩
    else Outcome.next

/-- The conditions `WHERE user_id = ? AND module_id = ?` with the parameters
`[req.user.id, req.params.id]`. -/
def progressConds (user : User) (moduleId : String) : List (String × Value) :=
  [("user_id", Value.int user.id), ("module_id", idParam moduleId)]

/-- The insert of the handler `POST /modules/:id/start`. -/
def startInsert (user : User) (moduleId : String) : Stmt :=
  Stmt.insertExprs "training_progress"
    ["user_id", "module_id", "status", "progress", "started_at"]
    [Expr.val (Value.int user.id), Expr.val (idParam moduleId),
      Expr.val (Value.text "in_progress"), Expr.val (Value.int 0), Expr.now]

/-- The handler `POST /api/training/modules/:id/start`. -/
def startTraining (user : User) (moduleId : String) (s : State) : Response × State :=
  match get (Stmt.selectWhere "training_modules" ["id"] [("id", idParam moduleId)]) s with
  | (Except.error _, s1) => (⟨500, "Failed to start training"⟩, s1)
  | (Except.ok none, s1) => (⟨404, "Module not found"⟩, s1)
  | (Except.ok (some _), s1) =>
    match get (Stmt.selectWhere "training_progress" ["id", "status"]
        (progressConds user moduleId)) s1 with
    | (Except.error _, s2) => (⟨500, "Failed to start training"⟩, s2)
    | (Except.ok (some existing), s2) =>
      if JsObject.get existing "status" = some (Value.text "completed") then
        (⟨200, "Module already completed"⟩, s2)
      else (⟨200, "Module already started"⟩, s2)
    | (Except.ok none, s2) =>
      match run (startInsert user moduleId) s2 with
      | (Except.error _, s3) => (⟨500, "Failed to start training"⟩, s3)
      | (Except.ok _, s3) => (⟨200, "Training started"⟩, s3)

/-- The update of the handler `PATCH /modules/:id/progress`, with the
parameters `[progress, progress, progress, req.user.id, req.params.id]`. -/
def progressUpdate (user : User) (moduleId : String) (progress : JsValue) : Stmt :=
  match bindValue progress with
  | none => Stmt.bindFailure "undefined"
  | some p =>
    Stmt.update "training_progress"
      [("progress", Expr.val p.asInteger),
        ("status", Expr.caseGe (Expr.val p) (Expr.val (Value.int 100))
          (Expr.val (Value.text "completed")) (Expr.val (Value.text "in_progress"))),
        ("completed_at", Expr.caseGe (Expr.val p) (Expr.val (Value.int 100))
          Expr.now (Expr.col "completed_at"))]
      (progressConds user moduleId)

/-- The handler `PATCH /api/training/modules/:id/progress`. -/
def updateProgress (user : User) (moduleId : String) (progress : JsValue) (s : State) :
    Response × State :=
  if decide (progress = JsValue.undefined) || progress.lt 0 || progress.gt 100 then
    (⟨400, "Progress must be between 0 and 100"⟩, s)
  else
    match get (Stmt.selectWhere "training_progress" ["id"] (progressConds user moduleId)) s with
    | (Except.error _, s1) => (⟨500, "Failed to update progress"⟩, s1)
    | (Except.ok none, s1) => (⟨404, "Progress record not found. Start the module first."⟩, s1)
    | (Except.ok (some _), s1) =>
      match run (progressUpdate user moduleId progress) s1 with
      | (Except.error _, s2) => (⟨500, "Failed to update progress"⟩, s2)
      | (Except.ok _, s2) => (⟨200, "Progress updated"⟩, s2)

/-- The update of the handler `POST /modules/:id/complete`, with the parameters
`[score || null, req.user.id, req.params.id]`. -/
def completeUpdate (user : User) (moduleId : String) (score : JsValue) : Stmt :=
  match bindValue score.orNull with
  | none => Stmt.bindFailure "undefined"
  | some sc =>
    Stmt.update "training_progress"
      [("status", Expr.val (Value.text "completed")), ("progress", Expr.val (Value.int 100)),
        ("completed_at", Expr.now), ("score", Expr.val sc.asInteger)]
      (progressConds user moduleId)

/-- The insert of the handler `POST /modules/:id/complete`, with the parameters
`[req.user.id, req.params.id, score || null]`. -/
def completeInsert (user : User) (moduleId : String) (score : JsValue) : Stmt :=
  match bindValue score.orNull with
  | none => Stmt.bindFailure "undefined"
  | some sc =>
    Stmt.insertExprs "training_progress"
      ["user_id", "module_id", "status", "progress", "started_at", "completed_at", "score"]
      [Expr.val (Value.int user.id), Expr.val (idParam moduleId),
        Expr.val (Value.text "completed"), Expr.val (Value.int 100), Expr.now, Expr.now,
        Expr.val sc.asInteger]

/-- The handler `POST /api/training/modules/:id/complete`. -/
def completeTraining (user : User) (moduleId : String) (score : JsValue) (s : State) :
    Response × State :=
  match get (Stmt.selectWhere "training_progress" ["id"] (progressConds user moduleId)) s with
  | (Except.error _, s1) => (⟨500, "Failed to complete training"⟩, s1)
  | (Except.ok (some _), s1) =>
    match run (completeUpdate user moduleId score) s1 with
    | (Except.error _, s2) => (⟨500, "Failed to complete training"⟩, s2)
    | (Except.ok _, s2) => (⟨200, "Training completed!"⟩, s2)
  | (Except.ok none, s1) =>
    match run (completeInsert user moduleId score) s1 with
    | (Except.error _, s2) => (⟨500, "Failed to complete training"⟩, s2)
    | (Except.ok _, s2) => (⟨200, "Training completed!"⟩, s2)

/-- The fields a `PUT /api/incidents/:id` handler reads from `req.body`. -/
structure IncidentBody where
  title : JsValue
  description : JsValue
  status : JsValue
  severity : JsValue
  assigned_to : JsValue
  corrective_actions : JsValue
  resolution_notes : JsValue
  deriving DecidableEq, Repr

/-- The update of the handler `PUT /api/incidents/:id`, with the parameters
`[title, description, status, severity, assigned_to, corrective_actions,
resolution_notes, status, req.params.id]`. -/
def incidentUpdate (id : String) (b : IncidentBody) : Stmt :=
  match bindAll [b.title, b.description, b.status, b.severity, b.assigned_to,
      b.corrective_actions, b.resolution_notes, b.status] with
  | some [t, d, st, sv, a, ca, rn, st2] =>
    Stmt.update "incidents"
      [("title", Expr.coalesce (Expr.val t.asText) (Expr.col "title")),
        ("description", Expr.coalesce (Expr.val d.asText) (Expr.col "description")),
        ("status", Expr.coalesce (Expr.val st.asText) (Expr.col "status")),
        ("severity", Expr.coalesce (Expr.val sv.asText) (Expr.col "severity")),
        ("assigned_to", Expr.coalesce (Expr.val a.asInteger) (Expr.col "assigned_to")),
        ("corrective_actions",
          Expr.coalesce (Expr.val ca.asText) (Expr.col "corrective_actions")),
        ("resolution_notes", Expr.coalesce (Expr.val rn.asText) (Expr.col "resolution_notes")),
        ("resolved_at", Expr.caseEq (Expr.val st2) (Expr.val (Value.text "resolved"))
          Expr.now (Expr.col "resolved_at")),
        ("updated_at", Expr.now)]
      [("id", idParam id)]
  | _ => Stmt.bindFailure "undefined"

/-- The handler `PUT /api/incidents/:id`. -/
def putIncident (id : String) (b : IncidentBody) (s : State) : Response × State :=
  match get (Stmt.select "incidents" "id" (idParam id)) s with
  | (Except.error _, s1) => (⟨500, "Failed to update incident"⟩, s1)
  | (Except.ok none, s1) => (⟨404, "Incident not found"⟩, s1)
  | (Except.ok (some _), s1) =>
    match run (incidentUpdate id b) s1 with
    | (Except.error _, s2) => (⟨500, "Failed to update incident"⟩, s2)
    | (Except.ok _, s2) => (⟨200, "Incident updated"⟩, s2)

/-- The update of the handler `PATCH /api/incidents/:id/status`, with the
parameters `[status, status, req.params.id]`. -/
def statusUpdate (id : String) (status : JsValue) : Stmt :=
  match bindValue status with
  | none => Stmt.bindFailure "undefined"
  | some st =>
    Stmt.update "incidents"
      [("status", Expr.val st.asText),
        ("resolved_at", Expr.caseEq (Expr.val st) (Expr.val (Value.text "resolved"))
          Expr.now (Expr.col "resolved_at")),
        ("updated_at", Expr.now)]
      [("id", idParam id)]

/-- The handler `PATCH /api/incidents/:id/status`; the result of the validation
chain is never read by it. -/
def patchIncidentStatus (id : String) (status : JsValue) (s : State) : Response × State :=
  match get (Stmt.select "incidents" "id" (idParam id)) s with
  | (Except.error _, s1) => (⟨500, "Failed to update status"⟩, s1)
  | (Except.ok none, s1) => (⟨404, "Incident not found"⟩, s1)
  | (Except.ok (some _), s1) =>
    match run (statusUpdate id status) s1 with
    | (Except.error _, s2) => (⟨500, "Failed to update status"⟩, s2)
    | (Except.ok _, s2) => (⟨200, "Status updated"⟩, s2)

/-- The handler `DELETE /api/incidents/:id`. -/
def deleteIncident (user : User) (id : String) (s : State) : Response × State :=
  if !(rolesInclude ["admin", "manager"] user.role) then (⟨403, "Forbidden"⟩, s)
  else
    match get (Stmt.selectWhere "incidents" ["id"] [("id", idParam id)]) s with
    | (Except.error _, s1) => (⟨500, "Failed to delete incident"⟩, s1)
    | (Except.ok none, s1) => (⟨404, "Incident not found"⟩, s1)
    | (Except.ok (some _), s1) =>
      match run (Stmt.delete "incidents" "id" (idParam id)) s1 with
      | (Except.error _, s2) => (⟨500, "Failed to delete incident"⟩, s2)
      | (Except.ok _, s2) => (⟨200, "Incident deleted"⟩, s2)

/-- The fields the `PUT /api/users/:id` handler reads from `req.body`. -/
structure UserBody where
  firstName : JsValue
  lastName : JsValue
  department : JsValue
  phone : JsValue
  role : JsValue
  deriving DecidableEq, Repr

/-- The update of the handler `PUT /api/users/:id`, with the parameters
`[firstName, lastName, department, phone, role, req.params.id]`. -/
def userUpdate (id : String) (b : UserBody) : Stmt :=
  match bindAll [b.firstName, b.lastName, b.department, b.phone, b.role] with
  | some [f, l, d, p, r] =>
    Stmt.update "users"
      [("first_name", Expr.coalesce (Expr.val f.asText) (Expr.col "first_name")),
        ("last_name", Expr.coalesce (Expr.val l.asText) (Expr.col "last_name")),
        ("department", Expr.coalesce (Expr.val d.asText) (Expr.col "department")),
        ("phone", Expr.coalesce (Expr.val p.asText) (Expr.col "phone")),
        ("role", Expr.coalesce (Expr.val r.asText) (Expr.col "role")),
        ("updated_at", Expr.now)]
      [("id", idParam id)]
  | _ => Stmt.bindFailure "undefined"

/-- The handler `PUT /api/users/:id`; the result of the validation chain is
never read by it. -/
def putUser (user : User) (id : String) (b : UserBody) (s : State) : Response × State :=
  if decide (user.role ≠ Value.text "admin") && decide (parseInt id ≠ some user.id) then
    (⟨403, "Forbidden"⟩, s)
  else
    match get (Stmt.selectWhere "users" ["id"] [("id", idParam id)]) s with
    | (Except.error _, s1) => (⟨500, "Failed to update user"⟩, s1)
    | (Except.ok none, s1) => (⟨404, "User not found"⟩, s1)
    | (Except.ok (some _), s1) =>
      match run (userUpdate id b) s1 with
      | (Except.error _, s2) => (⟨500, "Failed to update user"⟩, s2)
      | (Except.ok _, s2) => (⟨200, "User updated"⟩, s2)

/-- The update of the handler `DELETE /api/users/:id`. The source writes
`datetime("now")`: no column of `users` is called `now`, so SQLite reads the
double-quoted word as the text ''now''. -/
def deactivateUpdate (id : String) : Stmt :=
  Stmt.update "users" [("is_active", Expr.val (Value.int 0)), ("updated_at", Expr.now)]
    [("id", idParam id)]

/-- The handler of `DELETE /api/users/:id`, behind `authenticate`. -/
def deleteUserHandler (user : User) (id : String) (s : State) : Response × State :=
  if decide (parseInt id = some user.id) then (⟨400, "Cannot delete yourself"⟩, s)
  else
    match get (Stmt.selectWhere "users" ["id"] [("id", idParam id)]) s with
    | (Except.error _, s1) => (⟨500, "Failed to delete user"⟩, s1)
    | (Except.ok none, s1) => (⟨404, "User not found"⟩, s1)
    | (Except.ok (some _), s1) =>
      match run (deactivateUpdate id) s1 with
      | (Except.error _, s2) => (⟨500, "Failed to delete user"⟩, s2)
      | (Except.ok _, s2) => (⟨200, "User deactivated"⟩, s2)

/-- The route `DELETE /api/users/:id`: `requireRole(['admin'])`, then the handler. -/
def deleteUser (user : User) (id : String) (s : State) : Response × State :=
  match requireRole ["admin"] (some user) with
  | Outcome.respond r => (r, s)
  | Outcome.next => deleteUserHandler user id s

/-! ## List handlers: the statement text they build -/

/-- A value of `req.query`: absent, a string, or an array of strings. -/
inductive QueryValue where
  | undefined
  | str (s : String)
  | list (items : List String)
  deriving DecidableEq, Repr

/-- The truth value of a query value in `if (v)`. -/
def QueryValue.truthy : QueryValue → Bool
  | QueryValue.undefined => false
  | QueryValue.str s => decide (s ≠ "")
  | QueryValue.list _ => true

/-- A value pushed on `params`: a query value as it is, `parseInt` of a query
value (of the default when the value is absent), or the number 1 or 0. -/
inductive QueryParam where
  | raw (v : QueryValue)
  | parsed (v : QueryValue) (dflt : Int)
  | flag (n : Int)
  deriving DecidableEq, Repr

/-- The variables `sql` and `params` of a list handler. -/
structure ListQuery where
  sql : String
  params : List QueryParam
  deriving DecidableEq, Repr

/-- The step `if (present) { sql += clause; params.push(p); }`. -/
def ListQuery.filter (q : ListQuery) (present : Bool) (clause : String) (p : QueryParam) :
    ListQuery :=
  if present then { sql := q.sql ++ clause, params := q.params ++ [p] } else q

/-- The step `sql += clause; params.push(...ps);`. -/
def ListQuery.finish (q : ListQuery) (clause : String) (ps : List QueryParam) : ListQuery :=
  { sql := q.sql ++ clause, params := q.params ++ ps }

/-- The statement of `GET /api/incidents`. -/
def incidentsList (status severity type limit offset : QueryValue) : ListQuery :=
  ((((ListQuery.mk "SELECT * FROM incidents WHERE 1=1" []).filter status.truthy
      " AND status = ?" (QueryParam.raw status)).filter severity.truthy
      " AND severity = ?" (QueryParam.raw severity)).filter type.truthy
      " AND type = ?" (QueryParam.raw type)).finish
    " ORDER BY created_at DESC LIMIT ? OFFSET ?"
    [QueryParam.parsed limit 50, QueryParam.parsed offset 0]

/-- The statement of `GET /api/photos`. -/
def photosList (phase incident_id limit offset : QueryValue) : ListQuery :=
  (((ListQuery.mk "SELECT * FROM photos WHERE 1=1" []).filter phase.truthy
      " AND phase = ?" (QueryParam.raw phase)).filter incident_id.truthy
      " AND incident_id = ?" (QueryParam.raw incident_id)).finish
    " ORDER BY created_at DESC LIMIT ? OFFSET ?"
    [QueryParam.parsed limit 50, QueryParam.parsed offset 0]

/-- The statement of `GET /api/documents`. -/
def documentsList (category limit : QueryValue) : ListQuery :=
  ((ListQuery.mk "SELECT * FROM documents WHERE is_active = 1" []).filter category.truthy
      " AND category = ?" (QueryParam.raw category)).finish
    " ORDER BY created_at DESC LIMIT ?" [QueryParam.parsed limit 50]

/-- The statement of `GET /api/training/modules`. -/
def modulesList (category is_required limit : QueryValue) : ListQuery :=
  (((ListQuery.mk "SELECT * FROM training_modules WHERE is_active = 1" []).filter
      category.truthy " AND category = ?" (QueryParam.raw category)).filter
      (decide (is_required ≠ QueryValue.undefined)) " AND is_required = ?"
      (QueryParam.flag (if is_required = QueryValue.str "true" then 1 else 0))).finish
    " ORDER BY is_required DESC, title ASC LIMIT ?" [QueryParam.parsed limit 50]

/-- The number of `?` placeholders of a statement text. -/
def placeholders (sql : String) : Nat := sql.data.count '?'

/-! ## Completion rate -/

/-- A JavaScript number as far as the completion rate needs it. -/
inductive JsNumber where
  | nan
  | infinity
  | int (n : Int)
  deriving DecidableEq, Repr

/-- The quotient of two positive integers rounded to the nearest integer, a tie
to the even one: the rounding of an operation on doubles. -/
def divNearestEven (num den : Nat) : Nat :=
  if 2 * (num % den) < den then num / den
  else if den < 2 * (num % den) then num / den + 1
  else if (num / den) % 2 = 0 then num / den
  else num / den + 1

/-- The position of the highest bit of `n`, the largest `k` with `2 ^ k ≤ n`
(0 for 0), found in at most `fuel` halvings. -/
def highBit : Nat → Nat → Nat
  | 0, _ => 0
  | fuel + 1, n => if 2 ≤ n then highBit fuel (n / 2) + 1 else 0

/-- The double nearest to the quotient `num / den` of two positive integers, as
a fraction (numerator, denominator): the quotient is scaled by a power of two
into the range of 53-bit integers, rounded there, and scaled back. Overflow and
subnormal doubles are outside the model; counts do not reach them. -/
def nearestDouble (num den : Nat) : Nat × Nat :=
  if num * 2 ^ (52 + highBit den den) < den * 2 ^ (52 + highBit num num) then
    (divNearestEven (num * 2 ^ (53 + highBit den den)) (den * 2 ^ highBit num num)
        * 2 ^ highBit num num,
      2 ^ (53 + highBit den den))
  else
    (divNearestEven (num * 2 ^ (52 + highBit den den)) (den * 2 ^ highBit num num)
        * 2 ^ highBit num num,
      2 ^ (52 + highBit den den))

/-- The call `Math.round(x)` on a non-negative fraction: the nearest integer, a
tie upwards. -/
def mathRound (x : Nat × Nat) : Nat := (2 * x.1 + x.2) / (2 * x.2)

/-- The value `Math.round((c / d) * 100)` for counts `c` and `d`, which are
doubles: NaN for 0/0, Infinity for a division of a positive count by 0, else
the division rounded to a double, the product with 100 rounded to a double, and
`Math.round` of that. -/
def roundedPercent (c d : Nat) : JsNumber :=
  if d = 0 then (if c = 0 then JsNumber.nan else JsNumber.infinity)
  else if c = 0 then JsNumber.int 0
  else
    JsNumber.int ((mathRound
      (nearestDouble ((nearestDouble c d).1 * 100) (nearestDouble c d).2) : Nat) : Int)

/-- The `completionRate` of `GET /api/training/stats`. -/
def trainingCompletionRate (totalUsers totalModules completions : Nat) : JsNumber :=
  if totalUsers > 0 then roundedPercent completions (totalUsers * totalModules)
  else JsNumber.int 0

/-- The `completionRate` of `GET /api/dashboard/stats`. -/
def dashboardCompletionRate (totalUsers totalModules completedTraining : Nat) : JsNumber :=
  if totalUsers > 0 ∧ totalModules > 0 then
    roundedPercent completedTraining (totalUsers * totalModules)
  else JsNumber.int 0

/-! ## The schema as data, and invariants of stored rows -/

/-- The table declarations of `createTables`, in source order. -/
def schemaTables : List TableDef :=
  schemaStatements.filterMap (fun sql =>
    match sql with
    | Stmt.createTable d => some d
    | _ => none)

/-- The index declarations of `createTables`, in source order. -/
def schemaIndexes : List IndexDef :=
  schemaStatements.filterMap (fun sql =>
    match sql with
    | Stmt.createIndex i => some i
    | _ => none)

/-- The content `createTables` gives an empty database. -/
def schemaData : Data :=
  Data.stored (schemaTables.map (fun d => { defn := d, rows := [], seq := 0 })) schemaIndexes

/-- The columns on which `createTables` creates an index, as (table, column). -/
def indexedColumns : List (String × String) :=
  schemaIndexes.map (fun i => (i.table, i.column))

/-- The foreign-key columns `createTables` declares, as (table, column). -/
def foreignKeyColumns : List (String × String) :=
  schemaTables.foldr (fun d acc => d.foreignKeys.map (fun fk => (d.name, fk.column)) ++ acc) []

/-- The `CHECK (col IN (...))` constraints `createTables` declares, as
(table, column, admitted texts). -/
def schemaChecks : List (String × String × List String) :=
  schemaTables.foldr (fun d acc =>
    d.columns.filterMap (fun cd => cd.check.map (fun l => (d.name, cd.name, l))) ++ acc) []

/-- The enumerated value sets of the data model, as the specification lists
them for role, type, severity, status, phase, difficulty and category. -/
def dataModelEnums : List (String × String × List String) :=
  [ ("users", "role", ["admin", "manager", "supervisor", "employee"]),
    ("incidents", "type", ["injury", "near-miss", "property", "environmental", "equipment",
      "fire", "chemical", "other"]),
    ("incidents", "severity", ["low", "medium", "high", "critical"]),
    ("incidents", "status", ["reported", "investigating", "resolved", "closed"]),
    ("photos", "phase", ["pre", "during", "post"]),
    ("training_modules", "difficulty", ["beginner", "intermediate", "advanced"]),
    ("training_progress", "status", ["not_started", "in_progress", "completed"]),
    ("documents", "category", ["sds", "procedure", "policy", "permit", "checklist", "manual",
      "other"]) ]

/-- The module has a database whose content satisfies `P`. -/
def HasData (P : Data → Prop) (s : State) : Prop :=
  ∃ db, s.db = some db ∧ P db.conn.data

/-- The table is stored under the given declaration and all its rows satisfy `P`. -/
def TableHolds (table : String) (defn : TableDef) (P : Row → Prop) (d : Data) : Prop :=
  ∃ t, d.findTable table = some t ∧ t.defn = defn ∧ ∀ r ∈ t.rows, P r

/-- A progress record whose status is `completed` has a completion time. -/
def completedHasDate (r : Row) : Prop :=
  Row.col r "status" = Value.text "completed" → Row.col r "completed_at" ≠ Value.null

/-- The role of a users row is NULL or one of the four roles. -/
def roleAdmitted (r : Row) : Prop :=
  Row.col r "role" = Value.null ∨
    ∃ x ∈ ["admin", "manager", "supervisor", "employee"], Row.col r "role" = Value.text x

/-- A request to one of the three progress handlers of `routes/training.js`, or
the passing of time between two requests. -/
inductive TrainingCall where
  | start (user : User) (moduleId : String)
  | progress (user : User) (moduleId : String) (progress : JsValue)
  | complete (user : User) (moduleId : String) (score : JsValue)
  | tick (now : String)
  deriving DecidableEq, Repr

/-- The state after a request to a progress handler. -/
def TrainingCall.apply : TrainingCall → State → State
  | TrainingCall.start u m, s => (startTraining u m s).2
  | TrainingCall.progress u m p, s => (updateProgress u m p s).2
  | TrainingCall.complete u m sc, s => (completeTraining u m sc s).2
  | TrainingCall.tick now, s => { s with now := now }

/-- The state after a sequence of requests to the progress handlers. -/
def applyTraining : List TrainingCall → State → State
  | [], s => s
  | c :: rest, s => applyTraining rest (c.apply s)

/-- The user alice of the scenarios, an employee with id 1. -/
def alice : User := { id := 1, role := Value.text "employee" }

/-- The state with the user alice and one training module stored. -/
def trainingBase : State := runEach [insertUser "alice@example.com", insertModule] started

/-- The state after alice has started module 1. -/
def trainingStarted : State := (startTraining alice "1" trainingBase).2

/-- The state with the user alice and one incident she reported. -/
def incidentBase : State :=
  runEach [insertUser "alice@example.com", insertIncident "injury" "high" 1] started

/-- A body of `PUT /api/incidents/:id` that holds only `status`. -/
def statusOnlyBody (status : String) : IncidentBody :=
  { title := JsValue.undefined, description := JsValue.undefined, status := JsValue.str status,
    severity := JsValue.undefined, assigned_to := JsValue.undefined,
    corrective_actions := JsValue.undefined, resolution_notes := JsValue.undefined }

/-- The statement `INSERT INTO users (email, password_hash, first_name, last_name,
department) VALUES (?, ?, ?, ?, ?)` of the registration route. -/
def registerUser (email : String) : Stmt :=
  Stmt.insert "users" ["email", "password_hash", "first_name", "last_name", "department"]
    [Value.text email, Value.text "hash", Value.text "Alice", Value.text "Doe", Value.null]

/-- The statement `INSERT INTO users (email, password_hash, first_name, last_name,
role) VALUES (?, ?, ?, ?, ?)` with NULL bound to `role`. -/
def insertUserWithoutRole : Stmt :=
  Stmt.insert "users" ["email", "password_hash", "first_name", "last_name", "role"]
    [Value.text "carol@example.com", Value.text "hash", Value.text "Carol", Value.text "Poe",
      Value.null]

/-- The message of the engine when it rejects the statement on the module
database (none without database or when the engine accepts the statement). -/
def State.rejection (s : State) (sql : Stmt) : Option String :=
  match s.db with
  | none => none
  | some db =>
    match db.conn.exec s.now sql with
    | Except.ok _ => none
    | Except.error e => some e.message

/-- A disk whose database file holds bytes that are not a database image. -/
def corruptDisk : FileSystem :=
  { file := some Bytes.garbage, readFails := false, writeFails := false }

/-- A disk whose database file exists and cannot be read. -/
def unreadableDisk : FileSystem :=
  { file := some (Bytes.image Data.empty), readFails := true, writeFails := false }

/-- The same state at a later time of the clock. -/
def State.later (s : State) (now : String) : State := { s with now := now }

/-- A manager of the scenarios, with id 2. -/
def manager : User := { id := 2, role := Value.text "manager" }

/-- The insert of `POST /api/users`, `INSERT INTO users (email, password_hash,
first_name, last_name, role, department) VALUES (?, ?, ?, ?, ?, ?)`, for the
given email and role and no department. -/
def insertStaff (email role : String) : Stmt :=
  Stmt.insert "users" ["email", "password_hash", "first_name", "last_name", "role", "department"]
    [Value.text email, Value.text "hash", Value.text "Bob", Value.text "Roe", Value.text role,
      Value.null]

/-- The state with the employee alice (id 1), a manager (id 2), an admin (id 3)
and one incident reported by alice. -/
def office : State :=
  runEach [insertUser "alice@example.com", insertStaff "bob@example.com" "manager",
    insertStaff "dana@example.com" "admin", insertIncident "injury" "high" 1] started

/-- A body of `PUT /api/users/:id` with `role` set and `null` in the other fields. -/
def roleBody (role : String) : UserBody :=
  { firstName := JsValue.null, lastName := JsValue.null, department := JsValue.null,
    phone := JsValue.null, role := JsValue.str role }

/-- The state after the incident of `incidentBase` has been marked resolved. -/
def incidentResolved : State :=
  (patchIncidentStatus "1" (JsValue.str "resolved") incidentBase).2

/-- The content of the module database (none without database). -/
def State.data (s : State) : Option Data := s.db.map (fun db => db.conn.data)

/-- The statements that only read: the `SELECT` statements. -/
def Stmt.reads : Stmt → Bool
  | Stmt.select _ _ _ => true
  | Stmt.selectAll _ => true
  | Stmt.selectWhere _ _ _ => true
  | Stmt.selectLastInsertRowid => true
  | Stmt.selectChanges => true
  | _ => false

/-- An admin of the scenarios, with id 3. -/
def adminUser : User := { id := 3, role := Value.text "admin" }

/-- The statement `INSERT INTO photos (filename, phase) VALUES (?, ?)` with NULL
bound to `phase`. -/
def insertPhotoWithoutPhase : Stmt :=
  Stmt.insert "photos" ["filename", "phase"] [Value.text "a.jpg", Value.null]

/-- The enumerated columns that `createTables` also declares `NOT NULL`, as
(table, column). -/
def enumeratedNotNull : List (String × String) :=
  schemaTables.foldr (fun d acc =>
    (d.columns.filter (fun cd => cd.check.isSome && cd.notNull)).map
      (fun cd => (d.name, cd.name)) ++ acc) []

/-- The statement `DROP INDEX idx_users_role`. -/
def dropRoleIndex : Stmt := Stmt.dropIndex "idx_users_role"

/-! ## What `run` reports after an insert -/

/-- C1 (defect): after `initDatabase` on an empty disk, `run` of a valid insert
into `users` stores the row under id 1, yet returns `lastInsertRowid = 0`
(`saveDatabase` has reopened the connection before `last_insert_rowid()` is
read), and `get` by the returned id finds no row. -/
theorem run_insert_returns_rowid_zero :
    (run (insertUser "alice@example.com") started).1
        = Except.ok { lastInsertRowid := some (Value.int 0), changes := some (Value.int 0) } ∧
      ((run (insertUser "alice@example.com") started).2.rowsOf "users").map Row.id
        = [Value.int 1] ∧
      (get (Stmt.select "users" "id" (Value.int 0))
        (run (insertUser "alice@example.com") started).2).1 = Except.ok none := by
  refine ⟨?_, ?_, ?_⟩ <;> rfl

/-- C4 (defect): once `initDatabase` has returned, foreign keys are off
(`saveDatabase` reopened the connection after the pragma), so deleting a
training module and an incident through `run` leaves the progress record and
the photo that reference them in place, the photo still pointing at the
deleted incident. -/
theorem delete_parent_keeps_dependents :
    started.db.map (fun db => db.conn.foreignKeys) = some false ∧
      (runEach [Stmt.delete "training_modules" "id" (Value.int 1),
          Stmt.delete "incidents" "id" (Value.int 1)] populated).rowsOf "training_modules" = [] ∧
      (runEach [Stmt.delete "training_modules" "id" (Value.int 1),
          Stmt.delete "incidents" "id" (Value.int 1)] populated).rowsOf "incidents" = [] ∧
      ((runEach [Stmt.delete "training_modules" "id" (Value.int 1),
          Stmt.delete "incidents" "id" (Value.int 1)] populated).rowsOf "training_progress").map
        (fun r => Row.col r "module_id") = [Value.int 1] ∧
      ((runEach [Stmt.delete "training_modules" "id" (Value.int 1),
          Stmt.delete "incidents" "id" (Value.int 1)] populated).rowsOf "photos").map
        (fun r => Row.col r "incident_id") = [Value.int 1] := by
  refine ⟨?_, ?_, ?_, ?_, ?_⟩ <;> rfl

/-- C9 (defect): with two users stored, `run` of `DELETE FROM users WHERE role = ?`
removes both rows and returns `changes = 0`. -/
theorem run_delete_reports_zero_changes :
    ((runEach [insertUser "alice@example.com", insertUser "bob@example.com"]
        started).rowsOf "users").length = 2 ∧
      (run (Stmt.delete "users" "role" (Value.text "employee"))
        (runEach [insertUser "alice@example.com", insertUser "bob@example.com"] started)).1
        = Except.ok { lastInsertRowid := some (Value.int 0), changes := some (Value.int 0) } ∧
      ((run (Stmt.delete "users" "role" (Value.text "employee"))
        (runEach [insertUser "alice@example.com", insertUser "bob@example.com"]
          started)).2.rowsOf "users").length = 0 := by
  refine ⟨?_, ?_, ?_⟩ <;> rfl

/-! ## Engine facts: which tables and indexes a statement keeps -/

theorem tables_withTables (d : Data) (ts : List Table) (h : d.isGarbage = false) :
    (d.withTables ts).tables = ts := by
  cases d with
  | stored ts0 is => rfl
  | garbage => cases h

theorem indexes_withTables (d : Data) (ts : List Table) :
    (d.withTables ts).indexes = d.indexes := by
  cases d <;> rfl

theorem tables_withIndexes (d : Data) (is : List IndexDef) :
    (d.withIndexes is).tables = d.tables := by
  cases d <;> rfl

theorem indexes_withIndexes (d : Data) (is : List IndexDef) (h : d.isGarbage = false) :
    (d.withIndexes is).indexes = is := by
  cases d with
  | stored ts is0 => rfl
  | garbage => cases h

theorem tables_setTable (d : Data) (t : Table) :
    (d.setTable t).tables
      = d.tables.map (fun u => if u.defn.name = t.defn.name then t else u) := by
  cases d <;> rfl

theorem not_garbage_of_tables (d : Data) (t : Table) (h : t ∈ d.tables) :
    d.isGarbage = false := by
  cases d with
  | stored ts is => rfl
  | garbage => cases h

theorem not_garbage_of_indexes (d : Data) (i : IndexDef) (h : i ∈ d.indexes) :
    d.isGarbage = false := by
  cases d with
  | stored ts is => rfl
  | garbage => cases h

theorem not_garbage_of_findTable (d : Data) (n : String) (t : Table)
    (h : d.findTable n = some t) : d.isGarbage = false :=
  not_garbage_of_tables d t (List.mem_of_find?_eq_some h)

theorem not_garbage_of_hasIndex (d : Data) (n : String) (h : d.hasIndex n = true) :
    d.isGarbage = false := by
  unfold Data.hasIndex at h
  obtain ⟨i, hi, -⟩ := List.any_eq_true.1 h
  exact not_garbage_of_indexes d i hi

/-- A statement that executes does what it does on a database image, and the
file is one when the statement reads it. -/
theorem exec_ok (c : Conn) (now : String) (sql : Stmt) (out : ResultSet × Conn)
    (h : c.exec now sql = Except.ok out) :
    c.apply now sql = Except.ok out ∧ (sql.readsFile = true → c.data.isGarbage = false) := by
  unfold Conn.exec at h
  by_cases hg : (sql.readsFile && c.data.isGarbage) = true
  · rw [if_pos hg] at h
    cases h
  · rw [if_neg hg] at h
    refine ⟨h, fun hr => ?_⟩
    cases hgg : c.data.isGarbage
    · rfl
    · rw [hgg, hr] at hg
      exact absurd rfl hg

theorem exec_eq_apply (c : Conn) (now : String) (sql : Stmt) (h : c.data.isGarbage = false) :
    c.exec now sql = c.apply now sql := by
  unfold Conn.exec
  rw [h, Bool.and_false]
  rfl

theorem exec_eq_apply_of_not_reads (c : Conn) (now : String) (sql : Stmt)
    (h : sql.readsFile = false) : c.exec now sql = c.apply now sql := by
  unfold Conn.exec
  rw [h]
  rfl

theorem tableNames_setTable (d : Data) (t : Table) :
    (d.setTable t).tableNames = d.tableNames := by
  unfold Data.tableNames
  rw [tables_setTable]
  simp only [List.map_map]
  apply List.map_congr_left
  intro u _
  simp only [Function.comp]
  split_ifs with h
  · exact h.symm
  · rfl

theorem indexes_setTable (d : Data) (t : Table) : (d.setTable t).indexes = d.indexes := by
  cases d <;> rfl

theorem findTable_isSome_iff (d : Data) (n : String) :
    (d.findTable n).isSome = true ↔ n ∈ d.tableNames := by
  unfold Data.findTable Data.tableNames
  rw [List.find?_isSome]
  simp only [decide_eq_true_eq, List.mem_map]

theorem findTable_some_mem (d : Data) (n : String) (t : Table) (h : d.findTable n = some t) :
    n ∈ d.tableNames := by
  rw [← findTable_isSome_iff, h]
  rfl

theorem findTable_some_name (d : Data) (n : String) (t : Table) (h : d.findTable n = some t) :
    t.defn.name = n := by
  unfold Data.findTable at h
  have := List.find?_some h
  simpa using this

theorem hasIndex_iff (d : Data) (n : String) : d.hasIndex n = true ↔ n ∈ d.indexNames := by
  unfold Data.hasIndex Data.indexNames
  simp only [List.any_eq_true, decide_eq_true_eq, List.mem_map]

/-- A fold over `Except` that succeeds carries an invariant of its steps along. -/
theorem foldlM_except_inv {α β ε : Type} (P : β → Prop) (f : β → α → Except ε β)
    (hf : ∀ b a b1, P b → f b a = Except.ok b1 → P b1) :
    ∀ (l : List α) (b r : β), P b → l.foldlM f b = Except.ok r → P r := by
  intro l
  induction l with
  | nil =>
    intro b r hb h
    simp only [List.foldlM, pure, Except.pure] at h
    cases h
    exact hb
  | cons a rest ih =>
    intro b r hb h
    simp only [List.foldlM, bind, Except.bind] at h
    cases hfa : f b a with
    | error e => rw [hfa] at h; cases h
    | ok b1 =>
      rw [hfa] at h
      exact ih b1 r (hf b a b1 hb hfa) h

theorem deleteIds_keeps (fuel : Nat) :
    ∀ (d : Data) (table : String) (ids : List Value) (r : Data),
      Data.deleteIds fuel d table ids = Except.ok r →
        r.tableNames = d.tableNames ∧ r.indexes = d.indexes := by
  induction fuel with
  | zero =>
    intro d table ids r h
    simp [Data.deleteIds] at h
  | succ fuel ih =>
    intro d table ids r h
    unfold Data.deleteIds at h
    cases hf : d.findTable table with
    | none => simp [hf] at h
    | some t =>
      simp only [hf] at h
      have key := foldlM_except_inv
        (fun acc : Data => acc.tableNames = d.tableNames ∧ acc.indexes = d.indexes) _
        (by
          intro b a b1 hb hstep
          cases hc : b.findTable a.1 with
          | none =>
            simp only [hc] at hstep
            cases hstep
            exact hb
          | some ct =>
            simp only [hc] at hstep
            by_cases h1 : (List.filter (fun r => ids.contains (Row.col r a.2.column))
                ct.rows).isEmpty = true
            · rw [if_pos h1] at hstep
              cases hstep
              exact hb
            · rw [if_neg h1] at hstep
              cases hact : a.2.onDelete with
              | noAction => simp [hact] at hstep
              | cascade =>
                simp only [hact] at hstep
                have := ih _ _ _ _ hstep
                exact ⟨this.1.trans hb.1, this.2.trans hb.2⟩
              | setNull =>
                simp only [hact] at hstep
                by_cases h2 : ct.defn.isNotNull a.2.column = true
                · rw [if_pos h2] at hstep
                  cases hstep
                · rw [if_neg h2] at hstep
                  cases hstep
                  exact ⟨(tableNames_setTable _ _).trans hb.1,
                    (indexes_setTable _ _).trans hb.2⟩)
        _ _ r ⟨tableNames_setTable _ _, indexes_setTable _ _⟩ h
      exact key

theorem storeRow_keeps (c c1 : Conn) (t : Table) (id : Int) (row : Row)
    (h : c.storeRow t id row = Except.ok c1) :
    c1.data.tableNames = c.data.tableNames ∧ c1.data.indexes = c.data.indexes := by
  unfold Conn.storeRow at h
  split_ifs at h
  cases h
  exact ⟨tableNames_setTable _ _, indexes_setTable _ _⟩

theorem insert_keeps (c c1 : Conn) (now table : String) (cols : List String)
    (vals : List Value) (h : c.insert now table cols vals = Except.ok c1) :
    c1.data.tableNames = c.data.tableNames ∧ c1.data.indexes = c.data.indexes := by
  unfold Conn.insert at h
  cases hf : c.data.findTable table with
  | none => simp [hf] at h
  | some t =>
    simp only [hf] at h
    split_ifs at h
    cases hid : chooseRowid t cols vals with
    | error e => simp [hid] at h
    | ok id =>
      simp only [hid] at h
      exact storeRow_keeps _ _ _ _ _ h

theorem delete_keeps (c c1 : Conn) (table whereCol : String) (v : Value)
    (h : c.delete table whereCol v = Except.ok c1) :
    c1.data.tableNames = c.data.tableNames ∧ c1.data.indexes = c.data.indexes := by
  unfold Conn.delete at h
  cases hf : c.data.findTable table with
  | none => simp [hf] at h
  | some t =>
    simp only [hf] at h
    by_cases hc : (!(t.defn.hasColumn whereCol)) = true
    · rw [if_pos hc] at h
      cases h
    · rw [if_neg hc] at h
      by_cases hfk : c.foreignKeys = true
      · simp only [hfk, if_true] at h
        cases hd : Data.deleteIds maxTriggerDepth c.data table
            (List.map Row.id (List.filter (fun r => Value.sqlEq (Row.col r whereCol) v) t.rows)) with
        | error e => simp [hd] at h
        | ok d =>
          simp only [hd] at h
          cases h
          exact deleteIds_keeps _ _ _ _ _ hd
      · simp only [hfk] at h
        cases h
        exact ⟨tableNames_setTable _ _, indexes_setTable _ _⟩

theorem createTable_keeps (c c1 : Conn) (td : TableDef)
    (hg : c.data.isGarbage = false) (h : c.createTable td = Except.ok c1) :
    c.data.tableNames ⊆ c1.data.tableNames ∧ c1.data.indexes = c.data.indexes ∧
      td.name ∈ c1.data.tableNames := by
  unfold Conn.createTable at h
  cases hf : c.data.findTable td.name with
  | some t =>
    simp only [hf] at h
    cases h
    exact ⟨fun _ hx => hx, rfl, findTable_some_mem _ _ _ hf⟩
  | none =>
    simp only [hf] at h
    split_ifs at h
    cases h
    refine ⟨?_, indexes_withTables _ _, ?_⟩
    · intro x hx
      simp only [Data.tableNames, tables_withTables _ _ hg, List.map_append, List.mem_append]
      exact Or.inl hx
    · simp [Data.tableNames, tables_withTables _ _ hg]

theorem createIndex_keeps (c c1 : Conn) (i : IndexDef)
    (hg : c.data.isGarbage = false) (h : c.createIndex i = Except.ok c1) :
    c1.data.tableNames = c.data.tableNames ∧ c.data.indexNames ⊆ c1.data.indexNames ∧
      i.name ∈ c1.data.indexNames := by
  unfold Conn.createIndex at h
  by_cases hi : c.data.hasIndex i.name = true
  · rw [if_pos hi] at h
    cases h
    exact ⟨rfl, fun _ hx => hx, (hasIndex_iff _ _).1 hi⟩
  · rw [if_neg hi] at h
    cases hf : c.data.findTable i.table with
    | none => simp [hf] at h
    | some t =>
      simp only [hf] at h
      split_ifs at h
      cases h
      refine ⟨?_, ?_, ?_⟩
      · simp only [Data.tableNames, tables_withIndexes]
      · intro x hx
        simp only [Data.indexNames, indexes_withIndexes _ _ hg, List.map_append,
          List.mem_append]
        exact Or.inl hx
      · simp [Data.indexNames, indexes_withIndexes _ _ hg]

theorem dropIndex_keeps (c c1 : Conn) (name : String)
    (h : c.dropIndex name = Except.ok c1) : c1.data.tableNames = c.data.tableNames := by
  unfold Conn.dropIndex at h
  split_ifs at h
  cases h
  simp only [Data.tableNames, tables_withIndexes]

theorem insertExprs_keeps (c c1 : Conn) (now table : String) (cols : List String)
    (exprs : List Expr) (h : c.insertExprs now table cols exprs = Except.ok c1) :
    c1.data.tableNames = c.data.tableNames ∧ c1.data.indexes = c.data.indexes := by
  unfold Conn.insertExprs at h
  split_ifs at h
  exact insert_keeps _ _ _ _ _ _ h

theorem storeUpdate_keeps (c c1 : Conn) (t : Table) (now : String)
    (sets : List (String × Expr)) (conds : List (String × Value))
    (h : c.storeUpdate t now sets conds = Except.ok c1) :
    c1.data.tableNames = c.data.tableNames ∧ c1.data.indexes = c.data.indexes := by
  unfold Conn.storeUpdate at h
  split_ifs at h
  cases h
  exact ⟨tableNames_setTable _ _, indexes_setTable _ _⟩

theorem update_keeps (c c1 : Conn) (now table : String) (sets : List (String × Expr))
    (conds : List (String × Value)) (h : c.update now table sets conds = Except.ok c1) :
    c1.data.tableNames = c.data.tableNames ∧ c1.data.indexes = c.data.indexes := by
  unfold Conn.update at h
  cases hf : c.data.findTable table with
  | none => simp [hf] at h
  | some t =>
    simp only [hf] at h
    split_ifs at h
    exact storeUpdate_keeps _ _ _ _ _ _ h

/-- A statement other than `DROP INDEX` removes no table and no index. -/
theorem apply_keeps (c : Conn) (now : String) (sql : Stmt) (out : ResultSet × Conn)
    (hg : sql.readsFile = true → c.data.isGarbage = false)
    (hnd : ∀ n, sql ≠ Stmt.dropIndex n) (h : c.apply now sql = Except.ok out) :
    c.data.tableNames ⊆ out.2.data.tableNames ∧ c.data.indexNames ⊆ out.2.data.indexNames := by
  cases sql with
  | dropIndex n => exact absurd rfl (hnd n)
  | pragmaForeignKeys b =>
    simp only [Conn.apply] at h
    cases h
    exact ⟨fun _ hx => hx, fun _ hx => hx⟩
  | createTable td =>
    simp only [Conn.apply] at h
    cases hc : c.createTable td with
    | error e => simp [hc, Except.map] at h
    | ok c1 =>
      simp only [hc, Except.map] at h
      cases h
      have := createTable_keeps c c1 td (hg rfl) hc
      refine ⟨this.1, ?_⟩
      simp only [Data.indexNames, this.2.1]
      exact fun _ hx => hx
  | createIndex i =>
    simp only [Conn.apply] at h
    cases hc : c.createIndex i with
    | error e => simp [hc, Except.map] at h
    | ok c1 =>
      simp only [hc, Except.map] at h
      cases h
      have := createIndex_keeps c c1 i (hg rfl) hc
      refine ⟨?_, this.2.1⟩
      simp only [this.1]
      exact fun _ hx => hx
  | insert t cols vals =>
    simp only [Conn.apply] at h
    cases hc : c.insert now t cols vals with
    | error e => simp [hc, Except.map] at h
    | ok c1 =>
      simp only [hc, Except.map] at h
      cases h
      have := insert_keeps c c1 now t cols vals hc
      simp only [Data.indexNames, this.1, this.2]
      exact ⟨fun _ hx => hx, fun _ hx => hx⟩
  | delete t w v =>
    simp only [Conn.apply] at h
    cases hc : c.delete t w v with
    | error e => simp [hc, Except.map] at h
    | ok c1 =>
      simp only [hc, Except.map] at h
      cases h
      have := delete_keeps c c1 t w v hc
      simp only [Data.indexNames, this.1, this.2]
      exact ⟨fun _ hx => hx, fun _ hx => hx⟩
  | select t w v =>
    simp only [Conn.apply] at h
    cases hc : c.select t (some (w, v)) with
    | error e => simp [hc, Except.map] at h
    | ok rs =>
      simp only [hc, Except.map] at h
      cases h
      exact ⟨fun _ hx => hx, fun _ hx => hx⟩
  | selectAll t =>
    simp only [Conn.apply] at h
    cases hc : c.select t none with
    | error e => simp [hc, Except.map] at h
    | ok rs =>
      simp only [hc, Except.map] at h
      cases h
      exact ⟨fun _ hx => hx, fun _ hx => hx⟩
  | selectLastInsertRowid =>
    simp only [Conn.apply] at h
    cases h
    exact ⟨fun _ hx => hx, fun _ hx => hx⟩
  | selectChanges =>
    simp only [Conn.apply] at h
    cases h
    exact ⟨fun _ hx => hx, fun _ hx => hx⟩
  | malformed text =>
    simp [Conn.apply] at h
  | insertExprs t cols exprs =>
    simp only [Conn.apply] at h
    cases hc : c.insertExprs now t cols exprs with
    | error e => simp [hc, Except.map] at h
    | ok c1 =>
      simp only [hc, Except.map] at h
      cases h
      have := insertExprs_keeps c c1 now t cols exprs hc
      simp only [Data.indexNames, this.1, this.2]
      exact ⟨fun _ hx => hx, fun _ hx => hx⟩
  | update t sets conds =>
    simp only [Conn.apply] at h
    cases hc : c.update now t sets conds with
    | error e => simp [hc, Except.map] at h
    | ok c1 =>
      simp only [hc, Except.map] at h
      cases h
      have := update_keeps c c1 now t sets conds hc
      simp only [Data.indexNames, this.1, this.2]
      exact ⟨fun _ hx => hx, fun _ hx => hx⟩
  | selectWhere t cols conds =>
    simp only [Conn.apply] at h
    cases hc : c.selectWhere t cols conds with
    | error e => simp [hc, Except.map] at h
    | ok rs =>
      simp only [hc, Except.map] at h
      cases h
      exact ⟨fun _ hx => hx, fun _ hx => hx⟩
  | bindFailure text =>
    simp [Conn.apply] at h

/-- A statement the engine accepts removes no table, and no index unless it is
a `DROP INDEX`. -/
theorem exec_keeps (c : Conn) (now : String) (sql : Stmt) (out : ResultSet × Conn)
    (h : c.exec now sql = Except.ok out) :
    c.data.tableNames ⊆ out.2.data.tableNames ∧
      ((∀ n, sql ≠ Stmt.dropIndex n) → c.data.indexNames ⊆ out.2.data.indexNames) := by
  obtain ⟨ha, hg⟩ := exec_ok c now sql out h
  by_cases hd : ∃ n, sql = Stmt.dropIndex n
  · obtain ⟨n, rfl⟩ := hd
    refine ⟨?_, fun hnd => absurd rfl (hnd n)⟩
    simp only [Conn.apply] at ha
    cases hc : c.dropIndex n with
    | error e => simp [hc, Except.map] at ha
    | ok c1 =>
      simp only [hc, Except.map] at ha
      cases ha
      rw [dropIndex_keeps c c1 n hc]
      exact fun _ hx => hx
  · have hnd : ∀ n, sql ≠ Stmt.dropIndex n := fun n hn => hd ⟨n, hn⟩
    have := apply_keeps c now sql out hg hnd ha
    exact ⟨this.1, fun _ => this.2⟩

/-- Stored schema objects stay stored when no table and no index is removed. -/
theorem present_mono (d d1 : Data) (sql : Stmt) (ht : d.tableNames ⊆ d1.tableNames)
    (hi : d.indexNames ⊆ d1.indexNames) (h : sql.present d = true) : sql.present d1 = true := by
  cases sql <;> simp_all [Stmt.present]
  · exact ht h
  · exact hi h

theorem schemaPresent_mono (d d1 : Data) (ht : d.tableNames ⊆ d1.tableNames)
    (hi : d.indexNames ⊆ d1.indexNames) (h : SchemaPresent d) : SchemaPresent d1 :=
  fun sql hsql => present_mono d d1 sql ht hi (h sql hsql)

/-- A schema statement whose object is stored is accepted and changes nothing. -/
theorem exec_present (c : Conn) (now : String) (sql : Stmt) (h : sql.present c.data = true) :
    c.exec now sql = Except.ok (ResultSet.none, c) := by
  cases sql with
  | createTable td =>
    simp only [Stmt.present, decide_eq_true_eq] at h
    have h1 := (findTable_isSome_iff c.data td.name).2 h
    cases hf : c.data.findTable td.name with
    | none => simp [hf] at h1
    | some t =>
      rw [exec_eq_apply _ _ _ (not_garbage_of_findTable _ _ _ hf)]
      simp [Conn.apply, Conn.createTable, hf, Except.map]
  | createIndex i =>
    simp only [Stmt.present, decide_eq_true_eq] at h
    have h1 := (hasIndex_iff c.data i.name).2 h
    rw [exec_eq_apply _ _ _ (not_garbage_of_hasIndex _ _ h1)]
    simp [Conn.apply, Conn.createIndex, h1, Except.map]
  | pragmaForeignKeys b => simp [Stmt.present] at h
  | insert t cols vals => simp [Stmt.present] at h
  | delete t w v => simp [Stmt.present] at h
  | select t w v => simp [Stmt.present] at h
  | selectAll t => simp [Stmt.present] at h
  | selectLastInsertRowid => simp [Stmt.present] at h
  | selectChanges => simp [Stmt.present] at h
  | malformed text => simp [Stmt.present] at h
  | insertExprs t cols exprs => simp [Stmt.present] at h
  | update t sets conds => simp [Stmt.present] at h
  | selectWhere t cols conds => simp [Stmt.present] at h
  | bindFailure text => simp [Stmt.present] at h
  | dropIndex n => simp [Stmt.present] at h

/-- A schema statement the engine accepts leaves its object stored. -/
theorem exec_creates (c : Conn) (now : String) (sql : Stmt) (out : ResultSet × Conn)
    (hs : sql ∈ schemaStatements) (h : c.exec now sql = Except.ok out) :
    sql.present out.2.data = true := by
  obtain ⟨h, hg⟩ := exec_ok c now sql out h
  cases sql with
  | createTable td =>
    simp only [Conn.apply] at h
    cases hc : c.createTable td with
    | error e => simp [hc, Except.map] at h
    | ok c1 =>
      simp only [hc, Except.map] at h
      cases h
      simpa [Stmt.present] using (createTable_keeps c c1 td (hg rfl) hc).2.2
  | createIndex i =>
    simp only [Conn.apply] at h
    cases hc : c.createIndex i with
    | error e => simp [hc, Except.map] at h
    | ok c1 =>
      simp only [hc, Except.map] at h
      cases h
      simpa [Stmt.present] using (createIndex_keeps c c1 i (hg rfl) hc).2.2
  | pragmaForeignKeys b => simp [schemaStatements] at hs
  | insert t cols vals => simp [schemaStatements] at hs
  | delete t w v => simp [schemaStatements] at hs
  | select t w v => simp [schemaStatements] at hs
  | selectAll t => simp [schemaStatements] at hs
  | selectLastInsertRowid => simp [schemaStatements] at hs
  | selectChanges => simp [schemaStatements] at hs
  | malformed text => simp [schemaStatements] at hs
  | insertExprs t cols exprs => simp [schemaStatements] at hs
  | update t sets conds => simp [schemaStatements] at hs
  | selectWhere t cols conds => simp [schemaStatements] at hs
  | bindFailure text => simp [schemaStatements] at hs
  | dropIndex n => simp [schemaStatements] at hs

/-! ## Module facts -/

theorem saveDatabase_db (s : State) (db : Database) (h : s.db = some db) :
    (saveDatabase s).db = some { db with conn := Conn.onData db.conn.data } := by
  unfold saveDatabase
  simp only [h, State.emit, FileSystem.write, Conn.export]
  split_ifs <;> rfl

theorem saveDatabase_initialized (s : State) : (saveDatabase s).initialized = s.initialized := by
  unfold saveDatabase
  cases hdb : s.db with
  | none => rfl
  | some db =>
    simp only [State.emit, FileSystem.write, Conn.export]
    split_ifs <;> rfl

theorem saveDatabase_flags (s : State) :
    (saveDatabase s).fs.readFails = s.fs.readFails ∧
      (saveDatabase s).fs.writeFails = s.fs.writeFails ∧ (saveDatabase s).now = s.now ∧
      (saveDatabase s).nextHandle = s.nextHandle := by
  unfold saveDatabase
  cases hdb : s.db with
  | none => exact ⟨rfl, rfl, rfl, rfl⟩
  | some db =>
    simp only [State.emit, FileSystem.write, Conn.export]
    split_ifs <;> exact ⟨rfl, rfl, rfl, rfl⟩

theorem saveDatabase_fs_written (s : State) (db : Database) (h : s.db = some db)
    (hw : s.fs.writeFails = false) :
    (saveDatabase s).fs = { s.fs with file := some (Bytes.image db.conn.data) } := by
  unfold saveDatabase
  simp [h, State.emit, FileSystem.write, Conn.export, hw]

theorem saveDatabase_fs_failed (s : State) (db : Database) (h : s.db = some db)
    (hw : s.fs.writeFails = true) :
    (saveDatabase s).fs = { s.fs with file := s.fs.afterFailedWrite } ∧
      Event.consoleError "Error saving database:" ∈ (saveDatabase s).trace := by
  unfold saveDatabase
  simp [h, State.emit, FileSystem.write, Conn.export, hw]

theorem query_no_db (sql : Stmt) (s : State) (h : s.db = none) :
    query sql s = (Except.error JsError.notInitialized, s) := by
  unfold query
  simp [h]

theorem query_exec_error (sql : Stmt) (s : State) (db : Database) (e : EngineError)
    (hdb : s.db = some db) (h : db.conn.exec s.now sql = Except.error e) :
    query sql s = (Except.error (JsError.engine e.message),
      (s.emit (Event.dbPrepare sql)).emit
        (Event.consoleErrorSql "Query error:" sql e.message)) := by
  unfold query
  simp [hdb, State.emit, h]

theorem query_exec_ok (sql : Stmt) (s : State) (db : Database) (out : ResultSet × Conn)
    (hdb : s.db = some db) (h : db.conn.exec s.now sql = Except.ok out) :
    query sql s = (Except.ok (stepLoop out.1.columns out.1.rows []),
      { s.emit (Event.dbPrepare sql) with db := some { db with conn := out.2 } }) := by
  unfold query
  simp [hdb, State.emit, h]

theorem run_no_db (sql : Stmt) (s : State) (h : s.db = none) :
    run sql s = (Except.error JsError.notInitialized, s) := by
  unfold run
  simp [h]

theorem run_exec_error (sql : Stmt) (s : State) (db : Database) (e : EngineError)
    (hdb : s.db = some db) (h : db.conn.exec s.now sql = Except.error e) :
    run sql s = (Except.error (JsError.engine e.message),
      (s.emit (Event.dbRun sql)).emit (Event.consoleErrorSql "Run error:" sql e.message)) := by
  unfold run
  simp [hdb, State.emit, h, dbRun]

/-- What `run` does when the engine accepts the statement: the database is
saved, and both values it reports are read from the reopened connection. -/
theorem run_exec_ok (sql : Stmt) (s : State) (db : Database) (out : ResultSet × Conn)
    (hdb : s.db = some db) (h : db.conn.exec s.now sql = Except.ok out) :
    run sql s =
      (Except.ok { lastInsertRowid := some (Value.int 0), changes := some (Value.int 0) },
        ((saveDatabase { s.emit (Event.dbRun sql) with db := some { db with conn := out.2 } }).emit
          (Event.dbPrepare Stmt.selectLastInsertRowid)).emit
            (Event.dbPrepare Stmt.selectChanges)) := by
  unfold run
  simp only [hdb, State.emit, dbRun, h]
  unfold saveDatabase
  simp only [State.emit, FileSystem.write, Conn.export]
  split_ifs <;>
    simp [query, State.emit, Conn.exec, Conn.apply, Stmt.readsFile, Conn.onData, stepLoop,
      getAsObject, firstField, JsObject.get, JsObject.set]

theorem accepts_iff (s : State) (sql : Stmt) :
    s.accepts sql = true ↔ ∃ db out, s.db = some db ∧ db.conn.exec s.now sql = Except.ok out := by
  unfold State.accepts
  cases hdb : s.db with
  | none => simp
  | some db =>
    cases hx : db.conn.exec s.now sql with
    | error e => simp [hx]
    | ok out =>
      simp only [hx, true_iff]
      exact ⟨db, out, rfl, hx⟩

/-- The statements of a list that the engine all accepts: the database object
stays the same, nothing stored is removed, and each statement of the schema
among them leaves its object stored. -/
theorem runAll_ok (l : List Stmt) (hnd : ∀ n, Stmt.dropIndex n ∉ l) :
    ∀ (s s1 : State) (db : Database), s.db = some db → runAll l s = (Except.ok (), s1) →
      ∃ db1, s1.db = some db1 ∧ db1.handle = db.handle ∧
        db.conn.data.tableNames ⊆ db1.conn.data.tableNames ∧
        db.conn.data.indexNames ⊆ db1.conn.data.indexNames ∧
        (∀ sql ∈ l, sql ∈ schemaStatements → sql.present db1.conn.data = true) ∧
        s1.initialized = s.initialized ∧ s1.fs = s.fs ∧ s1.now = s.now ∧
        s1.nextHandle = s.nextHandle := by
  induction l with
  | nil =>
    intro s s1 db hdb h
    simp only [runAll, Prod.mk.injEq, true_and] at h
    subst h
    exact ⟨db, hdb, rfl, fun _ hx => hx, fun _ hx => hx, by simp, rfl, rfl, rfl, rfl⟩
  | cons sql rest ih =>
    intro s s1 db hdb h
    simp only [runAll, hdb, dbRun, State.emit] at h
    cases hx : db.conn.exec s.now sql with
    | error e => simp [hx] at h
    | ok out =>
      simp only [hx] at h
      obtain ⟨db1, h1, h2, h3, h4, h5, h6, h7, h8, h9⟩ :=
        ih (fun n hn => hnd n (List.mem_cons_of_mem _ hn)) _ s1 _ rfl h
      have hk := exec_keeps _ _ _ _ hx
      have hk2 := hk.2 (fun n hn => hnd n (by rw [hn]; exact List.mem_cons_self _ _))
      refine ⟨db1, h1, h2, fun _ hy => h3 (hk.1 hy), fun _ hy => h4 (hk2 hy), ?_,
        h6, h7, h8, h9⟩
      intro q hq hqs
      rcases List.mem_cons.1 hq with rfl | hq
      · exact present_mono _ _ _ h3 h4 (exec_creates _ _ _ _ hqs hx)
      · exact h5 q hq hqs

/-- Statements whose objects are all stored run without changing anything but the trace. -/
theorem runAll_present (l : List Stmt) :
    ∀ (s : State) (db : Database), s.db = some db →
      (∀ sql ∈ l, sql.present db.conn.data = true) →
      runAll l s = (Except.ok (), { s with trace := s.trace ++ l.map Event.dbRun }) := by
  induction l with
  | nil =>
    intro s db _ _
    simp [runAll]
  | cons sql rest ih =>
    intro s db hdb hp
    have hx := exec_present db.conn s.now sql (hp sql (List.mem_cons_self _ _))
    simp only [runAll, hdb, dbRun, State.emit, hx]
    have := ih { s with db := some db, trace := s.trace ++ [Event.dbRun sql] } db rfl
      (fun q hq => hp q (List.mem_cons_of_mem _ hq))
    rw [this]
    simp [hdb]

theorem loadOrCreate_spec (s : State) :
    ∃ c, (loadOrCreate s).db = some { handle := s.nextHandle, conn := c } ∧
      (loadOrCreate s).initialized = s.initialized ∧ (loadOrCreate s).fs = s.fs ∧
      (loadOrCreate s).now = s.now := by
  unfold loadOrCreate
  simp only [State.emit, State.newDatabase]
  cases hf : s.fs.file with
  | none => exact ⟨_, rfl, rfl, rfl, rfl⟩
  | some b =>
    simp only
    split_ifs
    · exact ⟨_, rfl, rfl, rfl, rfl⟩
    · exact ⟨_, rfl, rfl, rfl, rfl⟩

/-- A first `initDatabase` that returns leaves the module initialized on the
database object it returns, with the schema stored. -/
theorem initDatabase_ready (s : State) (r : Option Database) (s1 : State)
    (hi : s.initialized = false) (h : initDatabase s = (Except.ok r, s1)) :
    ∃ db, r = some db ∧ Ready SchemaPresent db.handle s1 ∧ s1.fs.readFails = s.fs.readFails ∧
      s1.fs.writeFails = s.fs.writeFails ∧ s1.now = s.now := by
  unfold initDatabase at h
  simp only [hi] at h
  obtain ⟨c, hc, hci, hcf, hcn⟩ := loadOrCreate_spec s
  cases hp : runAll [Stmt.pragmaForeignKeys true] (loadOrCreate s) with
  | mk r1 s2 =>
    rw [hp] at h
    cases r1 with
    | error e => simp at h
    | ok u =>
      simp only at h
      obtain ⟨db2, g1, g2, -, -, -, g6, g7, g8, -⟩ :=
        runAll_ok _ (by simp) _ _ _ hc hp
      unfold createTables at h
      cases hq : runAll schemaStatements s2 with
      | mk r2 s3 =>
        rw [hq] at h
        cases r2 with
        | error e => simp at h
        | ok u2 =>
          simp only [Prod.mk.injEq, Except.ok.injEq] at h
          obtain ⟨db3, k1, k2, -, -, k5, k6, k7, k8, -⟩ :=
            runAll_ok _ (by simp [schemaStatements]) _ _ _ g1 hq
          have hs3 : (s3.emit (Event.consoleLog "All tables created successfully")).db
              = some db3 := k1
          have hsave := saveDatabase_db _ _ hs3
          obtain ⟨hr, hs1⟩ := h
          refine ⟨{ db3 with conn := Conn.onData db3.conn.data }, ?_, ?_, ?_, ?_, ?_⟩
          · rw [← hr, hsave]
          · subst hs1
            refine ⟨rfl, _, hsave, rfl, ?_⟩
            intro sql hsql
            exact k5 sql hsql hsql
          · subst hs1
            exact (saveDatabase_flags _).1.trans
              (by show s3.fs.readFails = _; rw [k7, g7, hcf])
          · subst hs1
            exact (saveDatabase_flags _).2.1.trans
              (by show s3.fs.writeFails = _; rw [k7, g7, hcf])
          · subst hs1
            exact (saveDatabase_flags _).2.2.1.trans
              (by show s3.now = _; rw [k8, g8, hcn])

/-- Any `initDatabase` that returns leaves the module initialized on the
database object it returns. -/
theorem initDatabase_initialized (s : State) (r : Option Database) (s1 : State)
    (h : initDatabase s = (Except.ok r, s1)) :
    ∃ db, r = some db ∧ Ready (fun _ => True) db.handle s1 := by
  by_cases hi : s.initialized = false
  · obtain ⟨db, h1, ⟨h2, db1, h3, h4, -⟩, -⟩ := initDatabase_ready s r s1 hi h
    exact ⟨db, h1, h2, db1, h3, h4, trivial⟩
  · have hi1 : s.initialized = true := by simpa using hi
    cases hdb : s.db with
    | some db =>
      unfold initDatabase at h
      simp only [hi1, hdb, Prod.mk.injEq, Except.ok.injEq] at h
      obtain ⟨h1, h2⟩ := h
      subst h2
      exact ⟨db, h1.symm, hi1, db, hdb, rfl, trivial⟩
    | none =>
      unfold initDatabase at h
      simp only [hi1, hdb] at h
      obtain ⟨c, hc, hci, hcf, hcn⟩ := loadOrCreate_spec s
      cases hp : runAll [Stmt.pragmaForeignKeys true] (loadOrCreate s) with
      | mk r1 s2 =>
        rw [hp] at h
        cases r1 with
        | error e => simp at h
        | ok u =>
          simp only at h
          obtain ⟨db2, g1, g2, -, -, -, g6, g7, g8, -⟩ :=
        runAll_ok _ (by simp) _ _ _ hc hp
          unfold createTables at h
          cases hq : runAll schemaStatements s2 with
          | mk r2 s3 =>
            rw [hq] at h
            cases r2 with
            | error e => simp at h
            | ok u2 =>
              simp only [Prod.mk.injEq, Except.ok.injEq] at h
              obtain ⟨db3, k1, k2, -, -, k5, k6, k7, k8, -⟩ :=
            runAll_ok _ (by simp [schemaStatements]) _ _ _ g1 hq
              have hs3 : (s3.emit (Event.consoleLog "All tables created successfully")).db
                  = some db3 := k1
              have hsave := saveDatabase_db _ _ hs3
              obtain ⟨hr, hs1⟩ := h
              subst hs1
              exact ⟨{ db3 with conn := Conn.onData db3.conn.data }, by rw [← hr, hsave],
                rfl, _, hsave, rfl, trivial⟩

/-- Once the module is initialized, `initDatabase` returns `db` and does nothing. -/
theorem initDatabase_noop (P : Data → Prop) (h : Nat) (s : State) (hr : Ready P h s) :
    initDatabase s = (Except.ok s.db, s) := by
  obtain ⟨h1, db, h2, -, -⟩ := hr
  unfold initDatabase
  simp [h1, h2]

theorem ready_save (P : Data → Prop) (h : Nat) (s : State) (hr : Ready P h s) :
    Ready P h (saveDatabase s) := by
  obtain ⟨h1, db, h2, h3, h4⟩ := hr
  exact ⟨(saveDatabase_initialized s).trans h1, _, saveDatabase_db s db h2, h3, h4⟩

theorem ready_query (P : Data → Prop)
    (hP : ∀ c now sql out, Conn.exec c now sql = Except.ok out → P c.data → P out.2.data)
    (h : Nat) (sql : Stmt) (s : State) (hr : Ready P h s) : Ready P h (query sql s).2 := by
  obtain ⟨h1, db, h2, h3, h4⟩ := hr
  cases hx : db.conn.exec s.now sql with
  | error e =>
    rw [query_exec_error sql s db e h2 hx]
    exact ⟨h1, db, h2, h3, h4⟩
  | ok out =>
    rw [query_exec_ok sql s db out h2 hx]
    exact ⟨h1, _, rfl, h3, hP _ _ _ _ hx h4⟩

theorem ready_run (P : Data → Prop)
    (hP : ∀ c now sql out, Conn.exec c now sql = Except.ok out → P c.data → P out.2.data)
    (h : Nat) (sql : Stmt) (s : State) (hr : Ready P h s) : Ready P h (run sql s).2 := by
  obtain ⟨h1, db, h2, h3, h4⟩ := hr
  cases hx : db.conn.exec s.now sql with
  | error e =>
    rw [run_exec_error sql s db e h2 hx]
    exact ⟨h1, db, h2, h3, h4⟩
  | ok out =>
    rw [run_exec_ok sql s db out h2 hx]
    have := ready_save P h { s.emit (Event.dbRun sql) with db := some { db with conn := out.2 } }
      ⟨h1, _, rfl, h3, hP _ _ _ _ hx h4⟩
    exact this

theorem get_state (sql : Stmt) (s : State) : (get sql s).2 = (query sql s).2 := by
  unfold get
  cases hq : query sql s with
  | mk r s1 =>
    cases r with
    | error e => rfl
    | ok rows =>
      cases rows with
      | nil => rfl
      | cons o rest => rfl

theorem ready_apply (P : Data → Prop)
    (hP : ∀ c now sql out, Conn.exec c now sql = Except.ok out → P c.data → P out.2.data)
    (h : Nat) (c : Call) (s : State) (hr : Ready P h s) : Ready P h (c.apply s) := by
  cases c with
  | init =>
    simp only [Call.apply, initDatabase_noop P h s hr]
    exact hr
  | save => exact ready_save P h s hr
  | query sql => exact ready_query P hP h sql s hr
  | run sql => exact ready_run P hP h sql s hr
  | get sql =>
    simp only [Call.apply, get_state]
    exact ready_query P hP h sql s hr
  | all sql => exact ready_query P hP h sql s hr
  | surroundings r w f now => exact hr

theorem ready_applyCalls (P : Data → Prop)
    (hP : ∀ c now sql out, Conn.exec c now sql = Except.ok out → P c.data → P out.2.data)
    (h : Nat) (calls : List Call) :
    ∀ s : State, Ready P h s → Ready P h (applyCalls calls s) := by
  induction calls with
  | nil => intro s hr; exact hr
  | cons c rest ih =>
    intro s hr
    exact ih _ (ready_apply P hP h c s hr)

theorem schemaPresent_exec (c : Conn) (now : String) (sql : Stmt) (out : ResultSet × Conn)
    (hnd : ∀ n, sql ≠ Stmt.dropIndex n)
    (h : c.exec now sql = Except.ok out) (hs : SchemaPresent c.data) :
    SchemaPresent out.2.data :=
  schemaPresent_mono _ _ (exec_keeps c now sql out h).1 ((exec_keeps c now sql out h).2 hnd) hs

/-- A new process on a readable file holding an image with the schema stored
gets exactly the content of the image. -/
theorem initDatabase_on_image (d : Data) (wf : Bool) (now : String) (hd : SchemaPresent d) :
    ∃ db, (initDatabase (State.fresh
        { file := some (Bytes.image d), readFails := false, writeFails := wf } now)).1
          = Except.ok (some db) ∧
      (initDatabase (State.fresh
        { file := some (Bytes.image d), readFails := false, writeFails := wf } now)).2.db
          = some db ∧ db.conn = Conn.onData d := by
  have hi : (State.fresh
      { file := some (Bytes.image d), readFails := false, writeFails := wf } now).initialized
        = false := rfl
  have h1 : runAll [Stmt.pragmaForeignKeys true] (loadOrCreate (State.fresh
      { file := some (Bytes.image d), readFails := false, writeFails := wf } now))
      = (Except.ok (),
        { db := some { handle := 0, conn := { Conn.onData d with foreignKeys := true } }
          initialized := false
          fs := { file := some (Bytes.image d), readFails := false, writeFails := wf }
          now := now
          nextHandle := 1
          trace := [Event.fsExists, Event.fsRead, Event.newDatabase,
            Event.consoleLog "Loaded existing database",
            Event.dbRun (Stmt.pragmaForeignKeys true)] }) := rfl
  have h2 := runAll_present schemaStatements
    { db := some { handle := 0, conn := { Conn.onData d with foreignKeys := true } }
      initialized := false
      fs := { file := some (Bytes.image d), readFails := false, writeFails := wf }
      now := now
      nextHandle := 1
      trace := [Event.fsExists, Event.fsRead, Event.newDatabase,
        Event.consoleLog "Loaded existing database",
        Event.dbRun (Stmt.pragmaForeignKeys true)] }
    { handle := 0, conn := { Conn.onData d with foreignKeys := true } } rfl hd
  unfold initDatabase
  simp only [hi, h1, createTables, h2]
  refine ⟨{ handle := 0, conn := Conn.onData d }, ?_, ?_, rfl⟩
  · rw [saveDatabase_db _ { handle := 0, conn := { Conn.onData d with foreignKeys := true } }
      rfl]
    rfl
  · exact saveDatabase_db _ { handle := 0, conn := { Conn.onData d with foreignKeys := true } }
      rfl

theorem run_returned_iff (sql : Stmt) (s : State) :
    returned (run sql s).1 = true ↔ s.accepts sql = true := by
  unfold State.accepts
  cases hdb : s.db with
  | none => simp [run_no_db sql s hdb, returned]
  | some db =>
    cases hx : db.conn.exec s.now sql with
    | error e => simp [run_exec_error sql s db e hdb hx, returned, hx]
    | ok out => simp [run_exec_ok sql s db out hdb hx, returned, hx]

/-! ## Persistence -/

theorem schemaPresent_of_all (d : Data)
    (h : schemaStatements.all (fun sql => sql.present d) = true) : SchemaPresent d := by
  intro sql hsql
  exact List.all_eq_true.1 h sql hsql

/-- C2 (counterexample): with the backing file no longer writable, `run` of an
insert returns normally and the file differs from the serialization of the
database; the same with a full disk, where the failed write has emptied the
file. -/
theorem run_returns_though_write_failed :
    startedReadOnly.fs.writeFails = true ∧
      (run (insertUser "alice@example.com") startedReadOnly).1
        = Except.ok { lastInsertRowid := some (Value.int 0), changes := some (Value.int 0) } ∧
      (run (insertUser "alice@example.com") startedReadOnly).2.fs.file
        ≠ (run (insertUser "alice@example.com") startedReadOnly).2.snapshot ∧
      startedDiskFull.fs.writeFails = true ∧
      (run (insertUser "alice@example.com") startedDiskFull).1
        = Except.ok { lastInsertRowid := some (Value.int 0), changes := some (Value.int 0) } ∧
      (run (insertUser "alice@example.com") startedDiskFull).2.fs.file
        = some (Bytes.image Data.empty) ∧
      (run (insertUser "alice@example.com") startedDiskFull).2.fs.file
        ≠ (run (insertUser "alice@example.com") startedDiskFull).2.snapshot := by
  refine ⟨rfl, rfl, ?_, rfl, rfl, rfl, ?_⟩
  · decide
  · decide

/-- C2 (amended): when the engine accepts the statement, `run` returns its
result whether or not the write of the snapshot fails. A failed write is caught
and logged by `saveDatabase`, and the backing file holds what the failed write
left of it; a write that does not fail leaves the serialization of the current
database in the file. -/
theorem run_logs_write_failure (sql : Stmt) (s : State) (h : s.accepts sql = true) :
    (∃ r, (run sql s).1 = Except.ok r) ∧
      (s.fs.writeFails = true →
        (run sql s).2.fs.file = s.fs.afterFailedWrite ∧
          Event.consoleError "Error saving database:" ∈ (run sql s).2.trace) ∧
      (s.fs.writeFails = false →
        (run sql s).2.snapshot ≠ none ∧ (run sql s).2.fs.file = (run sql s).2.snapshot) := by
  obtain ⟨db, out, hdb, hx⟩ := (accepts_iff s sql).1 h
  rw [run_exec_ok sql s db out hdb hx]
  refine ⟨⟨_, rfl⟩, ?_, ?_⟩
  · intro hw
    have := saveDatabase_fs_failed
      { s.emit (Event.dbRun sql) with db := some { db with conn := out.2 } }
      { db with conn := out.2 } rfl hw
    refine ⟨?_, ?_⟩
    · simp only [State.emit] at this ⊢
      rw [this.1]
    · simp only [State.emit, List.mem_append, List.mem_singleton]
      exact Or.inl (Or.inl this.2)
  · intro hw
    have h1 := saveDatabase_fs_written
      { s.emit (Event.dbRun sql) with db := some { db with conn := out.2 } }
      { db with conn := out.2 } rfl hw
    have h2 := saveDatabase_db
      { s.emit (Event.dbRun sql) with db := some { db with conn := out.2 } }
      { db with conn := out.2 } rfl
    simp only [State.emit] at h1 h2
    simp only [State.snapshot, State.emit, h1, h2]
    simp [Conn.onData]

/-- Witness of C2 (amended): an insert run on a full disk. -/
theorem run_logs_write_failure_witness :
    startedDiskFull.accepts (insertUser "bob@example.com") = true ∧
      ((∃ r, (run (insertUser "bob@example.com") startedDiskFull).1 = Except.ok r) ∧
        (startedDiskFull.fs.writeFails = true →
          (run (insertUser "bob@example.com") startedDiskFull).2.fs.file
              = startedDiskFull.fs.afterFailedWrite ∧
            Event.consoleError "Error saving database:"
              ∈ (run (insertUser "bob@example.com") startedDiskFull).2.trace) ∧
        (startedDiskFull.fs.writeFails = false →
          (run (insertUser "bob@example.com") startedDiskFull).2.snapshot ≠ none ∧
            (run (insertUser "bob@example.com") startedDiskFull).2.fs.file
              = (run (insertUser "bob@example.com") startedDiskFull).2.snapshot)) :=
  ⟨rfl, run_logs_write_failure (insertUser "bob@example.com") startedDiskFull rfl⟩

/-- C3 (counterexample): an insert run on a full disk returns normally and the
row is in the database, yet a new process started on the backing file finds no
row in `users`. -/
theorem restart_after_failed_write_loses_row :
    (run (insertUser "alice@example.com") startedDiskFull).1
        = Except.ok { lastInsertRowid := some (Value.int 0), changes := some (Value.int 0) } ∧
      ((run (insertUser "alice@example.com") startedDiskFull).2.rowsOf "users").length = 1 ∧
      returned (restart (run (insertUser "alice@example.com") startedDiskFull).2
        "2024-01-02 00:00:00" false).1 = true ∧
      ((restart (run (insertUser "alice@example.com") startedDiskFull).2
        "2024-01-02 00:00:00" false).2.rowsOf "users").length = 0 := by
  refine ⟨rfl, rfl, rfl, rfl⟩

/-- After a write that failed part way the backing file is no database image,
and `initDatabase` of a new process throws at the first statement of
`createTables`. -/
theorem restart_after_torn_write_throws :
    returned (run (insertUser "alice@example.com") startedTornWrite).1 = true ∧
      (restart (run (insertUser "alice@example.com") startedTornWrite).2
        "2024-01-02 00:00:00" false).1
          = Except.error (JsError.engine "file is not a database") := by
  refine ⟨rfl, rfl⟩

/-- After `run` of `DROP INDEX idx_users_role`, written to the backing file, a
new process has the index again: `createTables` recreates what is missing. -/
theorem restart_recreates_dropped_index :
    returned (run dropRoleIndex started).1 = true ∧
      (run dropRoleIndex started).2.fs.file = (run dropRoleIndex started).2.snapshot ∧
      (run dropRoleIndex started).2.data.map (fun d => d.hasIndex "idx_users_role")
        = some false ∧
      returned (restart (run dropRoleIndex started).2 "2024-01-02 00:00:00" false).1 = true ∧
      (restart (run dropRoleIndex started).2 "2024-01-02 00:00:00" false).2.data.map
        (fun d => d.hasIndex "idx_users_role") = some true := by
  refine ⟨rfl, rfl, rfl, rfl, rfl⟩

/-- C3 (amended): a `run` that returns while the write of the snapshot does not
fail, and after which every table and index that `createTables` declares is
stored, leaves a backing file from which `initDatabase` in a new process (file
readable) returns a database with the same tables, rows and indexes. -/
theorem restart_restores_written_state (sql : Stmt) (s : State) (now1 : String) (wf1 : Bool)
    (hrun : returned (run sql s).1 = true) (hw : s.fs.writeFails = false)
    (hs : HasData SchemaPresent (run sql s).2) :
    ∃ db db1,
      (run sql s).2.db = some db ∧
      (restart (run sql s).2 now1 wf1).1 = Except.ok (some db1) ∧
      (restart (run sql s).2 now1 wf1).2.db = some db1 ∧
      db1.conn.data = db.conn.data := by
  obtain ⟨db, out, hdb, hx⟩ := (accepts_iff _ sql).1 ((run_returned_iff sql _).1 hrun)
  have hrun_eq := run_exec_ok sql _ db out hdb hx
  have h1 := saveDatabase_fs_written
    { s.emit (Event.dbRun sql) with db := some { db with conn := out.2 } }
    { db with conn := out.2 } rfl hw
  have h2 := saveDatabase_db
    { s.emit (Event.dbRun sql) with db := some { db with conn := out.2 } }
    { db with conn := out.2 } rfl
  simp only [State.emit] at h1 h2
  have hfile : (run sql s).2.fs.file = some (Bytes.image out.2.data) := by
    rw [hrun_eq]
    simp only [State.emit, h1]
  have hdb2 : (run sql s).2.db = some { db with conn := Conn.onData out.2.data } := by
    rw [hrun_eq]
    simp only [State.emit, h2]
  obtain ⟨db2, hdb3, hsch⟩ := hs
  rw [hdb2] at hdb3
  cases hdb3
  obtain ⟨db1, g1, g2, g3⟩ := initDatabase_on_image out.2.data wf1 now1 hsch
  refine ⟨_, db1, hdb2, ?_, ?_, ?_⟩
  · unfold restart
    rw [hfile]
    exact g1
  · unfold restart
    rw [hfile]
    exact g2
  · rw [g3]

/-- Witness of C3 (amended): two inserts on an empty disk, then a new process. -/
theorem restart_restores_written_state_witness :
    returned (run (insertIncident "fire" "low" 1)
        (run (insertUser "alice@example.com") started).2).1 = true ∧
      (run (insertUser "alice@example.com") started).2.fs.writeFails = false ∧
      HasData SchemaPresent (run (insertIncident "fire" "low" 1)
        (run (insertUser "alice@example.com") started).2).2 ∧
      ∃ db db1,
        (run (insertIncident "fire" "low" 1)
          (run (insertUser "alice@example.com") started).2).2.db = some db ∧
        (restart (run (insertIncident "fire" "low" 1)
          (run (insertUser "alice@example.com") started).2).2
          "2024-01-02 00:00:00" false).1 = Except.ok (some db1) ∧
        (restart (run (insertIncident "fire" "low" 1)
          (run (insertUser "alice@example.com") started).2).2
          "2024-01-02 00:00:00" false).2.db = some db1 ∧
        db1.conn.data = db.conn.data :=
  ⟨rfl, rfl, ⟨_, rfl, schemaPresent_of_all _ rfl⟩,
    restart_restores_written_state (insertIncident "fire" "low" 1)
      (run (insertUser "alice@example.com") started).2 "2024-01-02 00:00:00" false rfl rfl
      ⟨_, rfl, schemaPresent_of_all _ rfl⟩⟩

/-! ## Initialization -/

/-- C10: once a call of `initDatabase` has returned, every later call, after
any calls into the module, returns the same database object as the first and
leaves the whole state as it is: the backing file and the trace of effects are
unchanged, so no file is read or written and no statement is run. -/
theorem initDatabase_idempotent (s : State) (r : Option Database) (s1 : State)
    (calls : List Call) (h : initDatabase s = (Except.ok r, s1)) :
    ∃ db db1, r = some db ∧ (applyCalls calls s1).db = some db1 ∧ db1.handle = db.handle ∧
      initDatabase (applyCalls calls s1) = (Except.ok (some db1), applyCalls calls s1) := by
  obtain ⟨db, hr, hready⟩ := initDatabase_initialized s r s1 h
  have hr2 := ready_applyCalls (fun _ => True) (fun _ _ _ _ _ _ => trivial) db.handle calls s1
    hready
  have hnoop := initDatabase_noop _ _ _ hr2
  obtain ⟨-, db1, hdb1, hh, -⟩ := hr2
  exact ⟨db, db1, hr, hdb1, hh, by rw [hnoop, hdb1]⟩

/-- Witness of C10: a second `initDatabase` after an insert, a save and a read. -/
theorem initDatabase_idempotent_witness :
    initDatabase (State.fresh emptyDisk "2024-01-01 00:00:00") = (Except.ok started.db, started) ∧
      ∃ db db1, started.db = some db ∧
        (applyCalls [Call.run (insertUser "alice@example.com"), Call.save,
          Call.get (Stmt.selectAll "users")] started).db = some db1 ∧
        db1.handle = db.handle ∧
        initDatabase (applyCalls [Call.run (insertUser "alice@example.com"), Call.save,
            Call.get (Stmt.selectAll "users")] started)
          = (Except.ok (some db1), applyCalls [Call.run (insertUser "alice@example.com"),
              Call.save, Call.get (Stmt.selectAll "users")] started) :=
  ⟨rfl, initDatabase_idempotent (State.fresh emptyDisk "2024-01-01 00:00:00") started.db started
    [Call.run (insertUser "alice@example.com"), Call.save, Call.get (Stmt.selectAll "users")]
    rfl⟩

/-! ## Reading -/

theorem stepLoop_eq (columns : List String) :
    ∀ (rows : List (List Value)) (acc : List JsObject),
      stepLoop columns rows acc = acc ++ rows.map (getAsObject columns) := by
  intro rows
  induction rows with
  | nil => intro acc; simp [stepLoop]
  | cons vals rest ih => intro acc; simp [stepLoop, ih]

theorem get_set_same (o : JsObject) (k : String) (v : Value) :
    JsObject.get (JsObject.set o k v) k = some v := by
  induction o with
  | nil => simp [JsObject.set, JsObject.get]
  | cons kv rest ih =>
    obtain ⟨k1, v1⟩ := kv
    by_cases hk : k1 = k
    · simp [JsObject.set, JsObject.get, hk]
    · simp [JsObject.set, JsObject.get, hk, ih]

theorem get_set_other (o : JsObject) (k k1 : String) (v : Value) (h : k1 ≠ k) :
    JsObject.get (JsObject.set o k v) k1 = JsObject.get o k1 := by
  induction o with
  | nil => simp [JsObject.set, JsObject.get, h.symm]
  | cons kv rest ih =>
    obtain ⟨k2, v2⟩ := kv
    by_cases hk : k2 = k
    · subst hk
      simp [JsObject.set, JsObject.get, h.symm]
    · by_cases hk1 : k2 = k1
      · subst hk1
        simp [JsObject.set, JsObject.get, hk]
      · simp [JsObject.set, JsObject.get, hk, hk1, ih]

theorem get_foldl_set_absent (l : List (String × Value)) :
    ∀ (o : JsObject) (k : String), k ∉ l.map Prod.fst →
      JsObject.get (l.foldl (fun o kv => JsObject.set o kv.1 kv.2) o) k = JsObject.get o k := by
  induction l with
  | nil => intro o k _; rfl
  | cons kv rest ih =>
    intro o k hk
    simp only [List.map_cons, List.mem_cons, not_or] at hk
    simp only [List.foldl_cons]
    rw [ih _ _ hk.2, get_set_other _ _ _ _ hk.1]

theorem get_foldl_set_mem (l : List (String × Value)) :
    ∀ (o : JsObject) (k : String) (v : Value), (l.map Prod.fst).Nodup → (k, v) ∈ l →
      JsObject.get (l.foldl (fun o kv => JsObject.set o kv.1 kv.2) o) k = some v := by
  induction l with
  | nil => intro o k v _ h; simp at h
  | cons kv rest ih =>
    intro o k v hn h
    simp only [List.map_cons, List.nodup_cons] at hn
    simp only [List.foldl_cons]
    rcases List.mem_cons.1 h with rfl | h
    · rw [get_foldl_set_absent _ _ _ hn.1, get_set_same]
    · exact ih _ _ _ hn.2 h

theorem nodup_zip_fst : ∀ (cols : List String) (vals : List Value), cols.Nodup →
    ((cols.zip vals).map Prod.fst).Nodup := by
  intro cols
  induction cols with
  | nil => intro vals _; simp
  | cons c cs ih =>
    intro vals hn
    cases vals with
    | nil => simp
    | cons v vs =>
      simp only [List.nodup_cons] at hn
      simp only [List.zip_cons_cons, List.map_cons, List.nodup_cons]
      refine ⟨?_, ih vs hn.2⟩
      intro hmem
      obtain ⟨⟨a, b⟩, hab, rfl⟩ := List.mem_map.1 hmem
      exact hn.1 (List.of_mem_zip hab).1

theorem result_iff (s : State) (sql : Stmt) (rs : ResultSet) :
    s.result sql = some rs ↔
      ∃ db out, s.db = some db ∧ db.conn.exec s.now sql = Except.ok out ∧ out.1 = rs := by
  unfold State.result
  cases hdb : s.db with
  | none => simp
  | some db =>
    cases hx : db.conn.exec s.now sql with
    | error e => simp [hx]
    | ok out =>
      simp only [hx, Option.some.injEq]
      constructor
      · intro h
        exact ⟨db, out, rfl, hx, h⟩
      · rintro ⟨db1, out1, h1, h2, h3⟩
        cases h1
        rw [hx] at h2
        cases h2
        exact h3

/-- C8: when the engine accepts the statement, `all` and `query` return an
array that holds, in the order of the engine, one object per row the statement
produces (the empty array when it produces none); with distinct column names
each object maps every column name to the value of that column in its row. -/
theorem all_returns_row_objects (sql : Stmt) (s : State) (rs : ResultSet)
    (h : s.result sql = some rs) :
    (all sql s).1 = Except.ok (rs.rows.map (getAsObject rs.columns)) ∧
      (query sql s).1 = Except.ok (rs.rows.map (getAsObject rs.columns)) ∧
      (rs.rows = [] → (all sql s).1 = Except.ok []) ∧
      (rs.columns.Nodup → ∀ vals ∈ rs.rows, ∀ k v, (k, v) ∈ rs.columns.zip vals →
        JsObject.get (getAsObject rs.columns vals) k = some v) := by
  obtain ⟨db, out, hdb, hx, rfl⟩ := (result_iff s sql rs).1 h
  have hq : (query sql s).1 = Except.ok (out.1.rows.map (getAsObject out.1.columns)) := by
    rw [query_exec_ok sql s db out hdb hx, stepLoop_eq]
    simp
  refine ⟨hq, hq, ?_, ?_⟩
  · intro he
    show (query sql s).1 = Except.ok []
    rw [hq, he]
    rfl
  · intro hn vals _ k v hkv
    exact get_foldl_set_mem _ _ _ _ (nodup_zip_fst _ _ hn) hkv

/-- Witness of C8: the progress records of user 1 in the populated database. -/
theorem all_returns_row_objects_witness :
    populated.result (Stmt.select "training_progress" "user_id" (Value.int 1))
        = some { columns := ["id", "user_id", "module_id", "status", "progress", "started_at",
                   "completed_at", "score", "certificate_url"]
                 rows := [[Value.int 1, Value.int 1, Value.int 1, Value.text "not_started",
                   Value.int 0, Value.null, Value.null, Value.null, Value.null]] } ∧
      (all (Stmt.select "training_progress" "user_id" (Value.int 1)) populated).1
        = Except.ok [[("id", Value.int 1), ("user_id", Value.int 1), ("module_id", Value.int 1),
            ("status", Value.text "not_started"), ("progress", Value.int 0),
            ("started_at", Value.null), ("completed_at", Value.null), ("score", Value.null),
            ("certificate_url", Value.null)]] :=
  ⟨rfl, (all_returns_row_objects (Stmt.select "training_progress" "user_id" (Value.int 1))
    populated _ rfl).1⟩

/-- C7: `get` returns the first element of what `all` returns for the same
statement and state, `null` when `all` returns the empty array, and throws
what `all` throws; it returns `null` exactly when `all` returns the empty
array. Both leave the same state. -/
theorem get_eq_head_of_all (sql : Stmt) (s : State) :
    get sql s = (((all sql s).1).map List.head?, (all sql s).2) ∧
      ((get sql s).1 = Except.ok none ↔ (all sql s).1 = Except.ok []) := by
  unfold get all
  cases hq : query sql s with
  | mk r s1 =>
    cases r with
    | error e => simp [Except.map]
    | ok rows =>
      cases rows with
      | nil => simp [Except.map]
      | cons o rest => simp [Except.map, JsObject.truthy]

/-! ## Constraints -/

theorem sqlEq_self (v : Value) (h : v ≠ Value.null) : Value.sqlEq v v = true := by
  cases v with
  | null => exact absurd rfl h
  | int n => simp [Value.sqlEq]
  | text t => simp [Value.sqlEq]

theorem usersDef_uniqueSets : usersDef.uniqueSets = [["email"]] := rfl

theorem insert_duplicate_email (c : Conn) (now : String) (cols : List String)
    (vals : List Value) (t : Table) (r : Row)
    (ht : c.data.findTable "users" = some t) (hd : t.defn = usersDef) (hr : r ∈ t.rows)
    (he : JsObject.get (cols.zip vals) "email" = some (Row.col r "email")) :
    ∃ e, c.insert now "users" cols vals = Except.error e := by
  unfold Conn.insert
  simp only [ht]
  split_ifs with h1 h2
  · exact ⟨_, rfl⟩
  · exact ⟨_, rfl⟩
  · cases hid : chooseRowid t cols vals with
    | error e => exact ⟨e, rfl⟩
    | ok id =>
      simp only
      unfold Conn.storeRow
      split_ifs with h3 h4 h5
      · exact ⟨_, rfl⟩
      · exact ⟨_, rfl⟩
      · exact ⟨_, rfl⟩
      · exfalso
        have hemail : Row.col (buildRow t.defn id cols vals now) "email" = Row.col r "email" := by
          rw [hd]
          simp [buildRow, usersDef, Row.col, JsObject.get, insertValue, he]
        have hnn : Row.col r "email" ≠ Value.null := by
          intro hnull
          have hall : (t.defn.columns.all
              (fun cd => cd.admits (Row.col (buildRow t.defn id cols vals now) cd.name))) = true := by
            simpa using h3
          rw [List.all_eq_true] at hall
          have hcol := hall (Column.mk "email" true true ColDefault.none none)
            (by rw [hd]; simp [usersDef])
          simp only at hcol
          rw [hemail, hnull] at hcol
          simp [Column.admits] at hcol
        apply h4
        unfold Table.violatesUnique
        rw [hd, usersDef_uniqueSets]
        simp only [List.any_cons, List.any_nil, Bool.or_false, List.any_eq_true]
        refine ⟨r, hr, ?_⟩
        rw [← hd]
        simp [rowsCollide, hemail, sqlEq_self _ hnn]

/-- C5: an insert into `users` that lists for `email` the email of a stored
row makes `run` throw the error of the engine, and leaves the database, hence
the number of rows of `users`, unchanged. -/
theorem duplicate_email_rejected (s : State) (cols : List String) (vals : List Value) (r : Row)
    (hdef : s.tableDef "users" = some usersDef) (hr : r ∈ s.rowsOf "users")
    (he : JsObject.get (cols.zip vals) "email" = some (Row.col r "email")) :
    (∃ msg, (run (Stmt.insert "users" cols vals) s).1 = Except.error (JsError.engine msg)) ∧
      (run (Stmt.insert "users" cols vals) s).2.db = s.db ∧
      ((run (Stmt.insert "users" cols vals) s).2.rowsOf "users").length
        = (s.rowsOf "users").length := by
  unfold State.tableDef at hdef
  unfold State.rowsOf at hr
  cases hdb : s.db with
  | none => simp [hdb] at hdef
  | some db =>
    simp only [hdb] at hdef hr
    cases ht : db.conn.data.findTable "users" with
    | none => simp [ht] at hdef
    | some t =>
      simp only [ht, Option.map_some', Option.some.injEq] at hdef hr
      obtain ⟨e, hins⟩ := insert_duplicate_email db.conn s.now cols vals t r ht hdef hr he
      have hx : db.conn.exec s.now (Stmt.insert "users" cols vals) = Except.error e := by
        rw [exec_eq_apply _ _ _ (not_garbage_of_findTable _ _ _ ht)]
        simp [Conn.apply, hins, Except.map]
      rw [run_exec_error _ s db e hdb hx]
      refine ⟨⟨_, rfl⟩, hdb, ?_⟩
      simp [State.rowsOf, State.emit, hdb]

/-- Witness of C5: a second insert with the email of alice. -/
theorem duplicate_email_rejected_witness :
    withAlice.tableDef "users" = some usersDef ∧ aliceRow ∈ withAlice.rowsOf "users" ∧
      JsObject.get (["email", "password_hash", "first_name", "last_name"].zip
        [Value.text "alice@example.com", Value.text "other", Value.text "Al", Value.text "Roe"])
        "email" = some (Row.col aliceRow "email") ∧
      ((∃ msg, (run (Stmt.insert "users" ["email", "password_hash", "first_name", "last_name"]
          [Value.text "alice@example.com", Value.text "other", Value.text "Al",
            Value.text "Roe"]) withAlice).1 = Except.error (JsError.engine msg)) ∧
        (run (Stmt.insert "users" ["email", "password_hash", "first_name", "last_name"]
          [Value.text "alice@example.com", Value.text "other", Value.text "Al",
            Value.text "Roe"]) withAlice).2.db = withAlice.db ∧
        ((run (Stmt.insert "users" ["email", "password_hash", "first_name", "last_name"]
          [Value.text "alice@example.com", Value.text "other", Value.text "Al",
            Value.text "Roe"]) withAlice).2.rowsOf "users").length
          = (withAlice.rowsOf "users").length) :=
  ⟨rfl, by decide, rfl,
    duplicate_email_rejected withAlice ["email", "password_hash", "first_name", "last_name"]
      [Value.text "alice@example.com", Value.text "other", Value.text "Al", Value.text "Roe"]
      aliceRow rfl (by decide) rfl⟩

/-- A column that is `NOT NULL` with a `CHECK (col IN (...))` admits only the
texts of the list. -/
theorem admits_enum (c : Column) (l : List String) (v : Value) (hnn : c.notNull = true)
    (hc : c.check = some l) (h : c.admits v = true) : ∃ x ∈ l, v = Value.text x := by
  unfold Column.admits at h
  rw [hnn, hc] at h
  cases v with
  | null => simp at h
  | int n => simp [checkPasses] at h
  | text x =>
    simp only [checkPasses, Bool.and_eq_true, decide_eq_true_eq] at h
    exact ⟨x, h.2, rfl⟩

theorem insert_incident_outside_enum (c : Conn) (now : String) (cols : List String)
    (vals : List Value) (t : Table)
    (ht : c.data.findTable "incidents" = some t) (hd : t.defn = incidentsDef)
    (hbad : (∀ x ∈ ["injury", "near-miss", "property", "environmental", "equipment", "fire",
          "chemical", "other"], JsObject.get (cols.zip vals) "type" ≠ some (Value.text x)) ∨
        (∀ x ∈ ["low", "medium", "high", "critical"],
          JsObject.get (cols.zip vals) "severity" ≠ some (Value.text x))) :
    ∃ e, c.insert now "incidents" cols vals = Except.error e := by
  unfold Conn.insert
  simp only [ht]
  split_ifs with h1 h2
  · exact ⟨_, rfl⟩
  · exact ⟨_, rfl⟩
  · cases hid : chooseRowid t cols vals with
    | error e => exact ⟨e, rfl⟩
    | ok id =>
      simp only
      unfold Conn.storeRow
      split_ifs with h3 h4 h5
      · exact ⟨_, rfl⟩
      · exact ⟨_, rfl⟩
      · exact ⟨_, rfl⟩
      · exfalso
        have hall : (t.defn.columns.all
            (fun cd => cd.admits (Row.col (buildRow t.defn id cols vals now) cd.name))) = true := by
          simpa using h3
        rw [List.all_eq_true] at hall
        rcases hbad with hbad | hbad
        · have hcol := hall (Column.mk "type" true false ColDefault.none
            (some ["injury", "near-miss", "property", "environmental", "equipment", "fire",
              "chemical", "other"])) (by rw [hd]; simp [incidentsDef])
          obtain ⟨x, hx, hv⟩ := admits_enum _ _ _ rfl rfl hcol
          apply hbad x hx
          rw [hd] at hv
          simp only [buildRow, incidentsDef, Row.col, JsObject.get, insertValue, List.map_cons,
            colNN, col, colNow] at hv
          cases hg : JsObject.get (cols.zip vals) "type" with
          | none => simp [hg] at hv
          | some w => simpa [hg] using hv
        · have hcol := hall (Column.mk "severity" true false ColDefault.none
            (some ["low", "medium", "high", "critical"])) (by rw [hd]; simp [incidentsDef])
          obtain ⟨x, hx, hv⟩ := admits_enum _ _ _ rfl rfl hcol
          apply hbad x hx
          rw [hd] at hv
          simp only [buildRow, incidentsDef, Row.col, JsObject.get, insertValue, List.map_cons,
            colNN, col, colNow] at hv
          cases hg : JsObject.get (cols.zip vals) "severity" with
          | none => simp [hg] at hv
          | some w => simpa [hg] using hv

/-- C6: an insert into `incidents` whose value listed for `type` is none of
injury, near-miss, property, environmental, equipment, fire, chemical, other,
or whose value listed for `severity` is none of low, medium, high, critical (a
column left out, NULL and numbers included), makes `run` throw the error of the
engine and leaves the database unchanged, so that no row is added. -/
theorem incident_outside_enum_rejected (s : State) (cols : List String) (vals : List Value)
    (hdef : s.tableDef "incidents" = some incidentsDef)
    (hbad : (∀ x ∈ ["injury", "near-miss", "property", "environmental", "equipment", "fire",
          "chemical", "other"], JsObject.get (cols.zip vals) "type" ≠ some (Value.text x)) ∨
        (∀ x ∈ ["low", "medium", "high", "critical"],
          JsObject.get (cols.zip vals) "severity" ≠ some (Value.text x))) :
    (∃ msg, (run (Stmt.insert "incidents" cols vals) s).1
        = Except.error (JsError.engine msg)) ∧
      (run (Stmt.insert "incidents" cols vals) s).2.db = s.db ∧
      (run (Stmt.insert "incidents" cols vals) s).2.rowsOf "incidents"
        = s.rowsOf "incidents" := by
  unfold State.tableDef at hdef
  cases hdb : s.db with
  | none => simp [hdb] at hdef
  | some db =>
    simp only [hdb] at hdef
    cases ht : db.conn.data.findTable "incidents" with
    | none => simp [ht] at hdef
    | some t =>
      simp only [ht, Option.map_some', Option.some.injEq] at hdef
      obtain ⟨e, hins⟩ := insert_incident_outside_enum db.conn s.now cols vals t ht hdef hbad
      have hx : db.conn.exec s.now (Stmt.insert "incidents" cols vals) = Except.error e := by
        rw [exec_eq_apply _ _ _ (not_garbage_of_findTable _ _ _ ht)]
        simp [Conn.apply, hins, Except.map]
      rw [run_exec_error _ s db e hdb hx]
      refine ⟨⟨_, rfl⟩, hdb, ?_⟩
      simp [State.rowsOf, State.emit, hdb]

/-- Witness of C6: an incident of type `explosion`. -/
theorem incident_outside_enum_rejected_witness :
    withAlice.tableDef "incidents" = some incidentsDef ∧
      ((∃ msg, (run (insertIncident "explosion" "high" 1) withAlice).1
          = Except.error (JsError.engine msg)) ∧
        (run (insertIncident "explosion" "high" 1) withAlice).2.db = withAlice.db ∧
        (run (insertIncident "explosion" "high" 1) withAlice).2.rowsOf "incidents"
          = withAlice.rowsOf "incidents") :=
  ⟨rfl, incident_outside_enum_rejected withAlice ["title", "type", "severity", "reporter_id"]
    [Value.text "Fall", Value.text "explosion", Value.text "high", Value.int 1] rfl
    (Or.inl (by decide))⟩

theorem rejection_iff (s : State) (sql : Stmt) (msg : String) :
    s.rejection sql = some msg ↔
      ∃ db e, s.db = some db ∧ db.conn.exec s.now sql = Except.error e ∧ e.message = msg := by
  unfold State.rejection
  cases hdb : s.db with
  | none => simp
  | some db =>
    cases hx : db.conn.exec s.now sql with
    | ok out => simp [hx]
    | error e =>
      simp only [hx, Option.some.injEq]
      constructor
      · intro h
        exact ⟨db, e, rfl, hx, h⟩
      · rintro ⟨db1, e1, h1, h2, h3⟩
        cases h1
        rw [hx] at h2
        cases h2
        exact h3

/-! ## Schema -/

/-- C11: on a database that stores the seven tables and ten indexes,
`createTables` returns and leaves the database (every table declaration, row,
counter and index) and the backing file as they are; applied once more to the
resulting state it again changes nothing. -/
theorem createTables_idempotent (s : State) (h : HasData SchemaPresent s) :
    (createTables s).1 = Except.ok () ∧ (createTables s).2.db = s.db ∧
      (createTables s).2.fs = s.fs ∧
      (createTables (createTables s).2).1 = Except.ok () ∧
      (createTables (createTables s).2).2.db = (createTables s).2.db := by
  obtain ⟨db, hdb, hp⟩ := h
  have h1 := runAll_present schemaStatements s db hdb hp
  have hc : createTables s = (Except.ok (),
      ({ s with trace := s.trace ++ schemaStatements.map Event.dbRun }).emit
        (Event.consoleLog "All tables created successfully")) := by
    unfold createTables
    rw [h1]
  have h2 := runAll_present schemaStatements
    (({ s with trace := s.trace ++ schemaStatements.map Event.dbRun }).emit
      (Event.consoleLog "All tables created successfully")) db hdb hp
  have hc2 : (createTables (createTables s).2) = (Except.ok (),
      ({ (createTables s).2 with
        trace := (createTables s).2.trace ++ schemaStatements.map Event.dbRun }).emit
        (Event.consoleLog "All tables created successfully")) := by
    rw [hc]
    unfold createTables
    rw [h2]
  rw [hc2, hc]
  exact ⟨rfl, rfl, rfl, rfl, rfl⟩

/-- Witness of C11: the database of a started process. -/
theorem createTables_idempotent_witness :
    HasData SchemaPresent started ∧
      ((createTables started).1 = Except.ok () ∧ (createTables started).2.db = started.db ∧
        (createTables started).2.fs = started.fs ∧
        (createTables (createTables started).2).1 = Except.ok () ∧
        (createTables (createTables started).2).2.db = (createTables started).2.db) :=
  ⟨⟨_, rfl, schemaPresent_of_all _ rfl⟩,
    createTables_idempotent started ⟨_, rfl, schemaPresent_of_all _ rfl⟩⟩

/-- The statements of `createTables` on an empty database are all accepted and
leave the seven empty tables and the ten indexes. -/
theorem runAll_schema_on_empty (h k : Nat) (fk : Bool) (l ch : Int) (i : Bool)
    (fs : FileSystem) (now : String) (tr : List Event) :
    (runAll schemaStatements
      (State.mk (some (Database.mk h (Conn.mk Data.empty fk l ch))) i fs now k tr)).1
        = Except.ok () ∧
      (runAll schemaStatements
        (State.mk (some (Database.mk h (Conn.mk Data.empty fk l ch))) i fs now k tr)).2.db
        = some (Database.mk h (Conn.mk schemaData fk l ch)) :=
  ⟨rfl, rfl⟩

theorem runAll_trace_sub (l : List Stmt) :
    ∀ (s : State) (e : Event), e ∈ s.trace → e ∈ (runAll l s).2.trace := by
  induction l with
  | nil => intro s e he; exact he
  | cons sql rest ih =>
    intro s e he
    unfold runAll
    cases hdb : s.db with
    | none => exact he
    | some db =>
      simp only
      cases hx : dbRun (s.emit (Event.dbRun sql)) db sql with
      | error err =>
        simp only [State.emit, List.mem_append]
        exact Or.inl he
      | ok s1 =>
        simp only
        apply ih
        unfold dbRun at hx
        cases hy : db.conn.exec (s.emit (Event.dbRun sql)).now sql with
        | error err => simp [hy] at hx
        | ok out =>
          simp only [hy, Except.ok.injEq] at hx
          subst hx
          simp only [State.emit, List.mem_append]
          exact Or.inl he

theorem saveDatabase_trace_sub (s : State) (e : Event) (he : e ∈ s.trace) :
    e ∈ (saveDatabase s).trace := by
  unfold saveDatabase
  cases hdb : s.db with
  | none => exact he
  | some db =>
    simp only [State.emit, FileSystem.write, Conn.export]
    split_ifs <;> simp [he]

/-- What the `try`/`catch` block does when the file exists and reading it
throws. -/
theorem loadOrCreate_fallback (s : State) (b : Bytes) (hf : s.fs.file = some b)
    (hthrow : s.fs.readFails = true) :
    loadOrCreate s =
      ((((s.emit Event.fsExists).emit Event.fsRead).emit
        (Event.consoleError "Database load error:")).newDatabase (Conn.onData Data.empty)) := by
  unfold loadOrCreate
  simp [State.emit, hf, hthrow]

set_option maxHeartbeats 1000000 in
/-- When the backing file exists and reading it throws, a first `initDatabase`
logs the error, goes on with a new empty database, creates the schema on it and
returns that database with `initialized` set. -/
theorem initDatabase_recovers_from_read_failure (s : State) (b : Bytes)
    (hi : s.initialized = false) (hf : s.fs.file = some b)
    (hthrow : s.fs.readFails = true) :
    ∃ db, (initDatabase s).1 = Except.ok (some db) ∧ (initDatabase s).2.db = some db ∧
      (initDatabase s).2.initialized = true ∧ db.handle = s.nextHandle ∧
      db.conn.data = schemaData ∧
      Event.consoleError "Database load error:" ∈ (initDatabase s).2.trace := by
  obtain ⟨db0, init0, fs0, now0, nh, tr⟩ := s
  simp only at hi hf hthrow
  subst hi
  have hl := loadOrCreate_fallback (State.mk db0 false fs0 now0 nh tr) b hf hthrow
  obtain ⟨h1, h2⟩ := runAll_schema_on_empty nh (nh + 1) true 0 0 false fs0 now0
    (((((tr ++ [Event.fsExists]) ++ [Event.fsRead]) ++
      [Event.consoleError "Database load error:"]) ++ [Event.newDatabase]) ++
      [Event.dbRun (Stmt.pragmaForeignKeys true)])
  have hp : runAll [Stmt.pragmaForeignKeys true] (loadOrCreate (State.mk db0 false fs0 now0 nh tr))
      = (Except.ok (), (State.mk (some (Database.mk nh (Conn.mk Data.empty true 0 0))) false fs0 now0 (nh + 1)
        (((((tr ++ [Event.fsExists]) ++ [Event.fsRead]) ++
          [Event.consoleError "Database load error:"]) ++ [Event.newDatabase]) ++
          [Event.dbRun (Stmt.pragmaForeignKeys true)]))) := by
    rw [hl]
    rfl
  have hc : createTables (State.mk (some (Database.mk nh (Conn.mk Data.empty true 0 0))) false fs0 now0 (nh + 1)
        (((((tr ++ [Event.fsExists]) ++ [Event.fsRead]) ++
          [Event.consoleError "Database load error:"]) ++ [Event.newDatabase]) ++
          [Event.dbRun (Stmt.pragmaForeignKeys true)]))
      = (Except.ok (), ((runAll schemaStatements (State.mk (some (Database.mk nh (Conn.mk Data.empty true 0 0))) false fs0 now0 (nh + 1)
        (((((tr ++ [Event.fsExists]) ++ [Event.fsRead]) ++
          [Event.consoleError "Database load error:"]) ++ [Event.newDatabase]) ++
          [Event.dbRun (Stmt.pragmaForeignKeys true)]))).2).emit
          (Event.consoleLog "All tables created successfully")) := by
    unfold createTables
    generalize runAll schemaStatements _ = res at h1 ⊢
    obtain ⟨r, s3⟩ := res
    simp only at h1
    subst h1
    rfl
  have hinit : initDatabase (State.mk db0 false fs0 now0 nh tr)
      = (Except.ok (saveDatabase ((runAll schemaStatements (State.mk (some (Database.mk nh (Conn.mk Data.empty true 0 0))) false fs0 now0 (nh + 1)
        (((((tr ++ [Event.fsExists]) ++ [Event.fsRead]) ++
          [Event.consoleError "Database load error:"]) ++ [Event.newDatabase]) ++
          [Event.dbRun (Stmt.pragmaForeignKeys true)]))).2.emit
          (Event.consoleLog "All tables created successfully"))).db,
      { saveDatabase ((runAll schemaStatements (State.mk (some (Database.mk nh (Conn.mk Data.empty true 0 0))) false fs0 now0 (nh + 1)
        (((((tr ++ [Event.fsExists]) ++ [Event.fsRead]) ++
          [Event.consoleError "Database load error:"]) ++ [Event.newDatabase]) ++
          [Event.dbRun (Stmt.pragmaForeignKeys true)]))).2.emit
          (Event.consoleLog "All tables created successfully")) with initialized := true }) := by
    unfold initDatabase
    simp only [hp, hc]
  have hsave := saveDatabase_db ((runAll schemaStatements (State.mk (some (Database.mk nh (Conn.mk Data.empty true 0 0))) false fs0 now0 (nh + 1)
        (((((tr ++ [Event.fsExists]) ++ [Event.fsRead]) ++
          [Event.consoleError "Database load error:"]) ++ [Event.newDatabase]) ++
          [Event.dbRun (Stmt.pragmaForeignKeys true)]))).2.emit
          (Event.consoleLog "All tables created successfully"))
    (Database.mk nh (Conn.mk schemaData true 0 0)) h2
  rw [hinit]
  refine ⟨Database.mk nh (Conn.onData schemaData), ?_, ?_, ?_, ?_, ?_, ?_⟩
  · exact congrArg Except.ok hsave
  · exact hsave
  · exact rfl
  · exact rfl
  · exact rfl
  apply saveDatabase_trace_sub
  simp only [State.emit, List.mem_append]
  refine Or.inl ?_
  exact runAll_trace_sub schemaStatements _ (Event.consoleError "Database load error:")
    (by simp)

/-- A first `initDatabase` on a disk whose file cannot be read recovers. -/
theorem initDatabase_recovers_from_read_failure_witness :
    (State.fresh unreadableDisk "2024-01-01 00:00:00").initialized = false ∧
      (State.fresh unreadableDisk "2024-01-01 00:00:00").fs.file
        = some (Bytes.image Data.empty) ∧
      (State.fresh unreadableDisk "2024-01-01 00:00:00").fs.readFails = true ∧
      ∃ db, (initDatabase (State.fresh unreadableDisk "2024-01-01 00:00:00")).1
          = Except.ok (some db) ∧
        (initDatabase (State.fresh unreadableDisk "2024-01-01 00:00:00")).2.db = some db ∧
        (initDatabase (State.fresh unreadableDisk "2024-01-01 00:00:00")).2.initialized = true ∧
        db.handle = (State.fresh unreadableDisk "2024-01-01 00:00:00").nextHandle ∧
        db.conn.data = schemaData ∧
        Event.consoleError "Database load error:"
          ∈ (initDatabase (State.fresh unreadableDisk "2024-01-01 00:00:00")).2.trace :=
  ⟨rfl, rfl, rfl, initDatabase_recovers_from_read_failure
    (State.fresh unreadableDisk "2024-01-01 00:00:00") (Bytes.image Data.empty) rfl rfl rfl⟩

/-- C12 (code bug): on a backing file whose bytes are no database, nothing
throws inside the `try` block of `initDatabase`: the file is read, the database
object is constructed and `Loaded existing database` is logged. The engine
raises `file is not a database` at the first `CREATE TABLE` of `createTables`,
after the `catch`: `initDatabase` throws, nothing is written and `initialized`
stays unset, so the next call throws again. -/
theorem initDatabase_throws_on_corrupt_file :
    corruptDisk.file = some Bytes.garbage ∧ corruptDisk.readFails = false ∧
      (initDatabase (State.fresh corruptDisk "2024-01-01 00:00:00")).1
        = Except.error (JsError.engine "file is not a database") ∧
      (initDatabase (State.fresh corruptDisk "2024-01-01 00:00:00")).2.initialized = false ∧
      (initDatabase (State.fresh corruptDisk "2024-01-01 00:00:00")).2.fs = corruptDisk ∧
      (initDatabase (State.fresh corruptDisk "2024-01-01 00:00:00")).2.trace
        = [Event.fsExists, Event.fsRead, Event.newDatabase,
            Event.consoleLog "Loaded existing database",
            Event.dbRun (Stmt.pragmaForeignKeys true),
            Event.dbRun (Stmt.createTable usersDef)] ∧
      (initDatabase (initDatabase (State.fresh corruptDisk "2024-01-01 00:00:00")).2).1
        = Except.error (JsError.engine "file is not a database") := by
  refine ⟨rfl, rfl, rfl, rfl, rfl, rfl, rfl⟩

/-! ## Errors -/

/-- C13 (counterexample): two different statements that the engine rejects for
the same reason make `run` and `query` throw the same error, which therefore
does not carry the statement. -/
theorem rejected_statements_throw_same_error :
    insertUser "alice@example.com" ≠ registerUser "alice@example.com" ∧
      (run (insertUser "alice@example.com") withAlice).1
        = Except.error (JsError.engine "UNIQUE constraint failed: users") ∧
      (run (registerUser "alice@example.com") withAlice).1
        = Except.error (JsError.engine "UNIQUE constraint failed: users") ∧
      (query (insertUser "alice@example.com") withAlice).1
        = (query (registerUser "alice@example.com") withAlice).1 := by
  refine ⟨by decide, rfl, rfl, rfl⟩

/-- C13 (amended): when the engine rejects a statement, `query` and `run` throw
the error of the engine as it is, so that the caller gets the message of the
engine; the statement is only written to the console, next to that message
(`console.error` with `Query error:` or `Run error:`). -/
theorem rejected_statement_error (sql : Stmt) (s : State) (msg : String)
    (h : s.rejection sql = some msg) :
    (query sql s).1 = Except.error (JsError.engine msg) ∧
      (run sql s).1 = Except.error (JsError.engine msg) ∧
      Event.consoleErrorSql "Query error:" sql msg ∈ (query sql s).2.trace ∧
      Event.consoleErrorSql "Run error:" sql msg ∈ (run sql s).2.trace := by
  obtain ⟨db, e, hdb, hx, rfl⟩ := (rejection_iff s sql msg).1 h
  rw [query_exec_error sql s db e hdb hx, run_exec_error sql s db e hdb hx]
  refine ⟨rfl, rfl, ?_, ?_⟩ <;> simp [State.emit]

/-- Witness of C13 (amended): a second insert of the user alice. -/
theorem rejected_statement_error_witness :
    withAlice.rejection (insertUser "alice@example.com")
        = some "UNIQUE constraint failed: users" ∧
      ((query (insertUser "alice@example.com") withAlice).1
          = Except.error (JsError.engine "UNIQUE constraint failed: users") ∧
        (run (insertUser "alice@example.com") withAlice).1
          = Except.error (JsError.engine "UNIQUE constraint failed: users") ∧
        Event.consoleErrorSql "Query error:" (insertUser "alice@example.com")
            "UNIQUE constraint failed: users"
          ∈ (query (insertUser "alice@example.com") withAlice).2.trace ∧
        Event.consoleErrorSql "Run error:" (insertUser "alice@example.com")
            "UNIQUE constraint failed: users"
          ∈ (run (insertUser "alice@example.com") withAlice).2.trace) :=
  ⟨rfl, rejected_statement_error (insertUser "alice@example.com") withAlice
    "UNIQUE constraint failed: users" rfl⟩

/-- C14: when the engine rejects the statement, `run` throws, the database is
as before (no row of any table changes), the backing file is as before, and the
only effects are the call of the engine and the log of the error: the database
is not exported and the file is not written. -/
theorem failed_run_changes_nothing (sql : Stmt) (s : State) (msg : String)
    (h : s.rejection sql = some msg) :
    (run sql s).1 = Except.error (JsError.engine msg) ∧ (run sql s).2.db = s.db ∧
      (run sql s).2.fs = s.fs ∧
      (run sql s).2.trace
        = s.trace ++ [Event.dbRun sql, Event.consoleErrorSql "Run error:" sql msg] := by
  obtain ⟨db, e, hdb, hx, rfl⟩ := (rejection_iff s sql msg).1 h
  rw [run_exec_error sql s db e hdb hx]
  refine ⟨rfl, rfl, rfl, ?_⟩
  simp [State.emit]

/-- Witness of C14: an incident of a type outside the enumeration. -/
theorem failed_run_changes_nothing_witness :
    withAlice.rejection (insertIncident "explosion" "high" 1)
        = some "NOT NULL or CHECK constraint failed: incidents" ∧
      ((run (insertIncident "explosion" "high" 1) withAlice).1
          = Except.error (JsError.engine "NOT NULL or CHECK constraint failed: incidents") ∧
        (run (insertIncident "explosion" "high" 1) withAlice).2.db = withAlice.db ∧
        (run (insertIncident "explosion" "high" 1) withAlice).2.fs = withAlice.fs ∧
        (run (insertIncident "explosion" "high" 1) withAlice).2.trace
          = withAlice.trace ++ [Event.dbRun (insertIncident "explosion" "high" 1),
              Event.consoleErrorSql "Run error:" (insertIncident "explosion" "high" 1)
                "NOT NULL or CHECK constraint failed: incidents"]) :=
  ⟨rfl, failed_run_changes_nothing (insertIncident "explosion" "high" 1) withAlice
    "NOT NULL or CHECK constraint failed: incidents" rfl⟩

/-! ## Indexes and enumerations of the schema -/

/-- C16 (counterexample): `incidents.reporter_id` is declared as a foreign key
and `createTables` creates no index on it. -/
theorem reporter_id_has_no_index :
    ("incidents", "reporter_id") ∈ foreignKeyColumns ∧
      ("incidents", "reporter_id") ∉ indexedColumns ∧
      started.db.map (fun db => db.conn.data.indexes) = some schemaIndexes := by
  refine ⟨by decide, by decide, rfl⟩

/-- C16 (amended): `createTables` creates exactly ten indexes: on `users.email`,
on the filter columns `users.role`, `incidents.status`, `incidents.severity`,
`incidents.type`, `photos.phase`, `training_modules.category` and
`documents.category`, and on the foreign-key columns `training_progress.user_id`
and `audit_logs.user_id`, the only two of the nine foreign-key columns with an
index. -/
theorem createTables_indexes :
    indexedColumns = [("users", "email"), ("users", "role"), ("incidents", "status"),
        ("incidents", "severity"), ("incidents", "type"), ("photos", "phase"),
        ("training_modules", "category"), ("training_progress", "user_id"),
        ("documents", "category"), ("audit_logs", "user_id")] ∧
      foreignKeyColumns = [("incidents", "reporter_id"), ("incidents", "assigned_to"),
        ("photos", "incident_id"), ("photos", "uploaded_by"),
        ("training_modules", "created_by"), ("training_progress", "user_id"),
        ("training_progress", "module_id"), ("documents", "uploaded_by"),
        ("audit_logs", "user_id")] ∧
      foreignKeyColumns.filter (fun p => decide (p ∈ indexedColumns))
        = [("training_progress", "user_id"), ("audit_logs", "user_id")] ∧
      started.db.map (fun db => db.conn.data.indexes) = some schemaIndexes := by
  refine ⟨rfl, rfl, by decide, rfl⟩

/-- C17 (counterexample): `photos.phase` is an enumerated column, and an insert
that binds NULL to it is accepted: the stored row has NULL in `phase`, a value
the data model does not list. -/
theorem null_phase_is_stored :
    ("photos", "phase", ["pre", "during", "post"]) ∈ schemaChecks ∧
      returned (run insertPhotoWithoutPhase started).1 = true ∧
      ((run insertPhotoWithoutPhase started).2.rowsOf "photos").map (fun r => Row.col r "phase")
        = [Value.null] := by
  refine ⟨by decide, rfl, rfl⟩

/-- C17 (amended): the `CHECK (col IN (...))` constraints declared by
`createTables` are those of the eight enumerated columns, each with exactly the
texts the data model lists for it. Such a constraint admits NULL besides the
listed texts and nothing else; three of the eight columns are also declared
`NOT NULL`, and a column admits NULL exactly when it is not. -/
theorem schema_enumerations_match_data_model :
    schemaChecks = dataModelEnums ∧
      (∀ (l : List String) (v : Value),
        checkPasses (some l) v = true ↔ v = Value.null ∨ ∃ x ∈ l, v = Value.text x) ∧
      enumeratedNotNull
        = [("incidents", "type"), ("incidents", "severity"), ("documents", "category")] ∧
      (∀ (c : Column) (l : List String) (v : Value), c.check = some l →
        (c.admits v = true ↔
          (v = Value.null ∧ c.notNull = false) ∨ ∃ x ∈ l, v = Value.text x)) := by
  refine ⟨rfl, ?_, rfl, ?_⟩
  · intro l v
    cases v with
    | null => simp [checkPasses]
    | int n => simp [checkPasses]
    | text x => simp [checkPasses]
  · intro c l v hc
    unfold Column.admits
    rw [hc]
    cases v with
    | null => cases hn : c.notNull <;> simp [checkPasses]
    | int n => simp [checkPasses]
    | text x => simp [checkPasses]

/-! ## Statement text of the list handlers -/

theorem placeholders_append (a b : String) :
    placeholders (a ++ b) = placeholders a + placeholders b := by
  simp [placeholders, String.data_append]

/-- The placeholders of the text and the parameters are as many. -/
theorem balanced_filter (q : ListQuery) (present : Bool) (clause : String) (p : QueryParam)
    (hq : placeholders q.sql = q.params.length) (hc : placeholders clause = 1) :
    placeholders (q.filter present clause p).sql = (q.filter present clause p).params.length := by
  unfold ListQuery.filter
  cases present with
  | false => simpa using hq
  | true => simp [placeholders_append, hq, hc]

theorem balanced_finish (q : ListQuery) (clause : String) (ps : List QueryParam)
    (hq : placeholders q.sql = q.params.length) (hc : placeholders clause = ps.length) :
    placeholders (q.finish clause ps).sql = (q.finish clause ps).params.length := by
  simp [ListQuery.finish, placeholders_append, hq, hc]

theorem filter_sql (q : ListQuery) (present : Bool) (clause : String) (p : QueryParam) :
    (q.filter present clause p).sql = if present then q.sql ++ clause else q.sql := by
  unfold ListQuery.filter
  cases present <;> rfl

/-- C15: in each of the four list handlers the statement text is determined by
which filters are present (truthy; for `is_required`, not `undefined`): two
requests with the same present filters get the same text, whatever the values
of the filters, of `limit` and of `offset`; and the text has as many `?`
placeholders as `params` has elements. -/
theorem list_statement_text_ignores_values
    (f1 f2 f3 limit offset g1 g2 g3 limit1 offset1 : QueryValue)
    (h1 : f1.truthy = g1.truthy) (h2 : f2.truthy = g2.truthy) (h3 : f3.truthy = g3.truthy)
    (hu : f2 = QueryValue.undefined ↔ g2 = QueryValue.undefined) :
    (incidentsList f1 f2 f3 limit offset).sql = (incidentsList g1 g2 g3 limit1 offset1).sql ∧
      (photosList f1 f2 limit offset).sql = (photosList g1 g2 limit1 offset1).sql ∧
      (documentsList f1 limit).sql = (documentsList g1 limit1).sql ∧
      (modulesList f1 f2 limit).sql = (modulesList g1 g2 limit1).sql ∧
      placeholders (incidentsList f1 f2 f3 limit offset).sql
        = (incidentsList f1 f2 f3 limit offset).params.length ∧
      placeholders (photosList f1 f2 limit offset).sql
        = (photosList f1 f2 limit offset).params.length ∧
      placeholders (documentsList f1 limit).sql = (documentsList f1 limit).params.length ∧
      placeholders (modulesList f1 f2 limit).sql
        = (modulesList f1 f2 limit).params.length := by
  refine ⟨?_, ?_, ?_, ?_, ?_, ?_, ?_, ?_⟩
  · simp only [incidentsList, ListQuery.finish, filter_sql, h1, h2, h3]
  · simp only [photosList, ListQuery.finish, filter_sql, h1, h2]
  · simp only [documentsList, ListQuery.finish, filter_sql, h1]
  · have : decide (f2 ≠ QueryValue.undefined) = decide (g2 ≠ QueryValue.undefined) := by
      by_cases h : f2 = QueryValue.undefined
      · simp [h, hu.1 h]
      · have hg : g2 ≠ QueryValue.undefined := fun hh => h (hu.2 hh)
        simp [h, hg]
    simp only [modulesList, ListQuery.finish, filter_sql, h1, this]
  · unfold incidentsList
    apply balanced_finish
    · apply balanced_filter
      · apply balanced_filter
        · apply balanced_filter
          · rfl
          · rfl
        · rfl
      · rfl
    · rfl
  · unfold photosList
    apply balanced_finish
    · apply balanced_filter
      · apply balanced_filter
        · rfl
        · rfl
      · rfl
    · rfl
  · unfold documentsList
    apply balanced_finish
    · apply balanced_filter
      · rfl
      · rfl
    · rfl
  · unfold modulesList
    apply balanced_finish
    · apply balanced_filter
      · apply balanced_filter
        · rfl
        · rfl
      · rfl
    · rfl

/-- Witness of C15: two requests that differ in every value. -/
theorem list_statement_text_ignores_values_witness :
    (QueryValue.str "resolved").truthy = (QueryValue.str "x OR 1=1").truthy ∧
      (incidentsList (QueryValue.str "resolved") QueryValue.undefined (QueryValue.str "fire")
          QueryValue.undefined QueryValue.undefined).sql
        = (incidentsList (QueryValue.str "x OR 1=1") QueryValue.undefined
          (QueryValue.list ["a", "b"]) (QueryValue.str "10") (QueryValue.str "5")).sql ∧
      (incidentsList (QueryValue.str "resolved") QueryValue.undefined (QueryValue.str "fire")
          QueryValue.undefined QueryValue.undefined).sql
        = "SELECT * FROM incidents WHERE 1=1 AND status = ? AND type = ?" ++
          " ORDER BY created_at DESC LIMIT ? OFFSET ?" ∧
      placeholders (incidentsList (QueryValue.str "resolved") QueryValue.undefined
          (QueryValue.str "fire") QueryValue.undefined QueryValue.undefined).sql = 4 :=
  ⟨rfl,
    (list_statement_text_ignores_values (QueryValue.str "resolved") QueryValue.undefined
      (QueryValue.str "fire") QueryValue.undefined QueryValue.undefined
      (QueryValue.str "x OR 1=1") QueryValue.undefined (QueryValue.list ["a", "b"])
      (QueryValue.str "10") (QueryValue.str "5") rfl rfl rfl (by simp)).1,
    by decide, by decide⟩

/-! ## Progress records -/

/-- C18 (defect): after alice has started module 1, a progress update whose body
holds the string "50" passes the range check, and the record is stored with
progress 50 and status `completed`: the statement compares the bound text with
100, and a text is above any number. -/
theorem string_progress_marks_completed :
    (trainingStarted.rowsOf "training_progress").map
        (fun r => (Row.col r "progress", Row.col r "status"))
        = [(Value.int 0, Value.text "in_progress")] ∧
      (updateProgress alice "1" (JsValue.str "50") trainingStarted).1
        = { status := 200, text := "Progress updated" } ∧
      ((updateProgress alice "1" (JsValue.str "50") trainingStarted).2.rowsOf
        "training_progress").map (fun r => (Row.col r "progress", Row.col r "status"))
        = [(Value.int 50, Value.text "completed")] := by
  refine ⟨rfl, rfl, rfl⟩

/-- C19 (counterexample): after alice has completed module 1, a progress update
to 50 leaves the record with status `in_progress` and the completion time of
the earlier completion. -/
theorem lowered_progress_keeps_completion_time :
    ((completeTraining alice "1" (JsValue.num 90) trainingStarted).2.rowsOf
        "training_progress").map (fun r => (Row.col r "status", Row.col r "completed_at"))
        = [(Value.text "completed", Value.text "2024-01-01 00:00:00")] ∧
      (updateProgress alice "1" (JsValue.num 50)
        (completeTraining alice "1" (JsValue.num 90) trainingStarted).2).1
        = { status := 200, text := "Progress updated" } ∧
      ((updateProgress alice "1" (JsValue.num 50)
        (completeTraining alice "1" (JsValue.num 90) trainingStarted).2).2.rowsOf
        "training_progress").map (fun r => (Row.col r "status", Row.col r "completed_at"))
        = [(Value.text "in_progress", Value.text "2024-01-01 00:00:00")] := by
  refine ⟨rfl, rfl, rfl⟩

/-- C24 (defect): a progress update whose body holds `null` passes the range
check (`null < 0` and `null > 100` are false) and stores NULL as progress. -/
theorem null_progress_is_stored :
    (updateProgress alice "1" JsValue.null trainingStarted).1
        = { status := 200, text := "Progress updated" } ∧
      ((updateProgress alice "1" JsValue.null trainingStarted).2.rowsOf
        "training_progress").map (fun r => Row.col r "progress") = [Value.null] ∧
      (updateProgress alice "1" (JsValue.str "abc") trainingStarted).1
        = { status := 200, text := "Progress updated" } ∧
      ((updateProgress alice "1" (JsValue.str "abc") trainingStarted).2.rowsOf
        "training_progress").map (fun r => Row.col r "progress") = [Value.text "abc"] := by
  refine ⟨rfl, rfl, rfl, rfl⟩

/-- C30 (defect): a completion with score 0 stores NULL as score (`score || null`
takes 0 for absent), both when the record exists and when the call creates it. -/
theorem zero_score_is_stored_as_null :
    (completeTraining alice "1" (JsValue.num 0) trainingStarted).1
        = { status := 200, text := "Training completed!" } ∧
      ((completeTraining alice "1" (JsValue.num 0) trainingStarted).2.rowsOf
        "training_progress").map (fun r => Row.col r "score") = [Value.null] ∧
      (completeTraining alice "1" (JsValue.num 0) trainingBase).1
        = { status := 200, text := "Training completed!" } ∧
      ((completeTraining alice "1" (JsValue.num 0) trainingBase).2.rowsOf
        "training_progress").map (fun r => Row.col r "score") = [Value.null] ∧
      ((completeTraining alice "1" (JsValue.num 85) trainingBase).2.rowsOf
        "training_progress").map (fun r => Row.col r "score") = [Value.int 85] := by
  refine ⟨rfl, rfl, rfl, rfl, rfl⟩

/-! ## Incidents -/

/-- C20 (counterexample): an incident resolved at one time and marked resolved
again later gets the later time as `resolved_at`. -/
theorem resolved_again_restamps :
    (incidentResolved.rowsOf "incidents").map
        (fun r => (Row.col r "status", Row.col r "resolved_at"))
        = [(Value.text "resolved", Value.text "2024-01-01 00:00:00")] ∧
      (patchIncidentStatus "1" (JsValue.str "resolved")
        (incidentResolved.later "2024-02-01 00:00:00")).1
        = { status := 200, text := "Status updated" } ∧
      ((patchIncidentStatus "1" (JsValue.str "resolved")
        (incidentResolved.later "2024-02-01 00:00:00")).2.rowsOf "incidents").map
        (fun r => (Row.col r "status", Row.col r "resolved_at"))
        = [(Value.text "resolved", Value.text "2024-02-01 00:00:00")] := by
  refine ⟨rfl, rfl, rfl⟩

/-- C21 (defect): a `PUT /api/incidents/1` whose body holds only `status` fails:
the absent fields are `undefined`, which sql.js refuses to bind, so `run`
throws, the handler answers 500 and the incident keeps its status. -/
theorem partial_incident_update_fails :
    (incidentBase.rowsOf "incidents").map (fun r => Row.col r "status")
        = [Value.text "reported"] ∧
      (putIncident "1" (statusOnlyBody "investigating") incidentBase).1
        = { status := 500, text := "Failed to update incident" } ∧
      ((putIncident "1" (statusOnlyBody "investigating") incidentBase).2.rowsOf
        "incidents").map (fun r => Row.col r "status") = [Value.text "reported"] := by
  refine ⟨rfl, rfl, rfl⟩

/-- C27 (defect): a manager who deletes an incident gets 200 and the incident
is gone. -/
theorem manager_deletes_incident :
    (office.rowsOf "users").map (fun r => (Row.col r "id", Row.col r "role"))
        = [(Value.int 1, Value.text "employee"), (Value.int manager.id, manager.role),
          (Value.int 3, Value.text "admin")] ∧
      (office.rowsOf "incidents").length = 1 ∧
      (deleteIncident manager "1" office).1 = { status := 200, text := "Incident deleted" } ∧
      (deleteIncident manager "1" office).2.rowsOf "incidents" = [] := by
  refine ⟨rfl, rfl, rfl, rfl⟩

/-! ## Users -/

/-- C22 (counterexample): an insert into `users` that binds NULL to `role` is
accepted through `run`, and the row is stored without role. -/
theorem user_stored_without_role :
    returned (run insertUserWithoutRole started).1 = true ∧
      ((run insertUserWithoutRole started).2.rowsOf "users").map (fun r => Row.col r "role")
        = [Value.null] := by
  refine ⟨rfl, rfl⟩

/-- C28 (defect): the employee alice makes herself an admin with
`PUT /api/users/1` and a body that holds the role `admin`. -/
theorem employee_sets_own_role :
    (incidentBase.rowsOf "users").map (fun r => (Row.col r "id", Row.col r "role"))
        = [(Value.int 1, Value.text "employee")] ∧
      (putUser alice "1" (roleBody "admin") incidentBase).1
        = { status := 200, text := "User updated" } ∧
      ((putUser alice "1" (roleBody "admin") incidentBase).2.rowsOf "users").map
        (fun r => (Row.col r "id", Row.col r "role"))
        = [(Value.int 1, Value.text "admin")] := by
  refine ⟨rfl, rfl, rfl⟩

/-! ## Completion rate -/

/-- C29 (code bug): with one active user and no active module the route of
`training.js` divides by zero and reports NaN, or Infinity when a completed
record exists, where the route of `dashboard.js`, which also tests the number
of modules, reports 0. -/
theorem training_rate_divides_by_zero :
    trainingCompletionRate 1 0 0 = JsNumber.nan ∧
      dashboardCompletionRate 1 0 0 = JsNumber.int 0 ∧
      trainingCompletionRate 1 0 2 = JsNumber.infinity ∧
      dashboardCompletionRate 1 0 2 = JsNumber.int 0 := by
  refine ⟨rfl, rfl, rfl, rfl⟩

/-- With an active module, or without active user, the two routes compute the
same rate, which is 0 without active user. -/
theorem completion_rates_agree_elsewhere (users modules completions : Nat)
    (h : 0 < modules ∨ users = 0) :
    trainingCompletionRate users modules completions
        = dashboardCompletionRate users modules completions ∧
      (users = 0 → dashboardCompletionRate users modules completions = JsNumber.int 0) := by
  refine ⟨?_, ?_⟩
  · unfold trainingCompletionRate dashboardCompletionRate
    rcases h with h | h
    · by_cases hu : users > 0
      · simp [hu, h]
      · simp [hu]
    · simp [h]
  · intro hu
    simp [dashboardCompletionRate, hu]

/-- The rate is the rounding of doubles that JavaScript performs, and neither
route caps it: 23 of 40 give 57, and two completed records on one user and one
module give 200. -/
theorem completion_rate_values :
    dashboardCompletionRate 8 5 23 = JsNumber.int 57 ∧
      trainingCompletionRate 8 5 23 = JsNumber.int 57 ∧
      dashboardCompletionRate 3 2 3 = JsNumber.int 50 ∧
      trainingCompletionRate 1 1 2 = JsNumber.int 200 ∧
      dashboardCompletionRate 1 1 2 = JsNumber.int 200 := by
  refine ⟨rfl, rfl, rfl, rfl, rfl⟩

/-! ## Roles -/

/-- C26: the middleware of `requireRole(roles)` answers 401 when no user is
attached to the request, answers 403 when the role of the user is not one of
the strings of `roles` (a role that is no string is none of them), and calls
`next()` when it is one of them; it calls `next()` in no other case. So an
employee is refused where only `admin` is listed, and a manager passes where
`admin` and `manager` are. -/
theorem requireRole_outcome (roles : List String) (user : Option User) :
    (user = none → requireRole roles user = Outcome.respond ⟨401, "Unauthorized"⟩) ∧
      (∀ u r, user = some u → u.role = Value.text r → r ∉ roles →
        requireRole roles user = Outcome.respond ⟨403, "Forbidden"⟩) ∧
      (∀ u, user = some u → (∀ r, u.role ≠ Value.text r) →
        requireRole roles user = Outcome.respond ⟨403, "Forbidden"⟩) ∧
      (∀ u r, user = some u → u.role = Value.text r → r ∈ roles →
        requireRole roles user = Outcome.next) ∧
      (requireRole roles user = Outcome.next ↔
        ∃ u r, user = some u ∧ u.role = Value.text r ∧ r ∈ roles) ∧
      requireRole ["admin"] none = Outcome.respond ⟨401, "Unauthorized"⟩ ∧
      requireRole ["admin"] (some alice) = Outcome.respond ⟨403, "Forbidden"⟩ ∧
      requireRole ["admin"] (some manager) = Outcome.respond ⟨403, "Forbidden"⟩ ∧
      requireRole ["admin", "manager"] (some manager) = Outcome.next ∧
      requireRole ["admin"] (some adminUser) = Outcome.next ∧
      requireRole ["admin"] (some { id := 4, role := Value.null })
        = Outcome.respond ⟨403, "Forbidden"⟩ := by
  refine ⟨?_, ?_, ?_, ?_, ?_, rfl, rfl, rfl, rfl, rfl, rfl⟩
  · intro h
    rw [h]
    rfl
  · intro u r hu hr hn
    rw [hu]
    simp [requireRole, rolesInclude, hr, hn]
  · intro u hu hr
    rw [hu]
    cases hv : u.role with
    | null => simp [requireRole, rolesInclude, hv]
    | int n => simp [requireRole, rolesInclude, hv]
    | text r => exact absurd hv (hr r)
  · intro u r hu hr hm
    rw [hu]
    simp [requireRole, rolesInclude, hr, hm]
  · cases user with
    | none => simp [requireRole]
    | some u =>
      cases hv : u.role with
      | null => simp [requireRole, rolesInclude, hv]
      | int n => simp [requireRole, rolesInclude, hv]
      | text r =>
        by_cases hm : r ∈ roles
        · simp [requireRole, rolesInclude, hv, hm]
        · simp [requireRole, rolesInclude, hv, hm]

/-! ## Engine facts: the rows a statement leaves -/

theorem eq_true_of_not_bnot (b : Bool) (h : ¬ ((!b) = true)) : b = true := by
  cases b
  · exact absurd rfl h
  · rfl

theorem findTable_setTable_same (d : Data) (t t1 : Table) (n : String)
    (h : d.findTable n = some t) (hn : t1.defn.name = n) :
    (d.setTable t1).findTable n = some t1 := by
  unfold Data.findTable at h ⊢
  rw [tables_setTable]
  generalize d.tables = tables at h ⊢
  induction tables with
  | nil => simp at h
  | cons u rest ih =>
    simp only [List.map_cons]
    by_cases hu : u.defn.name = n
    · have h1 : u.defn.name = t1.defn.name := by rw [hu, hn]
      rw [if_pos h1]
      simp [List.find?_cons, hn]
    · have h1 : ¬ u.defn.name = t1.defn.name := by rw [hn]; exact hu
      rw [if_neg h1]
      rw [List.find?_cons] at h ⊢
      simp only [hu, decide_False] at h ⊢
      exact ih h

theorem findTable_setTable_other (d : Data) (t1 : Table) (n : String)
    (hn : t1.defn.name ≠ n) : (d.setTable t1).findTable n = d.findTable n := by
  unfold Data.findTable
  rw [tables_setTable]
  generalize d.tables = tables
  induction tables with
  | nil => rfl
  | cons u rest ih =>
    simp only [List.map_cons]
    by_cases hu : u.defn.name = t1.defn.name
    · rw [if_pos hu]
      have h1 : ¬ u.defn.name = n := by rw [hu]; exact hn
      rw [List.find?_cons, List.find?_cons]
      simp only [hn, h1, decide_False]
      exact ih
    · rw [if_neg hu]
      rw [List.find?_cons, List.find?_cons]
      by_cases h2 : u.defn.name = n
      · simp [h2]
      · simp only [h2, decide_False]
        exact ih

/-- What a successful INSERT stores: one new row at the end of the table, which
meets the `NOT NULL` and `CHECK` constraints of every column. -/
theorem insert_data (c c1 : Conn) (now table : String) (cols : List String)
    (vals : List Value) (h : c.insert now table cols vals = Except.ok c1) :
    ∃ t id, c.data.findTable table = some t ∧
      c1.data = c.data.setTable
        { t with rows := t.rows ++ [buildRow t.defn id cols vals now], seq := max t.seq id } ∧
      (∀ cd ∈ t.defn.columns,
        cd.admits (Row.col (buildRow t.defn id cols vals now) cd.name) = true) := by
  unfold Conn.insert at h
  cases ht : c.data.findTable table with
  | none => rw [ht] at h; cases h
  | some t =>
    rw [ht] at h
    simp only at h
    by_cases h1 : cols.length ≠ vals.length
    · rw [if_pos h1] at h; cases h
    rw [if_neg h1] at h
    by_cases h2 : (!(cols.all (fun k => t.defn.hasColumn k))) = true
    · rw [if_pos h2] at h; cases h
    rw [if_neg h2] at h
    cases hid : chooseRowid t cols vals with
    | error e => rw [hid] at h; cases h
    | ok id =>
      rw [hid] at h
      simp only at h
      unfold Conn.storeRow at h
      by_cases h3 : (!(t.defn.columns.all
          (fun cd => cd.admits (Row.col (buildRow t.defn id cols vals now) cd.name)))) = true
      · rw [if_pos h3] at h; cases h
      rw [if_neg h3] at h
      by_cases h4 : t.violatesUnique (buildRow t.defn id cols vals now) = true
      · rw [if_pos h4] at h; cases h
      rw [if_neg h4] at h
      by_cases h5 : (c.foreignKeys &&
          !(fkParentsExist c.data t.defn (buildRow t.defn id cols vals now))) = true
      · rw [if_pos h5] at h; cases h
      rw [if_neg h5] at h
      cases h
      refine ⟨t, id, rfl, rfl, ?_⟩
      have h3a := eq_true_of_not_bnot _ h3
      simp only [List.all_eq_true] at h3a
      exact h3a

/-- What a successful UPDATE stores: the rows that meet the conditions are
replaced by their updated versions, which meet the `NOT NULL` and `CHECK`
constraints of every assigned column. -/
theorem update_data (c c1 : Conn) (now table : String) (sets : List (String × Expr))
    (conds : List (String × Value)) (h : c.update now table sets conds = Except.ok c1) :
    ∃ t, c.data.findTable table = some t ∧
      c1.data = c.data.setTable { t with rows := t.updatedRows now sets conds } ∧
      (∀ r ∈ t.rows, matchesAll conds r = true → ∀ cd ∈ t.defn.columns,
        assigns sets cd.name = true →
          cd.admits (Row.col (updateRow now sets r) cd.name) = true) := by
  unfold Conn.update at h
  cases ht : c.data.findTable table with
  | none => rw [ht] at h; cases h
  | some t =>
    rw [ht] at h
    simp only at h
    by_cases h1 : (!(sets.all (fun kv =>
        t.defn.columns.any (fun cd => decide (cd.name = kv.1))))) = true
    · rw [if_pos h1] at h; cases h
    rw [if_neg h1] at h
    by_cases h2 : (!(sets.all (fun kv =>
        (Expr.columns kv.2).all (fun k => t.defn.hasColumn k)))) = true
    · rw [if_pos h2] at h; cases h
    rw [if_neg h2] at h
    by_cases h3 : (!(conds.all (fun kv => t.defn.hasColumn kv.1))) = true
    · rw [if_pos h3] at h; cases h
    rw [if_neg h3] at h
    unfold Conn.storeUpdate at h
    by_cases h4 : (!((t.changedRows now sets conds).all (fun r =>
        (t.defn.columns.filter (fun cd => assigns sets cd.name)).all
          (fun cd => cd.admits (Row.col r cd.name))))) = true
    · rw [if_pos h4] at h; cases h
    rw [if_neg h4] at h
    split_ifs at h
    cases h
    refine ⟨t, rfl, rfl, ?_⟩
    intro r hr hm cd hcd ha
    have h4a := eq_true_of_not_bnot _ h4
    simp only [List.all_eq_true, Table.changedRows, List.mem_map, List.mem_filter,
      forall_exists_index, and_imp] at h4a
    exact h4a _ r hr hm rfl cd hcd ha

theorem col_updateRow_of_mem (clock : String) (sets : List (String × Expr)) (r : Row)
    (k : String) (e : Expr) (hn : (sets.map Prod.fst).Nodup) (hm : (k, e) ∈ sets) :
    Row.col (updateRow clock sets r) k = Expr.eval clock r e := by
  unfold Row.col updateRow
  rw [get_foldl_set_mem _ _ k (Expr.eval clock r e)]
  · rfl
  · simpa [List.map_map, Function.comp] using hn
  · exact List.mem_map.2 ⟨(k, e), hm, rfl⟩

theorem col_updateRow_of_not_mem (clock : String) (sets : List (String × Expr)) (r : Row)
    (k : String) (hk : k ∉ sets.map Prod.fst) :
    Row.col (updateRow clock sets r) k = Row.col r k := by
  unfold Row.col updateRow
  rw [get_foldl_set_absent]
  simpa [List.map_map, Function.comp] using hk

/-! ## Module facts: the content after `get` and `run` -/

theorem map_ok {ε α β : Type} (f : α → β) (x : Except ε α) (y : β)
    (h : Except.map f x = Except.ok y) : ∃ a, x = Except.ok a ∧ y = f a := by
  cases x with
  | error e => cases h
  | ok a => cases h; exact ⟨a, rfl, rfl⟩

theorem exec_reads (c : Conn) (now : String) (sql : Stmt) (out : ResultSet × Conn)
    (hr : sql.reads = true) (h : c.exec now sql = Except.ok out) : out.2 = c := by
  replace h := (exec_ok _ _ _ _ h).1
  cases sql <;> simp only [Stmt.reads] at hr <;> try cases hr
  all_goals simp only [Conn.apply] at h
  · obtain ⟨a, _, rfl⟩ := map_ok _ _ _ h; rfl
  · obtain ⟨a, _, rfl⟩ := map_ok _ _ _ h; rfl
  · cases h; rfl
  · cases h; rfl
  · obtain ⟨a, _, rfl⟩ := map_ok _ _ _ h; rfl

theorem query_reads (sql : Stmt) (s : State) (hr : sql.reads = true) :
    (query sql s).2.db = s.db ∧ (query sql s).2.now = s.now := by
  cases hdb : s.db with
  | none => rw [query_no_db sql s hdb]; exact ⟨hdb, rfl⟩
  | some db =>
    cases he : db.conn.exec s.now sql with
    | error e => rw [query_exec_error sql s db e hdb he]; exact ⟨hdb, rfl⟩
    | ok out =>
      rw [query_exec_ok sql s db out hdb he]
      have hc := exec_reads _ _ _ _ hr he
      rw [hc]
      exact ⟨rfl, rfl⟩

theorem get_reads (sql : Stmt) (s : State) (hr : sql.reads = true) :
    (get sql s).2.db = s.db ∧ (get sql s).2.now = s.now := by
  rw [get_state]
  exact query_reads sql s hr

/-- The content of the database after `run`: unchanged when `run` throws, else
the content the engine makes of it. -/
theorem run_data (sql : Stmt) (s : State) :
    (run sql s).2.now = s.now ∧
      ((returned (run sql s).1 = false ∧ (run sql s).2.data = s.data) ∨
        (∃ db out, s.db = some db ∧ db.conn.exec s.now sql = Except.ok out ∧
          returned (run sql s).1 = true ∧ (run sql s).2.data = some out.2.data)) := by
  cases hdb : s.db with
  | none =>
    rw [run_no_db sql s hdb]
    exact ⟨rfl, Or.inl ⟨rfl, rfl⟩⟩
  | some db =>
    cases he : db.conn.exec s.now sql with
    | error e =>
      rw [run_exec_error sql s db e hdb he]
      exact ⟨rfl, Or.inl ⟨rfl, rfl⟩⟩
    | ok out =>
      rw [run_exec_ok sql s db out hdb he]
      refine ⟨?_, Or.inr ⟨db, out, rfl, he, rfl, ?_⟩⟩
      · simp only [State.emit]
        exact (saveDatabase_flags _).2.2.1
      · simp only [State.data, State.emit]
        rw [saveDatabase_db _ { db with conn := out.2 } rfl]
        rfl

theorem rowsOf_data (s : State) (table : String) :
    s.rowsOf table = match s.data with
      | none => []
      | some d => match d.findTable table with
        | none => []
        | some t => t.rows := by
  unfold State.rowsOf State.data
  cases s.db <;> rfl

theorem rowsOf_congr (s s1 : State) (table : String) (h : s1.data = s.data) :
    s1.rowsOf table = s.rowsOf table := by
  rw [rowsOf_data, rowsOf_data, h]

theorem data_of_db (s s1 : State) (h : s1.db = s.db) : s1.data = s.data := by
  unfold State.data
  rw [h]

/-! ## Module facts: the rows after a statement of a handler -/

theorem status_500_ne_200 : (500 : Nat) ≠ 200 := by decide

theorem status_404_ne_200 : (404 : Nat) ≠ 200 := by decide

theorem status_400_ne_200 : (400 : Nat) ≠ 200 := by decide

theorem status_403_ne_200 : (403 : Nat) ≠ 200 := by decide

theorem rowsOf_of_findTable (s : State) (db : Database) (table : String) (t : Table)
    (hdb : s.db = some db) (ht : db.conn.data.findTable table = some t) :
    s.rowsOf table = t.rows ∧ s.tableDef table = some t.defn := by
  unfold State.rowsOf State.tableDef
  rw [hdb]
  simp [ht]

theorem rowsOf_of_data (s : State) (d : Data) (table : String) (t : Table)
    (hd : s.data = some d) (ht : d.findTable table = some t) :
    s.rowsOf table = t.rows ∧ s.tableDef table = some t.defn := by
  unfold State.data at hd
  cases hdb : s.db with
  | none => rw [hdb] at hd; cases hd
  | some db =>
    rw [hdb] at hd
    simp only [Option.map_some', Option.some.injEq] at hd
    rw [← hd] at ht
    exact rowsOf_of_findTable s db table t hdb ht

theorem tableDef_congr (s s1 : State) (table : String) (h : s1.data = s.data) :
    s1.tableDef table = s.tableDef table := by
  unfold State.data at h
  unfold State.tableDef
  cases h1 : s1.db <;> cases h2 : s.db <;> rw [h1, h2] at h <;> simp at h ⊢
  rw [h]

/-- The rows of the tables after an UPDATE the engine accepted. -/
theorem rows_after_update (s s1 : State) (db : Database) (out : ResultSet × Conn)
    (now table : String) (sets : List (String × Expr)) (conds : List (String × Value))
    (hdb : s.db = some db)
    (he : db.conn.exec now (Stmt.update table sets conds) = Except.ok out)
    (hd : s1.data = some out.2.data) :
    s1.rowsOf table = (s.rowsOf table).map
        (fun r => if matchesAll conds r then updateRow now sets r else r) ∧
      s1.tableDef table = s.tableDef table ∧
      (∃ td, s.tableDef table = some td ∧
        ∀ r ∈ s.rowsOf table, matchesAll conds r = true → ∀ cd ∈ td.columns,
          assigns sets cd.name = true →
            cd.admits (Row.col (updateRow now sets r) cd.name) = true) ∧
      (∀ other, other ≠ table →
        s1.rowsOf other = s.rowsOf other ∧ s1.tableDef other = s.tableDef other) := by
  replace he := (exec_ok _ _ _ _ he).1
  simp only [Conn.apply] at he
  obtain ⟨c1, hu, rfl⟩ := map_ok _ _ _ he
  obtain ⟨t, ht, hdata, hadm⟩ := update_data _ _ _ _ _ _ hu
  simp only at hd
  rw [hdata] at hd
  have hname := findTable_some_name _ _ _ ht
  have h0 := rowsOf_of_findTable s db table t hdb ht
  have h1 := rowsOf_of_data s1 _ table _ hd
    (findTable_setTable_same _ t { t with rows := t.updatedRows now sets conds } table ht hname)
  refine ⟨?_, ?_, ⟨t.defn, h0.2, ?_⟩, ?_⟩
  · rw [h1.1, h0.1]
    rfl
  · rw [h1.2, h0.2]
  · rw [h0.1]
    exact hadm
  · intro other ho
    have hne : ({ t with rows := t.updatedRows now sets conds } : Table).defn.name ≠ other := by
      simp only [hname]
      exact fun h => ho h.symm
    have hf := findTable_setTable_other db.conn.data
      { t with rows := t.updatedRows now sets conds } other hne
    unfold State.data at hd
    cases hdb1 : s1.db with
    | none => rw [hdb1] at hd; cases hd
    | some db1 =>
      rw [hdb1] at hd
      simp only [Option.map_some', Option.some.injEq] at hd
      unfold State.rowsOf State.tableDef
      rw [hdb1, hdb]
      simp [hd, hf]

/-- The rows of the tables after an INSERT the engine accepted. -/
theorem rows_after_insert (s s1 : State) (db : Database) (out : ResultSet × Conn)
    (now table : String) (cols : List String) (exprs : List Expr)
    (hdb : s.db = some db)
    (he : db.conn.exec now (Stmt.insertExprs table cols exprs) = Except.ok out)
    (hd : s1.data = some out.2.data) :
    (∃ td id, s.tableDef table = some td ∧
      s1.rowsOf table = s.rowsOf table ++
        [buildRow td id cols (exprs.map (Expr.eval now [])) now] ∧
      ∀ cd ∈ td.columns, cd.admits
        (Row.col (buildRow td id cols (exprs.map (Expr.eval now [])) now) cd.name) = true) ∧
      s1.tableDef table = s.tableDef table ∧
      (∀ other, other ≠ table →
        s1.rowsOf other = s.rowsOf other ∧ s1.tableDef other = s.tableDef other) := by
  replace he := (exec_ok _ _ _ _ he).1
  simp only [Conn.apply] at he
  obtain ⟨c1, hu, rfl⟩ := map_ok _ _ _ he
  unfold Conn.insertExprs at hu
  split_ifs at hu
  obtain ⟨t, id, ht, hdata, hadm⟩ := insert_data _ _ _ _ _ _ hu
  simp only at hd
  rw [hdata] at hd
  have hname := findTable_some_name _ _ _ ht
  have h0 := rowsOf_of_findTable s db table t hdb ht
  have h1 := rowsOf_of_data s1 _ table _ hd
    (findTable_setTable_same _ t
      (Table.mk t.defn (t.rows ++ [buildRow t.defn id cols (exprs.map (Expr.eval now [])) now])
        (max t.seq id)) table ht hname)
  refine ⟨⟨t.defn, id, h0.2, ?_, hadm⟩, ?_, ?_⟩
  · rw [h1.1, h0.1]
  · rw [h1.2, h0.2]
  · intro other ho
    have hne : (Table.mk t.defn
        (t.rows ++ [buildRow t.defn id cols (exprs.map (Expr.eval now [])) now])
        (max t.seq id)).defn.name ≠ other := by
      simp only [hname]
      exact fun h => ho h.symm
    have hf := findTable_setTable_other db.conn.data _ other hne
    unfold State.data at hd
    cases hdb1 : s1.db with
    | none => rw [hdb1] at hd; cases hd
    | some db1 =>
      rw [hdb1] at hd
      simp only [Option.map_some', Option.some.injEq] at hd
      unfold State.rowsOf State.tableDef
      rw [hdb1, hdb]
      simp [hd, hf]

theorem putIncident_data (id : String) (b : IncidentBody) (s : State) :
    ((putIncident id b s).1.status ≠ 200 ∧ (putIncident id b s).2.data = s.data) ∨
      (∃ db out, s.db = some db ∧ db.conn.exec s.now (incidentUpdate id b) = Except.ok out ∧
        (putIncident id b s).1.status = 200 ∧ (putIncident id b s).2.data = some out.2.data) := by
  unfold putIncident
  have hg := get_reads (Stmt.select "incidents" "id" (idParam id)) s rfl
  generalize get (Stmt.select "incidents" "id" (idParam id)) s = g at hg ⊢
  obtain ⟨r, s1⟩ := g
  simp only at hg
  cases r with
  | error e => exact Or.inl ⟨status_500_ne_200, data_of_db _ _ hg.1⟩
  | ok o =>
    cases o with
    | none => exact Or.inl ⟨status_404_ne_200, data_of_db _ _ hg.1⟩
    | some row =>
      simp only
      have hr := run_data (incidentUpdate id b) s1
      generalize run (incidentUpdate id b) s1 = g2 at hr ⊢
      obtain ⟨r2, s2⟩ := g2
      simp only at hr
      cases r2 with
      | error e =>
        rcases hr.2 with ⟨_, hd⟩ | ⟨db, out, _, _, hret, _⟩
        · exact Or.inl ⟨status_500_ne_200, hd.trans (data_of_db _ _ hg.1)⟩
        · cases hret
      | ok res =>
        rcases hr.2 with ⟨hret, _⟩ | ⟨db, out, hdb, he, _, hd⟩
        · cases hret
        · rw [hg.1] at hdb
          rw [hg.2] at he
          exact Or.inr ⟨db, out, hdb, he, rfl, hd⟩

theorem patchIncidentStatus_data (id : String) (status : JsValue) (s : State) :
    ((patchIncidentStatus id status s).1.status ≠ 200 ∧
        (patchIncidentStatus id status s).2.data = s.data) ∨
      (∃ db out, s.db = some db ∧
        db.conn.exec s.now (statusUpdate id status) = Except.ok out ∧
        (patchIncidentStatus id status s).1.status = 200 ∧
        (patchIncidentStatus id status s).2.data = some out.2.data) := by
  unfold patchIncidentStatus
  have hg := get_reads (Stmt.select "incidents" "id" (idParam id)) s rfl
  generalize get (Stmt.select "incidents" "id" (idParam id)) s = g at hg ⊢
  obtain ⟨r, s1⟩ := g
  simp only at hg
  cases r with
  | error e => exact Or.inl ⟨status_500_ne_200, data_of_db _ _ hg.1⟩
  | ok o =>
    cases o with
    | none => exact Or.inl ⟨status_404_ne_200, data_of_db _ _ hg.1⟩
    | some row =>
      simp only
      have hr := run_data (statusUpdate id status) s1
      generalize run (statusUpdate id status) s1 = g2 at hr ⊢
      obtain ⟨r2, s2⟩ := g2
      simp only at hr
      cases r2 with
      | error e =>
        rcases hr.2 with ⟨_, hd⟩ | ⟨db, out, _, _, hret, _⟩
        · exact Or.inl ⟨status_500_ne_200, hd.trans (data_of_db _ _ hg.1)⟩
        · cases hret
      | ok res =>
        rcases hr.2 with ⟨hret, _⟩ | ⟨db, out, hdb, he, _, hd⟩
        · cases hret
        · rw [hg.1] at hdb
          rw [hg.2] at he
          exact Or.inr ⟨db, out, hdb, he, rfl, hd⟩

theorem bindValue_resolved (v : JsValue) (st : Value) (h : bindValue v = some st) :
    Value.sqlEq st (Value.text "resolved") = true ↔ v = JsValue.str "resolved" := by
  cases v with
  | undefined => cases h
  | null => cases h; simp [Value.sqlEq]
  | bool x => cases h; simp [Value.sqlEq]
  | num n => cases h; simp [Value.sqlEq]
  | str x =>
    cases h
    simp only [Value.sqlEq, decide_eq_true_eq, Value.text.injEq, JsValue.str.injEq]

/-- The `resolved_at` values after an UPDATE that assigns the column with
`CASE WHEN ? = ''resolved'' THEN datetime(''now'') ELSE resolved_at END`. -/
theorem resolved_at_after_update (s s1 : State) (db : Database) (out : ResultSet × Conn)
    (sets : List (String × Expr)) (conds : List (String × Value)) (v : JsValue) (st : Value)
    (hdb : s.db = some db)
    (he : db.conn.exec s.now (Stmt.update "incidents" sets conds) = Except.ok out)
    (hd : s1.data = some out.2.data) (hst : bindValue v = some st)
    (hn : (sets.map Prod.fst).Nodup)
    (hm : ("resolved_at", Expr.caseEq (Expr.val st) (Expr.val (Value.text "resolved"))
      Expr.now (Expr.col "resolved_at")) ∈ sets) :
    (s1.rowsOf "incidents").map (fun r => Row.col r "resolved_at") =
      (s.rowsOf "incidents").map (fun r =>
        if v = JsValue.str "resolved" ∧ matchesAll conds r = true then Value.text s.now
        else Row.col r "resolved_at") := by
  rw [(rows_after_update s s1 db out s.now "incidents" sets conds hdb he hd).1, List.map_map]
  apply List.map_congr_left
  intro r _
  simp only [Function.comp]
  by_cases hmatch : matchesAll conds r = true
  · rw [if_pos hmatch, col_updateRow_of_mem _ _ _ _ _ hn hm]
    simp only [Expr.eval]
    by_cases hv : v = JsValue.str "resolved"
    · rw [if_pos ((bindValue_resolved v st hst).2 hv), if_pos ⟨hv, hmatch⟩]
    · rw [if_neg (fun h => hv ((bindValue_resolved v st hst).1 h)), if_neg (fun h => hv h.1)]
  · rw [if_neg hmatch, if_neg (fun h => hmatch h.2)]

theorem incidentUpdate_cases (id : String) (b : IncidentBody) :
    incidentUpdate id b = Stmt.bindFailure "undefined" ∨
      ∃ sets st, bindValue b.status = some st ∧
        incidentUpdate id b = Stmt.update "incidents" sets [("id", idParam id)] ∧
        (sets.map Prod.fst).Nodup ∧
        ("resolved_at", Expr.caseEq (Expr.val st) (Expr.val (Value.text "resolved"))
          Expr.now (Expr.col "resolved_at")) ∈ sets := by
  unfold incidentUpdate
  cases h1 : bindValue b.title with
  | none => left; simp [bindAll, h1]
  | some x1 =>
  cases h2 : bindValue b.description with
  | none => left; simp [bindAll, h1, h2]
  | some x2 =>
  cases h3 : bindValue b.status with
  | none => left; simp [bindAll, h1, h2, h3]
  | some x3 =>
  cases h4 : bindValue b.severity with
  | none => left; simp [bindAll, h1, h2, h3, h4]
  | some x4 =>
  cases h5 : bindValue b.assigned_to with
  | none => left; simp [bindAll, h1, h2, h3, h4, h5]
  | some x5 =>
  cases h6 : bindValue b.corrective_actions with
  | none => left; simp [bindAll, h1, h2, h3, h4, h5, h6]
  | some x6 =>
  cases h7 : bindValue b.resolution_notes with
  | none => left; simp [bindAll, h1, h2, h3, h4, h5, h6, h7]
  | some x7 =>
    right
    simp only [bindAll, h1, h2, h3, h4, h5, h6, h7]
    refine ⟨_, x3, rfl, rfl, by simp, ?_⟩
    simp

/-- C20 (amended): a `PUT /api/incidents/:id` or `PATCH /api/incidents/:id/status`
gives `resolved_at` the current time in the incident it updates exactly when it
answers 200 and the status it was sent is `resolved`, whatever the status of
the incident was before; in every other case, and in every other incident,
`resolved_at` keeps its value. -/
theorem resolved_at_follows_sent_status (id : String) (b : IncidentBody) (status : JsValue)
    (s : State) :
    ((putIncident id b s).2.rowsOf "incidents").map (fun r => Row.col r "resolved_at") =
        (s.rowsOf "incidents").map (fun r =>
          if (putIncident id b s).1.status = 200 ∧ b.status = JsValue.str "resolved" ∧
              matchesAll [("id", idParam id)] r = true then Value.text s.now
          else Row.col r "resolved_at") ∧
      ((patchIncidentStatus id status s).2.rowsOf "incidents").map
          (fun r => Row.col r "resolved_at") =
        (s.rowsOf "incidents").map (fun r =>
          if (patchIncidentStatus id status s).1.status = 200 ∧
              status = JsValue.str "resolved" ∧
              matchesAll [("id", idParam id)] r = true then Value.text s.now
          else Row.col r "resolved_at") := by
  constructor
  · rcases putIncident_data id b s with ⟨hne, hd⟩ | ⟨db, out, hdb, he, h200, hd⟩
    · rw [rowsOf_congr _ _ _ hd]
      apply List.map_congr_left
      intro r _
      rw [if_neg (fun h => hne h.1)]
    · rcases incidentUpdate_cases id b with hf | ⟨sets, st, hst, hu, hn, hm⟩
      · rw [hf] at he
        replace he := (exec_ok _ _ _ _ he).1
        simp [Conn.apply] at he
      · rw [hu] at he
        rw [resolved_at_after_update s _ db out sets _ b.status st hdb he hd hst hn hm]
        apply List.map_congr_left
        intro r _
        simp only [h200, true_and]
  · rcases patchIncidentStatus_data id status s with ⟨hne, hd⟩ | ⟨db, out, hdb, he, h200, hd⟩
    · rw [rowsOf_congr _ _ _ hd]
      apply List.map_congr_left
      intro r _
      rw [if_neg (fun h => hne h.1)]
    · unfold statusUpdate at he
      cases hst : bindValue status with
      | none =>
        rw [hst] at he
        replace he := (exec_ok _ _ _ _ he).1
        simp [Conn.apply] at he
      | some st =>
        rw [hst] at he
        simp only at he
        rw [resolved_at_after_update s _ db out _ _ status st hdb he hd hst (by simp)
          (by simp)]
        apply List.map_congr_left
        intro r _
        simp only [h200, true_and]

/-! ## Engine and module facts: statements that succeed -/

theorem get_selectWhere (s : State) (db : Database) (table : String) (cols : List String)
    (conds : List (String × Value)) (t : Table) (hdb : s.db = some db)
    (ht : db.conn.data.findTable table = some t)
    (hcols : cols.all (fun k => t.defn.hasColumn k) = true)
    (hconds : conds.all (fun kv => t.defn.hasColumn kv.1) = true) :
    (get (Stmt.selectWhere table cols conds) s).1 =
      Except.ok (((t.rows.filter (fun r => matchesAll conds r)).map
        (fun r => getAsObject cols (cols.map (Row.col r)))).head?) := by
  have hexec : db.conn.exec s.now (Stmt.selectWhere table cols conds) =
      Except.ok (ResultSet.mk cols ((t.rows.filter (fun r => matchesAll conds r)).map
        (fun r => cols.map (Row.col r))), db.conn) := by
    rw [exec_eq_apply _ _ _ (not_garbage_of_findTable _ _ _ ht)]
    simp only [Conn.apply, Conn.selectWhere, ht, hcols, hconds]
    rfl
  unfold get
  rw [query_exec_ok _ s db _ hdb hexec]
  simp only [stepLoop_eq, List.nil_append, List.map_map]
  cases hl : List.map (getAsObject cols ∘ fun r => cols.map (Row.col r))
      (t.rows.filter (fun r => matchesAll conds r)) with
  | nil =>
    simp only [Function.comp] at hl ⊢
    rw [show (List.map (fun r => getAsObject cols (cols.map (Row.col r)))
      (t.rows.filter (fun r => matchesAll conds r))) = [] from hl]
    rfl
  | cons o rest =>
    simp only [Function.comp] at hl ⊢
    rw [show (List.map (fun r => getAsObject cols (cols.map (Row.col r)))
      (t.rows.filter (fun r => matchesAll conds r))) = o :: rest from hl]
    rfl

/-- Conditions under which the engine accepts an UPDATE. -/
theorem update_ok (c : Conn) (now table : String) (sets : List (String × Expr))
    (conds : List (String × Value)) (t : Table) (ht : c.data.findTable table = some t)
    (h1 : sets.all (fun kv => t.defn.columns.any (fun cd => decide (cd.name = kv.1))) = true)
    (h2 : sets.all (fun kv => (Expr.columns kv.2).all (fun k => t.defn.hasColumn k)) = true)
    (h3 : conds.all (fun kv => t.defn.hasColumn kv.1) = true)
    (h4 : ∀ r ∈ t.rows, matchesAll conds r = true → ∀ cd ∈ t.defn.columns,
      assigns sets cd.name = true →
        cd.admits (Row.col (updateRow now sets r) cd.name) = true)
    (h5 : t.defn.uniqueSets.filter (fun keys => keys.any (fun k => assigns sets k)) = [])
    (h6 : t.defn.foreignKeys.filter (fun fk => assigns sets fk.column) = []) :
    ∃ c1, c.update now table sets conds = Except.ok c1 := by
  unfold Conn.update
  rw [ht]
  simp only [h1, h2, h3, Bool.not_true, Bool.false_eq_true, if_false]
  unfold Conn.storeUpdate
  have h4a : (t.changedRows now sets conds).all (fun r =>
      (t.defn.columns.filter (fun cd => assigns sets cd.name)).all
        (fun cd => cd.admits (Row.col r cd.name))) = true := by
    simp only [List.all_eq_true, Table.changedRows, List.mem_map, List.mem_filter,
      forall_exists_index, and_imp]
    intro r1 r hr hm hr1 cd hcd ha
    rw [← hr1]
    exact h4 r hr hm cd hcd ha
  rw [h4a, h5, h6]
  simp [fkParentsExist]

/-! ## Users: deactivation -/

theorem deleteUserHandler_data (user : User) (id : String) (s : State) :
    ((deleteUserHandler user id s).1.status ≠ 200 ∧
        (deleteUserHandler user id s).2.data = s.data) ∨
      (∃ db out, s.db = some db ∧
        db.conn.exec s.now (deactivateUpdate id) = Except.ok out ∧
        (deleteUserHandler user id s).1.status = 200 ∧
        (deleteUserHandler user id s).2.data = some out.2.data) := by
  unfold deleteUserHandler
  by_cases hself : decide (parseInt id = some user.id) = true
  · rw [if_pos hself]
    exact Or.inl ⟨status_400_ne_200, rfl⟩
  rw [if_neg hself]
  have hg := get_reads (Stmt.selectWhere "users" ["id"] [("id", idParam id)]) s rfl
  generalize get (Stmt.selectWhere "users" ["id"] [("id", idParam id)]) s = g at hg ⊢
  obtain ⟨r, s1⟩ := g
  simp only at hg
  cases r with
  | error e => exact Or.inl ⟨status_500_ne_200, data_of_db _ _ hg.1⟩
  | ok o =>
    cases o with
    | none => exact Or.inl ⟨status_404_ne_200, data_of_db _ _ hg.1⟩
    | some row =>
      simp only
      have hr := run_data (deactivateUpdate id) s1
      generalize run (deactivateUpdate id) s1 = g2 at hr ⊢
      obtain ⟨r2, s2⟩ := g2
      simp only at hr
      cases r2 with
      | error e =>
        rcases hr.2 with ⟨_, hd⟩ | ⟨db, out, _, _, hret, _⟩
        · exact Or.inl ⟨status_500_ne_200, hd.trans (data_of_db _ _ hg.1)⟩
        · cases hret
      | ok res =>
        rcases hr.2 with ⟨hret, _⟩ | ⟨db, out, hdb, he, _, hd⟩
        · cases hret
        · rw [hg.1] at hdb
          rw [hg.2] at he
          exact Or.inr ⟨db, out, hdb, he, rfl, hd⟩

theorem admits_free (cd : Column) (v : Value) (h1 : cd.notNull = false)
    (h2 : cd.check = none) : cd.admits v = true := by
  unfold Column.admits
  rw [h1, h2]
  rfl

theorem deactivate_admitted (now : String) (r : Row) (cd : Column)
    (hcd : cd ∈ usersDef.columns)
    (ha : assigns [("is_active", Expr.val (Value.int 0)), ("updated_at", Expr.now)] cd.name
      = true) :
    cd.admits (Row.col (updateRow now
      [("is_active", Expr.val (Value.int 0)), ("updated_at", Expr.now)] r) cd.name) = true := by
  simp only [usersDef, List.mem_cons, List.mem_singleton, List.not_mem_nil, or_false] at hcd
  rcases hcd with rfl | rfl | rfl | rfl | rfl | rfl | rfl | rfl | rfl | rfl | rfl | rfl
  all_goals first
    | exact admits_free _ _ rfl rfl
    | (exfalso; revert ha; decide)

/-- The handler answers 200 when the target is stored and is not the requester. -/
theorem deleteUserHandler_ok (user : User) (id : String) (s : State)
    (hself : parseInt id ≠ some user.id) (hdef : s.tableDef "users" = some usersDef)
    (hex : ∃ r ∈ s.rowsOf "users", matchesAll [("id", idParam id)] r = true) :
    (deleteUserHandler user id s).1 = { status := 200, text := "User deactivated" } := by
  cases hdb : s.db with
  | none =>
    unfold State.tableDef at hdef
    rw [hdb] at hdef
    cases hdef
  | some db =>
    cases ht : db.conn.data.findTable "users" with
    | none =>
      unfold State.tableDef at hdef
      rw [hdb] at hdef
      simp [ht] at hdef
    | some t =>
      have h0 := rowsOf_of_findTable s db "users" t hdb ht
      rw [h0.2] at hdef
      have hdefn : t.defn = usersDef := Option.some.inj hdef
      rw [h0.1] at hex
      unfold deleteUserHandler
      rw [if_neg (by simpa using hself)]
      have hget := get_selectWhere s db "users" ["id"] [("id", idParam id)] t hdb ht
        (by rw [hdefn]; rfl) (by rw [hdefn]; rfl)
      have hg := get_reads (Stmt.selectWhere "users" ["id"] [("id", idParam id)]) s rfl
      generalize get (Stmt.selectWhere "users" ["id"] [("id", idParam id)]) s = g at hg hget ⊢
      obtain ⟨r, s1⟩ := g
      simp only at hg hget
      subst hget
      cases hf : t.rows.filter (fun r => matchesAll [("id", idParam id)] r) with
      | nil =>
        obtain ⟨r0, hr0, hm0⟩ := hex
        have : r0 ∈ t.rows.filter (fun r => matchesAll [("id", idParam id)] r) :=
          List.mem_filter.2 ⟨hr0, hm0⟩
        rw [hf] at this
        cases this
      | cons r0 rest =>
        simp only [List.map_cons, List.head?_cons]
        obtain ⟨c1, hu⟩ := update_ok db.conn s1.now "users"
          [("is_active", Expr.val (Value.int 0)), ("updated_at", Expr.now)]
          [("id", idParam id)] t ht (by rw [hdefn]; rfl) (by rw [hdefn]; rfl)
          (by rw [hdefn]; rfl)
          (by
            intro r _ _ cd hcd ha
            rw [hdefn] at hcd
            exact deactivate_admitted s1.now r cd hcd ha)
          (by rw [hdefn]; rfl) (by rw [hdefn]; rfl)
        have hexec : db.conn.exec s1.now (deactivateUpdate id) =
            Except.ok (ResultSet.none, c1) := by
          rw [exec_eq_apply _ _ _ (not_garbage_of_findTable _ _ _ ht)]
          simp only [deactivateUpdate, Conn.apply, hu]
          rfl
        rw [run_exec_ok _ s1 db _ (hg.1.trans hdb) hexec]

theorem digitChar_spec (k : Nat) (h : k < 10) :
    (Nat.digitChar k).isDigit = true ∧ (Nat.digitChar k).toNat - 48 = k := by
  interval_cases k <;> exact ⟨rfl, rfl⟩

/-- The decimal digits `Nat.toDigitsCore` puts before the digits it is given
are digits, at least one, and spell the number. -/
theorem toDigitsCore_spec (fuel : Nat) :
    ∀ (n : Nat) (ds : List Char), n < fuel →
      ∃ pre, Nat.toDigitsCore 10 fuel n ds = pre ++ ds ∧ pre ≠ [] ∧
        pre.all Char.isDigit = true ∧
        pre.foldl (fun m c => 10 * m + (c.toNat - 48)) 0 = n := by
  induction fuel with
  | zero => intro n ds h; exact absurd h (Nat.not_lt_zero n)
  | succ fuel ih =>
    intro n ds h
    have hd := digitChar_spec (n % 10) (Nat.mod_lt n (by decide))
    unfold Nat.toDigitsCore
    simp only
    by_cases h0 : n / 10 = 0
    · rw [if_pos h0]
      refine ⟨[Nat.digitChar (n % 10)], rfl, by simp, by simp [hd.1], ?_⟩
      simp only [List.foldl_cons, List.foldl_nil, hd.2]
      have := Nat.div_add_mod n 10
      omega
    · rw [if_neg h0]
      have hlt : n / 10 < fuel := by
        have := Nat.div_add_mod n 10
        omega
      obtain ⟨pre, h1, h2, h3, h4⟩ := ih (n / 10) (Nat.digitChar (n % 10) :: ds) hlt
      refine ⟨pre ++ [Nat.digitChar (n % 10)], ?_, by simp, ?_, ?_⟩
      · rw [h1]
        simp
      · simp [List.all_append, h3, hd.1]
      · rw [List.foldl_append, h4]
        simp only [List.foldl_cons, List.foldl_nil, hd.2]
        have := Nat.div_add_mod n 10
        omega

theorem toString_data (n : Nat) : (toString n).data = Nat.toDigits 10 n := rfl

/-- The decimal text of a natural number spells that number. -/
theorem decimalValue_toString (n : Nat) :
    (toString n).data ≠ [] ∧ (toString n).data.all Char.isDigit = true ∧
      decimalValue (toString n).data = some n := by
  rw [toString_data]
  unfold Nat.toDigits
  obtain ⟨pre, h1, h2, h3, h4⟩ := toDigitsCore_spec (n + 1) n [] (Nat.lt_succ_self n)
  rw [h1, List.append_nil]
  refine ⟨h2, h3, ?_⟩
  unfold decimalValue
  cases pre with
  | nil => exact absurd rfl h2
  | cons c cs =>
    rw [h3]
    simp only [List.isEmpty_cons, Bool.not_true, Bool.or_self, Bool.false_eq_true, if_false]
    rw [h4]

theorem isDigit_ne_sign (c : Char) (h : c.isDigit = true) : c ≠ '-' ∧ c ≠ '+' := by
  constructor
  · rintro rfl
    exact absurd h (by decide)
  · rintro rfl
    exact absurd h (by decide)

theorem signedDecimal_toString (n : Nat) : signedDecimal (toString n).data = some (n : Int) := by
  obtain ⟨h1, h2, h3⟩ := decimalValue_toString n
  generalize (toString n).data = l at h1 h2 h3
  cases l with
  | nil => exact absurd rfl h1
  | cons c cs =>
    have hc : c.isDigit = true := by
      simp only [List.all_cons, Bool.and_eq_true] at h2
      exact h2.1
    obtain ⟨hm, hp⟩ := isDigit_ne_sign c hc
    unfold signedDecimal
    simp only [hm, hp, if_false, h3, Option.map_some']
    rfl

/-- The route parameter that spells the number `n` in decimal is bound as the
integer `n`. -/
theorem idParam_toString (n : Nat) : idParam (toString n) = Value.int (n : Int) := by
  unfold idParam Value.asInteger
  simp only [signedDecimal_toString]

theorem parseInt_toString (n : Nat) : parseInt (toString n) = some (n : Int) := by
  obtain ⟨h1, h2, h3⟩ := decimalValue_toString n
  unfold parseInt
  generalize (toString n).data = l at h1 h2 h3
  cases l with
  | nil => exact absurd rfl h1
  | cons c cs =>
    have hc : c.isDigit = true := by
      simp only [List.all_cons, Bool.and_eq_true] at h2
      exact h2.1
    obtain ⟨hm, hp⟩ := isDigit_ne_sign c hc
    have ht : (c :: cs).takeWhile Char.isDigit = c :: cs := by
      rw [List.takeWhile_eq_self_iff]
      intro x hx
      exact List.all_eq_true.1 h2 x hx
    simp only [hm, hp, if_false, ht, h3, Option.map_some']
    rfl

theorem matches_id_iff (r : Row) (n : Int) :
    matchesAll [("id", Value.int n)] r = true ↔ Row.id r = Value.int n := by
  unfold matchesAll Row.id
  simp only [List.all_cons, List.all_nil, Bool.and_true]
  cases h : Row.col r "id" with
  | null => simp [Value.sqlEq]
  | int m => simp [Value.sqlEq]
  | text t => simp [Value.sqlEq]

/-- For an admin and a route parameter that `parseInt` does not read as the id
of the requester, whatever the parameter spells: no row of `users` is removed or
added, the rows that the `WHERE` clause of the statement selects get 0 in
`is_active`, and every column other than `is_active` and `updated_at` keeps its
value in every row. -/
theorem deleteUser_by_param (user : User) (id : String) (s : State)
    (hadmin : user.role = Value.text "admin") (hself : parseInt id ≠ some user.id)
    (hdef : s.tableDef "users" = some usersDef) :
    ((deleteUser user id s).2.rowsOf "users").length = (s.rowsOf "users").length ∧
      ((deleteUser user id s).2.rowsOf "users").map (fun r => Row.col r "is_active") =
        (s.rowsOf "users").map (fun r =>
          if matchesAll [("id", idParam id)] r then Value.int 0 else Row.col r "is_active") ∧
      (∀ k, k ≠ "is_active" → k ≠ "updated_at" →
        ((deleteUser user id s).2.rowsOf "users").map (fun r => Row.col r k) =
          (s.rowsOf "users").map (fun r => Row.col r k)) ∧
      ((∃ r ∈ s.rowsOf "users", matchesAll [("id", idParam id)] r = true) →
        (deleteUser user id s).1 = { status := 200, text := "User deactivated" }) := by
  have hd : deleteUser user id s = deleteUserHandler user id s := by
    unfold deleteUser requireRole
    simp [hadmin, rolesInclude]
  rw [hd]
  have hrows : ((deleteUserHandler user id s).2.rowsOf "users") =
      (s.rowsOf "users").map (fun r =>
        if matchesAll [("id", idParam id)] r then
          updateRow s.now [("is_active", Expr.val (Value.int 0)), ("updated_at", Expr.now)] r
        else r) := by
    rcases deleteUserHandler_data user id s with ⟨hne, hsame⟩ | ⟨db, out, hdb, he, _, hdata⟩
    · rw [rowsOf_congr _ _ _ hsame]
      by_cases hex : ∃ r ∈ s.rowsOf "users", matchesAll [("id", idParam id)] r = true
      · rw [deleteUserHandler_ok user id s hself hdef hex] at hne
        exact absurd rfl hne
      · symm
        convert List.map_id _ using 1
        apply List.map_congr_left
        intro r hr
        rw [if_neg (fun h => hex ⟨r, hr, h⟩)]
        rfl
    · exact (rows_after_update s _ db out s.now "users" _ _ hdb he hdata).1
  refine ⟨?_, ?_, ?_, deleteUserHandler_ok user id s hself hdef⟩
  · rw [hrows, List.length_map]
  · rw [hrows, List.map_map]
    apply List.map_congr_left
    intro r _
    simp only [Function.comp]
    by_cases hm : matchesAll [("id", idParam id)] r = true
    · rw [if_pos hm, if_pos hm, col_updateRow_of_mem _ _ _ "is_active" (Expr.val (Value.int 0))
        (by simp) (by simp)]
      rfl
    · rw [if_neg hm, if_neg hm]
  · intro k hk1 hk2
    rw [hrows, List.map_map]
    apply List.map_congr_left
    intro r _
    simp only [Function.comp]
    by_cases hm : matchesAll [("id", idParam id)] r = true
    · rw [if_pos hm, col_updateRow_of_not_mem]
      simp [hk1, hk2]
    · rw [if_neg hm]

/-- C23: for an admin who deletes the user with id `n`, another id than their
own, with the table `users` stored as `createTables` declares it: the number of
users rows is unchanged, `is_active` becomes 0 in the row whose id is `n` and
keeps its value in every other row, every column other than `is_active` and
`updated_at` keeps its value in every row, and the response is 200 when a row
with id `n` is stored. -/
theorem deleteUser_deactivates (user : User) (n : Nat) (s : State)
    (hadmin : user.role = Value.text "admin") (hself : (n : Int) ≠ user.id)
    (hdef : s.tableDef "users" = some usersDef) :
    ((deleteUser user (toString n) s).2.rowsOf "users").length = (s.rowsOf "users").length ∧
      ((deleteUser user (toString n) s).2.rowsOf "users").map (fun r => Row.col r "is_active") =
        (s.rowsOf "users").map (fun r =>
          if Row.id r = Value.int (n : Int) then Value.int 0 else Row.col r "is_active") ∧
      (∀ k, k ≠ "is_active" → k ≠ "updated_at" →
        ((deleteUser user (toString n) s).2.rowsOf "users").map (fun r => Row.col r k) =
          (s.rowsOf "users").map (fun r => Row.col r k)) ∧
      ((∃ r ∈ s.rowsOf "users", Row.id r = Value.int (n : Int)) →
        (deleteUser user (toString n) s).1 = { status := 200, text := "User deactivated" }) := by
  have hp : parseInt (toString n) ≠ some user.id := by
    rw [parseInt_toString]
    exact fun h => hself (Option.some.inj h)
  obtain ⟨h1, h2, h3, h4⟩ := deleteUser_by_param user (toString n) s hadmin hp hdef
  rw [idParam_toString] at h2 h4
  refine ⟨h1, ?_, h3, ?_⟩
  · rw [h2]
    apply List.map_congr_left
    intro r _
    by_cases hr : Row.id r = Value.int (n : Int)
    · rw [if_pos ((matches_id_iff r n).2 hr), if_pos hr]
    · rw [if_neg (fun h => hr ((matches_id_iff r n).1 h)), if_neg hr]
  · rintro ⟨r, hr, hid⟩
    exact h4 ⟨r, hr, (matches_id_iff r n).2 hid⟩

/-- Witness of C23: the admin, user 3, deactivates user 2 of the three stored
users; users 1 and 3 stay active. -/
theorem deleteUser_deactivates_witness :
    adminUser.role = Value.text "admin" ∧ ((2 : Nat) : Int) ≠ adminUser.id ∧
      office.tableDef "users" = some usersDef ∧
      (office.rowsOf "users").map (fun r => (Row.id r, Row.col r "is_active")) =
        [(Value.int 1, Value.int 1), (Value.int 2, Value.int 1), (Value.int 3, Value.int 1)] ∧
      ((deleteUser adminUser "2" office).2.rowsOf "users").map
        (fun r => (Row.id r, Row.col r "is_active")) =
        [(Value.int 1, Value.int 1), (Value.int 2, Value.int 0), (Value.int 3, Value.int 1)] ∧
      (((deleteUser adminUser (toString 2) office).2.rowsOf "users").length
          = (office.rowsOf "users").length ∧
        ((deleteUser adminUser (toString 2) office).2.rowsOf "users").map
            (fun r => Row.col r "is_active") =
          (office.rowsOf "users").map (fun r =>
            if Row.id r = Value.int ((2 : Nat) : Int) then Value.int 0
            else Row.col r "is_active") ∧
        (∀ k, k ≠ "is_active" → k ≠ "updated_at" →
          ((deleteUser adminUser (toString 2) office).2.rowsOf "users").map
              (fun r => Row.col r k) =
            (office.rowsOf "users").map (fun r => Row.col r k)) ∧
        ((∃ r ∈ office.rowsOf "users", Row.id r = Value.int ((2 : Nat) : Int)) →
          (deleteUser adminUser (toString 2) office).1
            = { status := 200, text := "User deactivated" })) :=
  ⟨rfl, by decide, rfl, rfl, rfl, deleteUser_deactivates adminUser 2 office rfl (by decide) rfl⟩

/-! ## Progress records: what the handlers write -/

theorem response_ne_of_status (a b : Response) (h : a.status ≠ b.status) : a ≠ b :=
  fun hab => h (by rw [hab])

theorem response_ne_of_text (a b : Response) (h : a.text ≠ b.text) : a ≠ b :=
  fun hab => h (by rw [hab])

theorem already_completed_ne : ("Module already completed" : String) ≠ "Training started" := by
  decide

theorem already_started_ne : ("Module already started" : String) ≠ "Training started" := by
  decide

theorem startTraining_data (user : User) (moduleId : String) (s : State) :
    ((startTraining user moduleId s).1 ≠ { status := 200, text := "Training started" } ∧
        (startTraining user moduleId s).2.data = s.data) ∨
      (∃ db out, s.db = some db ∧
        db.conn.exec s.now (startInsert user moduleId) = Except.ok out ∧
        (startTraining user moduleId s).1 = { status := 200, text := "Training started" } ∧
        (startTraining user moduleId s).2.data = some out.2.data) := by
  unfold startTraining
  have hg := get_reads (Stmt.selectWhere "training_modules" ["id"] [("id", idParam moduleId)])
    s rfl
  generalize get (Stmt.selectWhere "training_modules" ["id"] [("id", idParam moduleId)]) s = g
    at hg ⊢
  obtain ⟨r, s1⟩ := g
  simp only at hg
  cases r with
  | error e => exact Or.inl ⟨response_ne_of_status _ _ status_500_ne_200, data_of_db _ _ hg.1⟩
  | ok o =>
    cases o with
    | none => exact Or.inl ⟨response_ne_of_status _ _ status_404_ne_200, data_of_db _ _ hg.1⟩
    | some row =>
      simp only
      have hg2 := get_reads (Stmt.selectWhere "training_progress" ["id", "status"]
        (progressConds user moduleId)) s1 rfl
      generalize get (Stmt.selectWhere "training_progress" ["id", "status"]
        (progressConds user moduleId)) s1 = g1 at hg2 ⊢
      obtain ⟨r1, s2⟩ := g1
      simp only at hg2
      have hdb2 : s2.db = s.db := hg2.1.trans hg.1
      have hnow2 : s2.now = s.now := hg2.2.trans hg.2
      cases r1 with
      | error e => exact Or.inl ⟨response_ne_of_status _ _ status_500_ne_200, data_of_db _ _ hdb2⟩
      | ok o1 =>
        cases o1 with
        | some existing =>
          simp only
          split_ifs
          · exact Or.inl ⟨response_ne_of_text _ _ already_completed_ne, data_of_db _ _ hdb2⟩
          · exact Or.inl ⟨response_ne_of_text _ _ already_started_ne, data_of_db _ _ hdb2⟩
        | none =>
          simp only
          have hr := run_data (startInsert user moduleId) s2
          generalize run (startInsert user moduleId) s2 = g2 at hr ⊢
          obtain ⟨r2, s3⟩ := g2
          simp only at hr
          cases r2 with
          | error e =>
            rcases hr.2 with ⟨_, hd⟩ | ⟨db, out, _, _, hret, _⟩
            · exact Or.inl ⟨response_ne_of_status _ _ status_500_ne_200, hd.trans (data_of_db _ _ hdb2)⟩
            · cases hret
          | ok res =>
            rcases hr.2 with ⟨hret, _⟩ | ⟨db, out, hdb, he, _, hd⟩
            · cases hret
            · rw [hdb2] at hdb
              rw [hnow2] at he
              exact Or.inr ⟨db, out, hdb, he, rfl, hd⟩

theorem updateProgress_data (user : User) (moduleId : String) (progress : JsValue)
    (s : State) :
    ((updateProgress user moduleId progress s).1.status ≠ 200 ∧
        (updateProgress user moduleId progress s).2.data = s.data) ∨
      (∃ db out, s.db = some db ∧
        db.conn.exec s.now (progressUpdate user moduleId progress) = Except.ok out ∧
        (updateProgress user moduleId progress s).1.status = 200 ∧
        (updateProgress user moduleId progress s).2.data = some out.2.data) := by
  unfold updateProgress
  by_cases hguard : (decide (progress = JsValue.undefined) || progress.lt 0 ||
      progress.gt 100) = true
  · rw [if_pos hguard]
    exact Or.inl ⟨status_400_ne_200, rfl⟩
  rw [if_neg hguard]
  have hg := get_reads (Stmt.selectWhere "training_progress" ["id"]
    (progressConds user moduleId)) s rfl
  generalize get (Stmt.selectWhere "training_progress" ["id"]
    (progressConds user moduleId)) s = g at hg ⊢
  obtain ⟨r, s1⟩ := g
  simp only at hg
  cases r with
  | error e => exact Or.inl ⟨status_500_ne_200, data_of_db _ _ hg.1⟩
  | ok o =>
    cases o with
    | none => exact Or.inl ⟨status_404_ne_200, data_of_db _ _ hg.1⟩
    | some row =>
      simp only
      have hr := run_data (progressUpdate user moduleId progress) s1
      generalize run (progressUpdate user moduleId progress) s1 = g2 at hr ⊢
      obtain ⟨r2, s2⟩ := g2
      simp only at hr
      cases r2 with
      | error e =>
        rcases hr.2 with ⟨_, hd⟩ | ⟨db, out, _, _, hret, _⟩
        · exact Or.inl ⟨status_500_ne_200, hd.trans (data_of_db _ _ hg.1)⟩
        · cases hret
      | ok res =>
        rcases hr.2 with ⟨hret, _⟩ | ⟨db, out, hdb, he, _, hd⟩
        · cases hret
        · rw [hg.1] at hdb
          rw [hg.2] at he
          exact Or.inr ⟨db, out, hdb, he, rfl, hd⟩

theorem completeTraining_data (user : User) (moduleId : String) (score : JsValue)
    (s : State) :
    ((completeTraining user moduleId score s).1.status ≠ 200 ∧
        (completeTraining user moduleId score s).2.data = s.data) ∨
      (∃ db out, s.db = some db ∧
        (db.conn.exec s.now (completeUpdate user moduleId score) = Except.ok out ∨
          db.conn.exec s.now (completeInsert user moduleId score) = Except.ok out) ∧
        (completeTraining user moduleId score s).1.status = 200 ∧
        (completeTraining user moduleId score s).2.data = some out.2.data) := by
  unfold completeTraining
  have hg := get_reads (Stmt.selectWhere "training_progress" ["id"]
    (progressConds user moduleId)) s rfl
  generalize get (Stmt.selectWhere "training_progress" ["id"]
    (progressConds user moduleId)) s = g at hg ⊢
  obtain ⟨r, s1⟩ := g
  simp only at hg
  cases r with
  | error e => exact Or.inl ⟨status_500_ne_200, data_of_db _ _ hg.1⟩
  | ok o =>
    cases o with
    | some row =>
      simp only
      have hr := run_data (completeUpdate user moduleId score) s1
      generalize run (completeUpdate user moduleId score) s1 = g2 at hr ⊢
      obtain ⟨r2, s2⟩ := g2
      simp only at hr
      cases r2 with
      | error e =>
        rcases hr.2 with ⟨_, hd⟩ | ⟨db, out, _, _, hret, _⟩
        · exact Or.inl ⟨status_500_ne_200, hd.trans (data_of_db _ _ hg.1)⟩
        · cases hret
      | ok res =>
        rcases hr.2 with ⟨hret, _⟩ | ⟨db, out, hdb, he, _, hd⟩
        · cases hret
        · rw [hg.1] at hdb
          rw [hg.2] at he
          exact Or.inr ⟨db, out, hdb, Or.inl he, rfl, hd⟩
    | none =>
      simp only
      have hr := run_data (completeInsert user moduleId score) s1
      generalize run (completeInsert user moduleId score) s1 = g2 at hr ⊢
      obtain ⟨r2, s2⟩ := g2
      simp only at hr
      cases r2 with
      | error e =>
        rcases hr.2 with ⟨_, hd⟩ | ⟨db, out, _, _, hret, _⟩
        · exact Or.inl ⟨status_500_ne_200, hd.trans (data_of_db _ _ hg.1)⟩
        · cases hret
      | ok res =>
        rcases hr.2 with ⟨hret, _⟩ | ⟨db, out, hdb, he, _, hd⟩
        · cases hret
        · rw [hg.1] at hdb
          rw [hg.2] at he
          exact Or.inr ⟨db, out, hdb, Or.inr he, rfl, hd⟩

theorem in_progress_ne_completed : Value.text "in_progress" ≠ Value.text "completed" := by
  decide

theorem exec_bindFailure (c : Conn) (now text : String) (out : ResultSet × Conn)
    (h : c.exec now (Stmt.bindFailure text) = Except.ok out) : False := by
  replace h := (exec_ok _ _ _ _ h).1
  simp [Conn.apply] at h

/-- A progress update keeps the invariant: status and completion time are
assigned by the same comparison. -/
theorem progressUpdate_keeps (user : User) (moduleId : String) (progress : JsValue)
    (s s1 : State) (db : Database) (out : ResultSet × Conn) (hdb : s.db = some db)
    (he : db.conn.exec s.now (progressUpdate user moduleId progress) = Except.ok out)
    (hd : s1.data = some out.2.data)
    (hinv : ∀ r ∈ s.rowsOf "training_progress", completedHasDate r) :
    s1.tableDef "training_progress" = s.tableDef "training_progress" ∧
      ∀ r ∈ s1.rowsOf "training_progress", completedHasDate r := by
  unfold progressUpdate at he
  cases hb : bindValue progress with
  | none => rw [hb] at he; exact (exec_bindFailure _ _ _ _ he).elim
  | some p =>
    rw [hb] at he
    simp only at he
    have hrows := rows_after_update s s1 db out s.now "training_progress" _ _ hdb he hd
    refine ⟨hrows.2.1, ?_⟩
    rw [hrows.1]
    intro r1 hr1
    obtain ⟨r, hr, rfl⟩ := List.mem_map.1 hr1
    by_cases hm : matchesAll (progressConds user moduleId) r = true
    · rw [if_pos hm]
      unfold completedHasDate
      rw [col_updateRow_of_mem _ _ _ "status"
          (Expr.caseGe (Expr.val p) (Expr.val (Value.int 100))
            (Expr.val (Value.text "completed")) (Expr.val (Value.text "in_progress")))
          (by simp) (by simp),
        col_updateRow_of_mem _ _ _ "completed_at"
          (Expr.caseGe (Expr.val p) (Expr.val (Value.int 100)) Expr.now
            (Expr.col "completed_at")) (by simp) (by simp)]
      simp only [Expr.eval]
      by_cases hge : Value.sqlGe p (Value.int 100) = true
      · rw [if_pos hge, if_pos hge]
        intro _ h
        cases h
      · rw [if_neg hge, if_neg hge]
        intro h
        exact absurd h in_progress_ne_completed
    · rw [if_neg hm]
      exact hinv r hr

theorem completeUpdate_keeps (user : User) (moduleId : String) (score : JsValue)
    (s s1 : State) (db : Database) (out : ResultSet × Conn) (hdb : s.db = some db)
    (he : db.conn.exec s.now (completeUpdate user moduleId score) = Except.ok out)
    (hd : s1.data = some out.2.data)
    (hinv : ∀ r ∈ s.rowsOf "training_progress", completedHasDate r) :
    s1.tableDef "training_progress" = s.tableDef "training_progress" ∧
      ∀ r ∈ s1.rowsOf "training_progress", completedHasDate r := by
  unfold completeUpdate at he
  cases hb : bindValue score.orNull with
  | none => rw [hb] at he; exact (exec_bindFailure _ _ _ _ he).elim
  | some p =>
    rw [hb] at he
    simp only at he
    have hrows := rows_after_update s s1 db out s.now "training_progress" _ _ hdb he hd
    refine ⟨hrows.2.1, ?_⟩
    rw [hrows.1]
    intro r1 hr1
    obtain ⟨r, hr, rfl⟩ := List.mem_map.1 hr1
    by_cases hm : matchesAll (progressConds user moduleId) r = true
    · rw [if_pos hm]
      unfold completedHasDate
      rw [col_updateRow_of_mem _ _ _ "completed_at" Expr.now (by simp) (by simp)]
      intro _ h
      cases h
    · rw [if_neg hm]
      exact hinv r hr

theorem completeInsert_keeps (user : User) (moduleId : String) (score : JsValue)
    (s s1 : State) (db : Database) (out : ResultSet × Conn) (hdb : s.db = some db)
    (he : db.conn.exec s.now (completeInsert user moduleId score) = Except.ok out)
    (hd : s1.data = some out.2.data)
    (hdef : s.tableDef "training_progress" = some trainingProgressDef)
    (hinv : ∀ r ∈ s.rowsOf "training_progress", completedHasDate r) :
    s1.tableDef "training_progress" = s.tableDef "training_progress" ∧
      ∀ r ∈ s1.rowsOf "training_progress", completedHasDate r := by
  unfold completeInsert at he
  cases hb : bindValue score.orNull with
  | none => rw [hb] at he; exact (exec_bindFailure _ _ _ _ he).elim
  | some p =>
    rw [hb] at he
    simp only at he
    obtain ⟨⟨td, id, htd, hrows, _⟩, hdef1, _⟩ :=
      rows_after_insert s s1 db out s.now "training_progress" _ _ hdb he hd
    refine ⟨hdef1, ?_⟩
    rw [hdef] at htd
    cases htd
    rw [hrows]
    intro r hr
    rcases List.mem_append.1 hr with h | h
    · exact hinv r h
    · rw [List.mem_singleton] at h
      subst h
      intro _ h
      cases h

theorem startInsert_keeps (user : User) (moduleId : String)
    (s s1 : State) (db : Database) (out : ResultSet × Conn) (hdb : s.db = some db)
    (he : db.conn.exec s.now (startInsert user moduleId) = Except.ok out)
    (hd : s1.data = some out.2.data)
    (hdef : s.tableDef "training_progress" = some trainingProgressDef)
    (hinv : ∀ r ∈ s.rowsOf "training_progress", completedHasDate r) :
    s1.tableDef "training_progress" = s.tableDef "training_progress" ∧
      ∀ r ∈ s1.rowsOf "training_progress", completedHasDate r := by
  unfold startInsert at he
  obtain ⟨⟨td, id, htd, hrows, _⟩, hdef1, _⟩ :=
    rows_after_insert s s1 db out s.now "training_progress" _ _ hdb he hd
  refine ⟨hdef1, ?_⟩
  rw [hdef] at htd
  cases htd
  rw [hrows]
  intro r hr
  rcases List.mem_append.1 hr with h | h
  · exact hinv r h
  · rw [List.mem_singleton] at h
    subst h
    intro h
    exact absurd h in_progress_ne_completed

theorem trainingCall_keeps (c : TrainingCall) (s : State)
    (hdef : s.tableDef "training_progress" = some trainingProgressDef)
    (hinv : ∀ r ∈ s.rowsOf "training_progress", completedHasDate r) :
    (c.apply s).tableDef "training_progress" = some trainingProgressDef ∧
      ∀ r ∈ (c.apply s).rowsOf "training_progress", completedHasDate r := by
  cases c with
  | start u m =>
    simp only [TrainingCall.apply]
    rcases startTraining_data u m s with ⟨_, hsame⟩ | ⟨db, out, hdb, he, _, hd⟩
    · rw [tableDef_congr _ _ _ hsame, rowsOf_congr _ _ _ hsame]
      exact ⟨hdef, hinv⟩
    · have h := startInsert_keeps u m s _ db out hdb he hd hdef hinv
      exact ⟨h.1.trans hdef, h.2⟩
  | progress u m p =>
    simp only [TrainingCall.apply]
    rcases updateProgress_data u m p s with ⟨_, hsame⟩ | ⟨db, out, hdb, he, _, hd⟩
    · rw [tableDef_congr _ _ _ hsame, rowsOf_congr _ _ _ hsame]
      exact ⟨hdef, hinv⟩
    · have h := progressUpdate_keeps u m p s _ db out hdb he hd hinv
      exact ⟨h.1.trans hdef, h.2⟩
  | complete u m sc =>
    simp only [TrainingCall.apply]
    rcases completeTraining_data u m sc s with ⟨_, hsame⟩ | ⟨db, out, hdb, he, _, hd⟩
    · rw [tableDef_congr _ _ _ hsame, rowsOf_congr _ _ _ hsame]
      exact ⟨hdef, hinv⟩
    · rcases he with he | he
      · have h := completeUpdate_keeps u m sc s _ db out hdb he hd hinv
        exact ⟨h.1.trans hdef, h.2⟩
      · have h := completeInsert_keeps u m sc s _ db out hdb he hd hdef hinv
        exact ⟨h.1.trans hdef, h.2⟩
  | tick now => exact ⟨hdef, hinv⟩

theorem applyTraining_keeps (calls : List TrainingCall) :
    ∀ (s : State), s.tableDef "training_progress" = some trainingProgressDef →
      (∀ r ∈ s.rowsOf "training_progress", completedHasDate r) →
      ∀ r ∈ (applyTraining calls s).rowsOf "training_progress", completedHasDate r := by
  induction calls with
  | nil => intro s _ hinv; exact hinv
  | cons c rest ih =>
    intro s hdef hinv
    have h := trainingCall_keeps c s hdef hinv
    exact ih (c.apply s) h.1 h.2

/-- C19 (amended): in every state reached from an empty `training_progress`
table (stored as `createTables` declares it) through any sequence of requests
to the start, progress and complete handlers, at any times, every row whose
status is `completed` has a completion time. -/
theorem completed_records_have_completion_time (calls : List TrainingCall) (s : State)
    (hdef : s.tableDef "training_progress" = some trainingProgressDef)
    (hempty : s.rowsOf "training_progress" = []) :
    ∀ r ∈ (applyTraining calls s).rowsOf "training_progress", completedHasDate r := by
  apply applyTraining_keeps calls s hdef
  intro r hr
  rw [hempty] at hr
  cases hr

/-- Witness of C19 (amended): alice starts module 1, completes it, and later
reports a progress of 50. -/
theorem completed_records_have_completion_time_witness :
    trainingBase.tableDef "training_progress" = some trainingProgressDef ∧
      trainingBase.rowsOf "training_progress" = [] ∧
      ∀ r ∈ (applyTraining
        [TrainingCall.start alice "1", TrainingCall.complete alice "1" (JsValue.num 90),
          TrainingCall.tick "2024-02-01 00:00:00",
          TrainingCall.progress alice "1" (JsValue.num 50)] trainingBase).rowsOf
          "training_progress", completedHasDate r :=
  ⟨rfl, rfl, completed_records_have_completion_time _ trainingBase rfl rfl⟩

/-! ## Progress records: completion through a progress update -/

theorem idParam_ne_null (id : String) : idParam id ≠ Value.null := by
  unfold idParam Value.asInteger
  simp only
  generalize signedDecimal id.data = o
  cases o with
  | none => intro h; cases h
  | some n => intro h; cases h

theorem hundred_admitted (now : String) (r : Row) (cd : Column)
    (hcd : cd ∈ trainingProgressDef.columns)
    (ha : assigns
      [("progress", Expr.val (Value.int 100)),
        ("status", Expr.caseGe (Expr.val (Value.int 100)) (Expr.val (Value.int 100))
          (Expr.val (Value.text "completed")) (Expr.val (Value.text "in_progress"))),
        ("completed_at", Expr.caseGe (Expr.val (Value.int 100)) (Expr.val (Value.int 100))
          Expr.now (Expr.col "completed_at"))] cd.name = true) :
    cd.admits (Row.col (updateRow now
      [("progress", Expr.val (Value.int 100)),
        ("status", Expr.caseGe (Expr.val (Value.int 100)) (Expr.val (Value.int 100))
          (Expr.val (Value.text "completed")) (Expr.val (Value.text "in_progress"))),
        ("completed_at", Expr.caseGe (Expr.val (Value.int 100)) (Expr.val (Value.int 100))
          Expr.now (Expr.col "completed_at"))] r) cd.name) = true := by
  simp only [trainingProgressDef, List.mem_cons, List.mem_singleton, List.not_mem_nil,
    or_false] at hcd
  rcases hcd with rfl | rfl | rfl | rfl | rfl | rfl | rfl | rfl
  all_goals first
    | exact admits_free _ _ rfl rfl
    | (exfalso; revert ha; decide)
    | skip
  rw [col_updateRow_of_mem _ _ _ "status"
    (Expr.caseGe (Expr.val (Value.int 100)) (Expr.val (Value.int 100))
      (Expr.val (Value.text "completed")) (Expr.val (Value.text "in_progress")))
    (by decide) (by decide)]
  rfl

/-- A progress update to 100 answers 200 when the record is stored. -/
theorem updateProgress_hundred_ok (user : User) (moduleId : String) (s : State)
    (hdef : s.tableDef "training_progress" = some trainingProgressDef)
    (hex : ∃ r ∈ s.rowsOf "training_progress",
      matchesAll (progressConds user moduleId) r = true) :
    (updateProgress user moduleId (JsValue.num 100) s).1 =
      { status := 200, text := "Progress updated" } := by
  cases hdb : s.db with
  | none =>
    unfold State.tableDef at hdef
    rw [hdb] at hdef
    cases hdef
  | some db =>
    cases ht : db.conn.data.findTable "training_progress" with
    | none =>
      unfold State.tableDef at hdef
      rw [hdb] at hdef
      simp [ht] at hdef
    | some t =>
      have h0 := rowsOf_of_findTable s db "training_progress" t hdb ht
      rw [h0.2] at hdef
      have hdefn : t.defn = trainingProgressDef := Option.some.inj hdef
      rw [h0.1] at hex
      unfold updateProgress
      rw [if_neg (by decide)]
      have hget := get_selectWhere s db "training_progress" ["id"]
        (progressConds user moduleId) t hdb ht (by rw [hdefn]; rfl) (by rw [hdefn]; rfl)
      have hg := get_reads (Stmt.selectWhere "training_progress" ["id"]
        (progressConds user moduleId)) s rfl
      generalize get (Stmt.selectWhere "training_progress" ["id"]
        (progressConds user moduleId)) s = g at hg hget ⊢
      obtain ⟨r, s1⟩ := g
      simp only at hg hget
      subst hget
      cases hf : t.rows.filter (fun r => matchesAll (progressConds user moduleId) r) with
      | nil =>
        obtain ⟨r0, hr0, hm0⟩ := hex
        have : r0 ∈ t.rows.filter (fun r => matchesAll (progressConds user moduleId) r) :=
          List.mem_filter.2 ⟨hr0, hm0⟩
        rw [hf] at this
        cases this
      | cons r0 rest =>
        simp only [List.map_cons, List.head?_cons]
        obtain ⟨c1, hu⟩ := update_ok db.conn s1.now "training_progress"
          [("progress", Expr.val (Value.int 100)),
            ("status", Expr.caseGe (Expr.val (Value.int 100)) (Expr.val (Value.int 100))
              (Expr.val (Value.text "completed")) (Expr.val (Value.text "in_progress"))),
            ("completed_at", Expr.caseGe (Expr.val (Value.int 100)) (Expr.val (Value.int 100))
              Expr.now (Expr.col "completed_at"))]
          (progressConds user moduleId) t ht (by rw [hdefn]; rfl) (by rw [hdefn]; rfl)
          (by rw [hdefn]; rfl)
          (by
            intro r _ _ cd hcd ha
            rw [hdefn] at hcd
            exact hundred_admitted s1.now r cd hcd ha)
          (by rw [hdefn]; rfl) (by rw [hdefn]; rfl)
        have hexec : db.conn.exec s1.now (progressUpdate user moduleId (JsValue.num 100)) =
            Except.ok (ResultSet.none, c1) := by
          rw [exec_eq_apply _ _ _ (not_garbage_of_findTable _ _ _ ht)]
          simp only [progressUpdate, bindValue, Value.asInteger, Conn.apply, hu]
          rfl
        rw [run_exec_ok _ s1 db _ (hg.1.trans hdb) hexec]

theorem matches_updateRow_progress (user : User) (moduleId : String) (now : String)
    (sets : List (String × Expr)) (r : Row) (h1 : "user_id" ∉ sets.map Prod.fst)
    (h2 : "module_id" ∉ sets.map Prod.fst) :
    matchesAll (progressConds user moduleId) (updateRow now sets r) =
      matchesAll (progressConds user moduleId) r := by
  unfold matchesAll progressConds
  simp only [List.all_cons, List.all_nil]
  rw [col_updateRow_of_not_mem _ _ _ _ h1, col_updateRow_of_not_mem _ _ _ _ h2]

/-- C25: when the start handler has created the progress record of a user and
a module (it answered "Training started", the table being stored as
`createTables` declares it), one progress update to 100, at any later time,
answers 200 and leaves that record with status `completed`, progress 100 and
the time of the update as `completed_at`. -/
theorem progress_hundred_completes (user : User) (moduleId now : String) (s : State)
    (hdef : s.tableDef "training_progress" = some trainingProgressDef)
    (hstart : (startTraining user moduleId s).1 = { status := 200, text := "Training started" }) :
    (updateProgress user moduleId (JsValue.num 100)
        ((startTraining user moduleId s).2.later now)).1 =
        { status := 200, text := "Progress updated" } ∧
      (∃ r ∈ (updateProgress user moduleId (JsValue.num 100)
          ((startTraining user moduleId s).2.later now)).2.rowsOf "training_progress",
        matchesAll (progressConds user moduleId) r = true) ∧
      ∀ r ∈ (updateProgress user moduleId (JsValue.num 100)
          ((startTraining user moduleId s).2.later now)).2.rowsOf "training_progress",
        matchesAll (progressConds user moduleId) r = true →
          Row.col r "status" = Value.text "completed" ∧ Row.col r "progress" = Value.int 100 ∧
            Row.col r "completed_at" = Value.text now := by
  rcases startTraining_data user moduleId s with ⟨hne, _⟩ | ⟨db, out, hdb, he, _, hd⟩
  · exact absurd hstart hne
  unfold startInsert at he
  obtain ⟨⟨td, id, htd, hrows, _⟩, hdef1, _⟩ :=
    rows_after_insert s _ db out s.now "training_progress" _ _ hdb he hd
  rw [hdef] at htd
  cases htd
  generalize (startTraining user moduleId s).2 = s1 at hrows hdef1 ⊢
  have hdefL : (s1.later now).tableDef "training_progress" = some trainingProgressDef :=
    hdef1.trans hdef
  have hrowsL : (s1.later now).rowsOf "training_progress" = s1.rowsOf "training_progress" :=
    rfl
  have hexL : ∃ r ∈ (s1.later now).rowsOf "training_progress",
      matchesAll (progressConds user moduleId) r = true := by
    rw [hrowsL, hrows]
    refine ⟨_, List.mem_append_right _ (List.mem_singleton.2 rfl), ?_⟩
    unfold matchesAll progressConds
    simp only [List.all_cons, List.all_nil, Bool.and_true, Bool.and_eq_true]
    exact ⟨sqlEq_self _ (fun h => by cases h), sqlEq_self _ (idParam_ne_null moduleId)⟩
  have hok := updateProgress_hundred_ok user moduleId (s1.later now) hdefL hexL
  refine ⟨hok, ?_⟩
  rcases updateProgress_data user moduleId (JsValue.num 100) (s1.later now) with
    ⟨hne, _⟩ | ⟨db2, out2, hdb2, he2, _, hd2⟩
  · rw [hok] at hne
    exact absurd rfl hne
  have hu : progressUpdate user moduleId (JsValue.num 100) =
      Stmt.update "training_progress"
        [("progress", Expr.val (Value.int 100)),
          ("status", Expr.caseGe (Expr.val (Value.int 100)) (Expr.val (Value.int 100))
            (Expr.val (Value.text "completed")) (Expr.val (Value.text "in_progress"))),
          ("completed_at", Expr.caseGe (Expr.val (Value.int 100)) (Expr.val (Value.int 100))
            Expr.now (Expr.col "completed_at"))]
        (progressConds user moduleId) := rfl
  rw [hu] at he2
  have hfinal := (rows_after_update (s1.later now) _ db2 out2 (s1.later now).now
    "training_progress" _ _ hdb2 he2 hd2).1
  have hnow : (s1.later now).now = now := rfl
  rw [hnow] at hfinal
  rw [hfinal]
  constructor
  · obtain ⟨r, hr, hm⟩ := hexL
    refine ⟨_, List.mem_map.2 ⟨r, hr, rfl⟩, ?_⟩
    rw [if_pos hm, matches_updateRow_progress _ _ _ _ _ (by decide) (by decide)]
    exact hm
  · intro r1 hr1 hm1
    obtain ⟨r, hr, rfl⟩ := List.mem_map.1 hr1
    by_cases hm : matchesAll (progressConds user moduleId) r = true
    · rw [if_pos hm]
      refine ⟨?_, ?_, ?_⟩
      · rw [col_updateRow_of_mem _ _ _ "status"
          (Expr.caseGe (Expr.val (Value.int 100)) (Expr.val (Value.int 100))
            (Expr.val (Value.text "completed")) (Expr.val (Value.text "in_progress")))
          (by decide) (by decide)]
        rfl
      · rw [col_updateRow_of_mem _ _ _ "progress" (Expr.val (Value.int 100))
          (by decide) (by decide)]
        rfl
      · rw [col_updateRow_of_mem _ _ _ "completed_at"
          (Expr.caseGe (Expr.val (Value.int 100)) (Expr.val (Value.int 100))
            Expr.now (Expr.col "completed_at"))
          (by decide) (by decide)]
        rfl
    · rw [if_neg hm] at hm1
      exact absurd hm1 hm

/-- Witness of C25: alice starts module 1 and reports a progress of 100 a month
later. -/
theorem progress_hundred_completes_witness :
    trainingBase.tableDef "training_progress" = some trainingProgressDef ∧
      (startTraining alice "1" trainingBase).1 = { status := 200, text := "Training started" } ∧
      ((updateProgress alice "1" (JsValue.num 100)
          ((startTraining alice "1" trainingBase).2.later "2024-02-01 00:00:00")).2.rowsOf
          "training_progress").map
        (fun r => (Row.col r "status", Row.col r "progress", Row.col r "completed_at")) =
        [(Value.text "completed", Value.int 100, Value.text "2024-02-01 00:00:00")] ∧
      (updateProgress alice "1" (JsValue.num 100)
        ((startTraining alice "1" trainingBase).2.later "2024-02-01 00:00:00")).1 =
        { status := 200, text := "Progress updated" } :=
  ⟨rfl, rfl, rfl,
    (progress_hundred_completes alice "1" "2024-02-01 00:00:00" trainingBase rfl rfl).1⟩

/-! ## Users: the roles that can be stored -/

/-- Replacing a table by one of the same declaration keeps an invariant of the
rows of `users` when the new rows satisfy it. -/
theorem holds_setTable (P : Row → Prop) (d : Data) (t t1 : Table) (n : String)
    (hd : TableHolds "users" usersDef P d) (ht : d.findTable n = some t)
    (hdefn : t1.defn = t.defn)
    (hrows : n = "users" → (∀ r ∈ t.rows, P r) → ∀ r ∈ t1.rows, P r) :
    TableHolds "users" usersDef P (d.setTable t1) := by
  obtain ⟨tu, htu, hud, hup⟩ := hd
  have hname : t1.defn.name = n := by rw [hdefn]; exact findTable_some_name _ _ _ ht
  by_cases hn : n = "users"
  · subst hn
    have e : tu = t := Option.some.inj (htu.symm.trans ht)
    subst e
    exact ⟨t1, findTable_setTable_same d tu t1 "users" htu hname, hdefn.trans hud, hrows rfl hup⟩
  · refine ⟨tu, ?_, hud, hup⟩
    rw [findTable_setTable_other d t1 "users" (by rw [hname]; exact hn)]
    exact htu

theorem col_setCol_null (r : Row) (c k : String) :
    Row.col (Row.setCol r c Value.null) k = Value.null ∨
      Row.col (Row.setCol r c Value.null) k = Row.col r k := by
  induction r with
  | nil => right; rfl
  | cons kv rest ih =>
    obtain ⟨k1, v1⟩ := kv
    unfold Row.setCol Row.col at ih ⊢
    simp only [List.map_cons]
    by_cases h1 : k1 = c
    · rw [if_pos h1]
      by_cases h2 : k1 = k
      · left
        simp [JsObject.get, h2]
      · simp only [JsObject.get, h2, if_false]
        exact ih
    · rw [if_neg h1]
      by_cases h2 : k1 = k
      · right
        simp [JsObject.get, h2]
      · simp only [JsObject.get, h2, if_false]
        exact ih

theorem roleAdmitted_setCol (r : Row) (c : String) (h : roleAdmitted r) :
    roleAdmitted (Row.setCol r c Value.null) := by
  unfold roleAdmitted at h ⊢
  rcases col_setCol_null r c "role" with h1 | h1
  · exact Or.inl h1
  · rw [h1]
    exact h

theorem roleAdmitted_of_admits (r : Row)
    (h : ∀ cd ∈ usersDef.columns, cd.name = "role" → cd.admits (Row.col r cd.name) = true) :
    roleAdmitted r := by
  have h1 := h (Column.mk "role" false false (ColDefault.lit (Value.text "employee"))
    (some ["admin", "manager", "supervisor", "employee"])) (by decide) rfl
  unfold roleAdmitted
  simp only [Column.admits, Bool.false_and, Bool.not_false, Bool.true_and] at h1
  cases hv : Row.col r "role" with
  | null => exact Or.inl rfl
  | int n => rw [hv] at h1; simp [checkPasses] at h1
  | text x =>
    rw [hv] at h1
    simp only [checkPasses, decide_eq_true_eq] at h1
    exact Or.inr ⟨x, h1, rfl⟩

theorem deleteIds_holds (fuel : Nat) :
    ∀ (d : Data) (table : String) (ids : List Value) (r : Data),
      Data.deleteIds fuel d table ids = Except.ok r →
        TableHolds "users" usersDef roleAdmitted d →
          TableHolds "users" usersDef roleAdmitted r := by
  induction fuel with
  | zero =>
    intro d table ids r h
    simp [Data.deleteIds] at h
  | succ fuel ih =>
    intro d table ids r h hd
    unfold Data.deleteIds at h
    cases hf : d.findTable table with
    | none => simp [hf] at h
    | some t =>
      simp only [hf] at h
      have key := foldlM_except_inv
        (fun acc : Data => TableHolds "users" usersDef roleAdmitted acc) _
        (by
          intro b a b1 hb hstep
          cases hc : b.findTable a.1 with
          | none =>
            simp only [hc] at hstep
            cases hstep
            exact hb
          | some ct =>
            simp only [hc] at hstep
            by_cases h1 : (List.filter (fun r => ids.contains (Row.col r a.2.column))
                ct.rows).isEmpty = true
            · rw [if_pos h1] at hstep
              cases hstep
              exact hb
            · rw [if_neg h1] at hstep
              cases hact : a.2.onDelete with
              | noAction => simp [hact] at hstep
              | cascade =>
                simp only [hact] at hstep
                exact ih _ _ _ _ hstep hb
              | setNull =>
                simp only [hact] at hstep
                by_cases h2 : ct.defn.isNotNull a.2.column = true
                · rw [if_pos h2] at hstep
                  cases hstep
                · rw [if_neg h2] at hstep
                  cases hstep
                  refine holds_setTable roleAdmitted b ct { ct with rows := _ } a.1 hb hc rfl ?_
                  intro _ hall r1 hr1
                  obtain ⟨r0, hr0, rfl⟩ := List.mem_map.1 hr1
                  split_ifs
                  · exact roleAdmitted_setCol _ _ (hall r0 hr0)
                  · exact hall r0 hr0)
        _ _ r
        (by
          refine holds_setTable roleAdmitted d t { t with rows := _ } table hd hf rfl ?_
          intro _ hall r1 hr1
          exact hall r1 (List.mem_filter.1 hr1).1) h
      exact key

theorem assigns_iff (sets : List (String × Expr)) (c : String) :
    assigns sets c = true ↔ c ∈ sets.map Prod.fst := by
  unfold assigns
  simp only [List.any_eq_true, decide_eq_true_eq, List.mem_map]

/-- Every statement the engine accepts keeps the roles of `users` admitted. -/
theorem exec_holds (c : Conn) (now : String) (sql : Stmt) (out : ResultSet × Conn)
    (h : c.exec now sql = Except.ok out)
    (hd : TableHolds "users" usersDef roleAdmitted c.data) :
    TableHolds "users" usersDef roleAdmitted out.2.data := by
  have hins : ∀ (table : String) (cols : List String) (vals : List Value) (c1 : Conn),
      c.insert now table cols vals = Except.ok c1 →
        TableHolds "users" usersDef roleAdmitted c1.data := by
    intro table cols vals c1 hi
    obtain ⟨t, id, ht, hdata, hadm⟩ := insert_data _ _ _ _ _ _ hi
    rw [hdata]
    refine holds_setTable roleAdmitted c.data t { t with rows := _, seq := _ } table hd ht rfl ?_
    intro hn hall r hr
    rcases List.mem_append.1 hr with h1 | h1
    · exact hall r h1
    · rw [List.mem_singleton] at h1
      subst h1
      subst hn
      obtain ⟨tu, htu, hud, _⟩ := hd
      have e : tu = t := Option.some.inj (htu.symm.trans ht)
      subst e
      apply roleAdmitted_of_admits
      intro cd hcd _
      rw [← hud] at hcd
      exact hadm cd hcd
  cases sql with
  | pragmaForeignKeys b =>
    replace h := (exec_ok _ _ _ _ h).1
    simp only [Conn.apply] at h
    cases h
    exact hd
  | createTable td =>
    replace h := (exec_ok _ _ _ _ h).1
    simp only [Conn.apply] at h
    obtain ⟨c1, hc, rfl⟩ := map_ok _ _ _ h
    unfold Conn.createTable at hc
    cases hf : c.data.findTable td.name with
    | some t =>
      rw [hf] at hc
      cases hc
      exact hd
    | none =>
      rw [hf] at hc
      simp only at hc
      split_ifs at hc
      cases hc
      obtain ⟨tu, htu, hud, hup⟩ := hd
      refine ⟨tu, ?_, hud, hup⟩
      have hg := not_garbage_of_findTable _ _ _ htu
      unfold Data.findTable at htu ⊢
      rw [tables_withTables _ _ hg]
      simp only [List.find?_append, htu]
      rfl
  | createIndex i =>
    replace h := (exec_ok _ _ _ _ h).1
    simp only [Conn.apply] at h
    obtain ⟨c1, hc, rfl⟩ := map_ok _ _ _ h
    unfold Conn.createIndex at hc
    split_ifs at hc
    · cases hc
      exact hd
    · cases hf : c.data.findTable i.table with
      | none => rw [hf] at hc; cases hc
      | some t =>
        rw [hf] at hc
        simp only at hc
        split_ifs at hc
        cases hc
        obtain ⟨tu, htu, hud, hup⟩ := hd
        refine ⟨tu, ?_, hud, hup⟩
        unfold Data.findTable at htu ⊢
        rw [tables_withIndexes]
        exact htu
  | dropIndex n =>
    replace h := (exec_ok _ _ _ _ h).1
    simp only [Conn.apply] at h
    obtain ⟨c1, hc, rfl⟩ := map_ok _ _ _ h
    unfold Conn.dropIndex at hc
    split_ifs at hc
    cases hc
    obtain ⟨tu, htu, hud, hup⟩ := hd
    refine ⟨tu, ?_, hud, hup⟩
    unfold Data.findTable at htu ⊢
    rw [tables_withIndexes]
    exact htu
  | insert table cols vals =>
    replace h := (exec_ok _ _ _ _ h).1
    simp only [Conn.apply] at h
    obtain ⟨c1, hc, rfl⟩ := map_ok _ _ _ h
    exact hins table cols vals c1 hc
  | delete table w v =>
    replace h := (exec_ok _ _ _ _ h).1
    simp only [Conn.apply] at h
    obtain ⟨c1, hc, rfl⟩ := map_ok _ _ _ h
    unfold Conn.delete at hc
    cases hf : c.data.findTable table with
    | none => simp [hf] at hc
    | some t =>
      simp only [hf] at hc
      by_cases hcol : (!(t.defn.hasColumn w)) = true
      · rw [if_pos hcol] at hc
        cases hc
      · rw [if_neg hcol] at hc
        by_cases hfk : c.foreignKeys = true
        · simp only [hfk, if_true] at hc
          cases hdel : Data.deleteIds maxTriggerDepth c.data table
              (List.map Row.id (List.filter (fun r => Value.sqlEq (Row.col r w) v) t.rows)) with
          | error e => simp [hdel] at hc
          | ok d1 =>
            simp only [hdel] at hc
            cases hc
            exact deleteIds_holds _ _ _ _ _ hdel hd
        · simp only [hfk] at hc
          cases hc
          refine holds_setTable roleAdmitted c.data t { t with rows := _ } table hd hf rfl ?_
          intro _ hall r1 hr1
          exact hall r1 (List.mem_filter.1 hr1).1
  | select table w v =>
    replace h := (exec_ok _ _ _ _ h).1
    simp only [Conn.apply] at h
    obtain ⟨a, _, rfl⟩ := map_ok _ _ _ h
    exact hd
  | selectAll table =>
    replace h := (exec_ok _ _ _ _ h).1
    simp only [Conn.apply] at h
    obtain ⟨a, _, rfl⟩ := map_ok _ _ _ h
    exact hd
  | selectLastInsertRowid =>
    replace h := (exec_ok _ _ _ _ h).1
    simp only [Conn.apply] at h
    cases h
    exact hd
  | selectChanges =>
    replace h := (exec_ok _ _ _ _ h).1
    simp only [Conn.apply] at h
    cases h
    exact hd
  | malformed text =>
    replace h := (exec_ok _ _ _ _ h).1
    simp [Conn.apply] at h
  | insertExprs table cols exprs =>
    replace h := (exec_ok _ _ _ _ h).1
    simp only [Conn.apply] at h
    obtain ⟨c1, hc, rfl⟩ := map_ok _ _ _ h
    unfold Conn.insertExprs at hc
    split_ifs at hc
    exact hins table cols _ c1 hc
  | update table sets conds =>
    replace h := (exec_ok _ _ _ _ h).1
    simp only [Conn.apply] at h
    obtain ⟨c1, hc, rfl⟩ := map_ok _ _ _ h
    obtain ⟨t, ht, hdata, hadm⟩ := update_data _ _ _ _ _ _ hc
    rw [hdata]
    refine holds_setTable roleAdmitted c.data t { t with rows := _ } table hd ht rfl ?_
    intro hn hall r1 hr1
    obtain ⟨r, hr, rfl⟩ := List.mem_map.1 hr1
    by_cases hm : matchesAll conds r = true
    · rw [if_pos hm]
      subst hn
      obtain ⟨tu, htu, hud, _⟩ := hd
      have e : tu = t := Option.some.inj (htu.symm.trans ht)
      subst e
      by_cases ha : assigns sets "role" = true
      · apply roleAdmitted_of_admits
        intro cd hcd hname
        rw [← hud] at hcd
        exact hadm r hr hm cd hcd (by rw [hname]; exact ha)
      · have hnot : "role" ∉ sets.map Prod.fst := fun hmem => ha ((assigns_iff _ _).2 hmem)
        unfold roleAdmitted
        rw [col_updateRow_of_not_mem _ _ _ _ hnot]
        exact hall r hr
    · rw [if_neg hm]
      exact hall r hr
  | selectWhere table cols conds =>
    replace h := (exec_ok _ _ _ _ h).1
    simp only [Conn.apply] at h
    obtain ⟨a, _, rfl⟩ := map_ok _ _ _ h
    exact hd
  | bindFailure text =>
    replace h := (exec_ok _ _ _ _ h).1
    simp [Conn.apply] at h

theorem run_holds (sql : Stmt) (s : State)
    (h : HasData (TableHolds "users" usersDef roleAdmitted) s) :
    HasData (TableHolds "users" usersDef roleAdmitted) (run sql s).2 := by
  obtain ⟨db, hdb, hP⟩ := h
  have hdata : ∀ s1 : State, (∃ d, s1.data = some d ∧ TableHolds "users" usersDef roleAdmitted d) →
      HasData (TableHolds "users" usersDef roleAdmitted) s1 := by
    intro s1 ⟨d, hd, hPd⟩
    unfold State.data at hd
    cases hdb1 : s1.db with
    | none => rw [hdb1] at hd; cases hd
    | some db1 =>
      rw [hdb1] at hd
      simp only [Option.map_some', Option.some.injEq] at hd
      exact ⟨db1, hdb1, by rw [hd]; exact hPd⟩
  apply hdata
  rcases (run_data sql s).2 with ⟨_, hsame⟩ | ⟨db1, out, hdb1, he, _, hd⟩
  · refine ⟨db.conn.data, ?_, hP⟩
    rw [hsame]
    unfold State.data
    rw [hdb]
    rfl
  · rw [hdb] at hdb1
    cases hdb1
    exact ⟨_, hd, exec_holds _ _ _ _ he hP⟩

theorem runEach_holds (stmts : List Stmt) :
    ∀ s : State, HasData (TableHolds "users" usersDef roleAdmitted) s →
      HasData (TableHolds "users" usersDef roleAdmitted) (runEach stmts s) := by
  induction stmts with
  | nil => intro s h; exact h
  | cons sql rest ih =>
    intro s h
    exact ih _ (run_holds sql s h)

/-- C22 (amended): in every state reached from an empty `users` table (stored
as `createTables` declares it) through any sequence of statements passed to
`run`, the role of every users row is NULL or one of admin, manager,
supervisor, employee. -/
theorem stored_roles_admitted (stmts : List Stmt) (s : State)
    (hdef : s.tableDef "users" = some usersDef) (hempty : s.rowsOf "users" = []) :
    ∀ r ∈ (runEach stmts s).rowsOf "users", roleAdmitted r := by
  have h0 : HasData (TableHolds "users" usersDef roleAdmitted) s := by
    cases hdb : s.db with
    | none =>
      unfold State.tableDef at hdef
      rw [hdb] at hdef
      cases hdef
    | some db =>
      cases ht : db.conn.data.findTable "users" with
      | none =>
        unfold State.tableDef at hdef
        rw [hdb] at hdef
        simp [ht] at hdef
      | some t =>
        have h1 := rowsOf_of_findTable s db "users" t hdb ht
        rw [h1.2] at hdef
        rw [h1.1] at hempty
        refine ⟨db, hdb, t, ht, Option.some.inj hdef, ?_⟩
        intro r hr
        rw [hempty] at hr
        cases hr
  obtain ⟨db, hdb, t, ht, _, hrows⟩ := runEach_holds stmts s h0
  rw [(rowsOf_of_findTable _ db "users" t hdb ht).1]
  exact hrows

/-- Witness of C22 (amended): a user stored with the default role, one stored
without role, and a rejected update to a role outside the list. -/
theorem stored_roles_admitted_witness :
    started.tableDef "users" = some usersDef ∧ started.rowsOf "users" = [] ∧
      ((runEach [insertUser "alice@example.com", insertUserWithoutRole,
          Stmt.update "users" [("role", Expr.val (Value.text "owner"))] []] started).rowsOf
        "users").map (fun r => Row.col r "role") = [Value.text "employee", Value.null] ∧
      ∀ r ∈ (runEach [insertUser "alice@example.com", insertUserWithoutRole,
          Stmt.update "users" [("role", Expr.val (Value.text "owner"))] []] started).rowsOf
        "users", roleAdmitted r :=
  ⟨rfl, rfl, rfl, stored_roles_admitted _ started rfl rfl⟩

end RiskSafety
